import Mathlib

/-!
# SELECT-query parser of clickhouse-sql-parser: shallow embedding

The Go file `parser/parser_query.go` is a recursive-descent parser over a token
cursor.  Every Go method `func (p *Parser) f(...) (T, error)` becomes a Lean
function into the monad `P`, a state-passing function on the cursor `Lexer`
whose result `Res` is a value with the new cursor, an error, or fuel exhaustion.
Recursive methods and loops take a fuel argument that bounds call depth and
loop iterations.

The token cursor, the scalar-expression layer and the AST declarations are not
part of `parser_query.go`:
* the cursor is modelled from its interface (section 6 of the specification);
* the scalar-expression layer is a parameter `Scalar α` of every parser;
* the AST node types are reconstructed from the composite literals of the file.
-/

namespace ClickHouse

/-! ## Tokens and the token cursor -/

/-- Go `type Pos int`: an offset into the source text. -/
abbrev Pos := Nat

/-- Go `type TokenKind string`. -/
abbrev TokenKind := String

def TokenEOF : TokenKind := "<eof>"
def TokenIdent : TokenKind := "<ident>"
def TokenKeyword : TokenKind := "<keyword>"
def TokenInt : TokenKind := "<int>"
def TokenFloat : TokenKind := "<float>"

/-- Modelled from the spec: the lexer's `Token` (not in `parser_query.go`); the file reads
the fields `Pos`, `End`, `Kind` and `String`. -/
structure Token where
  Kind : TokenKind
  String : String
  Pos : ClickHouse.Pos
  End : ClickHouse.Pos
  deriving DecidableEq, Repr

/-- Modelled from the spec: the token cursor ("exposes peek-by-kind, peek-by-keyword, consume,
and current-position operations over an immutable token sequence; never backtracks").
`tokens` are the tokens not yet consumed; the head is the token under the cursor, which is
what `p.last()` returns (the file reads `p.last().String` right after `matchKeyword` and
before `consumeToken`).  `current` is the offset reported once no token is left. -/
structure Lexer where
  tokens : List Token
  current : Pos
  deriving DecidableEq, Repr

/-- Outcome of a parser call: a value and the cursor after it, a parse error, or fuel
exhaustion (only recursive parsers and loops produce the latter). -/
inductive Res (β : Type) where
  | ok (val : β) (lx : Lexer)
  | err (msg : String)
  | fuel

/-- A parser method: a function of the cursor. -/
def P (β : Type) : Type := Lexer → Res β

def P.pure {β : Type} (b : β) : P β := fun l => Res.ok b l

def P.bind {β γ : Type} (x : P β) (f : β → P γ) : P γ := fun l =>
  match x l with
  | Res.ok b l1 => f b l1
  | Res.err e => Res.err e
  | Res.fuel => Res.fuel

instance : Monad P where
  pure := P.pure
  bind := P.bind

/-- Go `return nil, err`. -/
def P.fail {β : Type} (msg : String) : P β := fun _ => Res.err msg

/-- Fuel exhausted. -/
def P.outOfFuel {β : Type} : P β := fun _ => Res.fuel

/-- ASCII upper-casing, the part of Go `strings.ToUpper` that keywords exercise. -/
def toUpper (s : String) : String := String.mk (s.data.map Char.toUpper)

/-- Go `strings.EqualFold`, on ASCII letters. -/
def equalFold (a b : String) : Bool := a.data.map Char.toUpper == b.data.map Char.toUpper

namespace Lexer

/-- Modelled from the spec: Go `p.last()`, the token under the cursor, `nil` at end of
input. -/
def last (l : Lexer) : Option Token := l.tokens.head?

/-- Modelled from the spec: Go `p.lastTokenKind()`, the kind of the token under the cursor,
`TokenEOF` at end of input. -/
def lastTokenKind (l : Lexer) : TokenKind :=
  match l.last with
  | none => TokenEOF
  | some t => t.Kind

/-- Modelled from the spec: Go `p.Pos()` ("current-position"), the start of the token under
the cursor. -/
def Pos (l : Lexer) : ClickHouse.Pos :=
  match l.last with
  | none => l.current
  | some t => t.Pos

/-- Modelled from the spec: Go `p.matchTokenKind(kind)` ("peek-by-kind"), whether the token
under the cursor has kind `kind`. -/
def matchTokenKind (l : Lexer) (kind : TokenKind) : Bool :=
  match l.last with
  | none => false
  | some t => t.Kind == kind

/-- Modelled from the spec: Go `p.matchKeyword(keyword)` ("peek-by-keyword"), whether the
token under the cursor is a keyword token whose text is `keyword` up to letter case. -/
def matchKeyword (l : Lexer) (keyword : String) : Bool :=
  match l.last with
  | none => false
  | some t => t.Kind == TokenKeyword && equalFold t.String keyword

/-- Modelled from the spec: Go `p.lexer.consumeToken()` ("consume"), the cursor one token
forward. -/
def consumeToken (l : Lexer) : Lexer := { l with tokens := l.tokens.tail }

end Lexer

/-! ### Cursor operations as parser actions -/

/-- `p.Pos()` as a parser action. -/
def getPos : P Pos := fun l => Res.ok l.Pos l

/-- Modelled from the spec: Go `p.last().f`, a field read on the token under the cursor.  At
end of input `p.last()` is nil and Go panics; the panic is reported as an error. -/
def lastToken : P Token := fun l =>
  match l.last with
  | none => Res.err "panic: nil pointer dereference"
  | some t => Res.ok t l

/-- `p.lastTokenKind()` as a parser action. -/
def lastTokenKind : P TokenKind := fun l => Res.ok l.lastTokenKind l

/-- `p.matchTokenKind(kind)` as a parser action. -/
def matchTokenKind (kind : TokenKind) : P Bool := fun l => Res.ok (l.matchTokenKind kind) l

/-- `p.matchKeyword(keyword)` as a parser action. -/
def matchKeyword (keyword : String) : P Bool := fun l => Res.ok (l.matchKeyword keyword) l

/-- `p.lexer.consumeToken()` as a parser action; its error result is discarded in Go. -/
def consumeToken : P Unit := fun l => Res.ok () l.consumeToken

/-- Modelled from the spec: Go `p.tryConsumeTokenKind(kind)`, which consumes the token under
the cursor and returns it when it has kind `kind`, and returns `nil` otherwise. -/
def tryConsumeTokenKind (kind : TokenKind) : P (Option Token) := fun l =>
  if l.matchTokenKind kind then Res.ok l.last l.consumeToken else Res.ok none l

/-- Modelled from the spec: Go `p.consumeTokenKind(kind)`, as `tryConsumeTokenKind` with an
error in place of `nil`. -/
def consumeTokenKind (kind : TokenKind) : P (Option Token) := fun l =>
  if l.matchTokenKind kind then Res.ok l.last l.consumeToken
  else Res.err ("expected token kind: " ++ kind ++ ", but got " ++ l.lastTokenKind)

/-- Modelled from the spec: Go `p.tryConsumeKeyword(keyword)`, which consumes the token under
the cursor and returns it when it is the keyword, and returns `nil` otherwise. -/
def tryConsumeKeyword (keyword : String) : P (Option Token) := fun l =>
  if l.matchKeyword keyword then Res.ok l.last l.consumeToken else Res.ok none l

/-- Modelled from the spec: Go `p.consumeKeyword(keyword)`, as `tryConsumeKeyword` with an
error in place of `nil`. -/
def consumeKeyword (keyword : String) : P Unit := fun l =>
  if l.matchKeyword keyword then Res.ok () l.consumeToken
  else Res.err ("expected keyword: " ++ keyword ++ ", but got " ++ l.lastTokenKind)

/-! ### Keywords used by the file -/

def KeywordAll := "ALL"
def KeywordAnd := "AND"
def KeywordAnti := "ANTI"
def KeywordAny := "ANY"
def KeywordArray := "ARRAY"
def KeywordAs := "AS"
def KeywordAsof := "ASOF"
def KeywordBetween := "BETWEEN"
def KeywordBy := "BY"
def KeywordCross := "CROSS"
def KeywordCube := "CUBE"
def KeywordCurrent := "CURRENT"
def KeywordDistinct := "DISTINCT"
def KeywordFinal := "FINAL"
def KeywordFollowing := "FOLLOWING"
def KeywordFrom := "FROM"
def KeywordFull := "FULL"
def KeywordGlobal := "GLOBAL"
def KeywordGroup := "GROUP"
def KeywordHaving := "HAVING"
def KeywordInner := "INNER"
def KeywordJoin := "JOIN"
def KeywordLeft := "LEFT"
def KeywordLimit := "LIMIT"
def KeywordLocal := "LOCAL"
def KeywordOffset := "OFFSET"
def KeywordOn := "ON"
def KeywordOuter := "OUTER"
def KeywordPreceding := "PRECEDING"
def KeywordPrewhere := "PREWHERE"
def KeywordRange := "RANGE"
def KeywordRight := "RIGHT"
def KeywordRollup := "ROLLUP"
def KeywordRow := "ROW"
def KeywordRows := "ROWS"
def KeywordSample := "SAMPLE"
def KeywordSelect := "SELECT"
def KeywordSemi := "SEMI"
def KeywordTies := "TIES"
def KeywordTop := "TOP"
def KeywordTotals := "TOTALS"
def KeywordUnbounded := "UNBOUNDED"
def KeywordUnion := "UNION"
def KeywordUsing := "USING"
def KeywordWhere := "WHERE"
def KeywordWindow := "WINDOW"
def KeywordWith := "WITH"

/-! ## AST nodes

`α` is the type of the nodes built by the scalar-expression layer (column expressions,
identifiers, literals, argument lists), which this file only stores. -/

/-- Go `TableIdentifier`; the file reads the fields `Database` (nil when unqualified) and
`Table`. -/
structure TableIdentifier (α : Type) where
  Database : Option α
  Table : α

structure TableFunctionExpr (α : Type) where
  Name : α
  Args : α

structure TopExpr (α : Type) where
  TopPos : Pos
  TopEnd : Pos
  Number : α
  WithTies : Bool

/-- Go `OnExpr` and `UsingExpr`, the two non-nil values of `JoinExpr.Constraints`. -/
inductive JoinConstraints (α : Type) where
  | OnExpr (OnPos : Pos) (On : α)
  | UsingExpr (UsingPos : Pos) (Using : α)

structure SampleRatioExpr (α : Type) where
  SamplePos : Pos
  Ratio : α
  Offset : Option α

structure PrewhereExpr (α : Type) where
  PrewherePos : Pos
  Expr : α

structure WhereExpr (α : Type) where
  WherePos : Pos
  Expr : α

structure HavingExpr (α : Type) where
  HavingPos : Pos
  Expr : α

structure GroupByExpr (α : Type) where
  GroupByPos : Pos
  AggregateType : String
  Expr : α
  WithCube : Bool
  WithRollup : Bool
  WithTotals : Bool

structure LimitByExpr (α : Type) where
  LimitPos : Pos
  Limit : α
  Offset : Option α
  ByExpr : Option α

/-- Go `ArrayJoinExpr`; `Typ` is the Go field `Type`. -/
structure ArrayJoinExpr (α : Type) where
  ArrayPos : Pos
  Typ : String
  Expr : α

mutual
/-- Go `WindowFrameExpr`; `Typ` is the Go field `Type`. -/
inductive WindowFrameExpr (α : Type) where
  | mk (FramePos : Pos) (Typ : String) (Extend : WindowFrameExtend α)
/-- The values of `WindowFrameExpr.Extend`: Go `WindowFrameRangeExpr`,
`WindowFrameCurrentRow`, `WindowFrameUnbounded` and `WindowFrameNumber`. -/
inductive WindowFrameExtend (α : Type) where
  | WindowFrameRangeExpr (BetweenPos : Pos) (BetweenExpr : WindowFrameExpr α) (AndPos : Pos)
      (AndExpr : WindowFrameExpr α)
  | WindowFrameCurrentRow (CurrentPos : Pos) (RowEnd : Pos)
  | WindowFrameUnbounded (UnboundedPos : Pos) (Direction : String)
  | WindowFrameNumber (UnboundedEnd : Pos) (Number : α) (Direction : String)
end

def WindowFrameExpr.FramePos {α : Type} : WindowFrameExpr α → Pos
  | WindowFrameExpr.mk p _ _ => p

def WindowFrameExpr.Typ {α : Type} : WindowFrameExpr α → String
  | WindowFrameExpr.mk _ t _ => t

def WindowFrameExpr.Extend {α : Type} : WindowFrameExpr α → WindowFrameExtend α
  | WindowFrameExpr.mk _ _ e => e

structure WindowConditionExpr (α : Type) where
  LeftParenPos : Pos
  RightParenPos : Pos
  PartitionBy : Option α
  OrderBy : Option α
  Frame : Option (WindowFrameExpr α)

structure WindowExpr (α : Type) where
  WindowPos : Pos
  Name : α
  WindowConditionExpr : WindowConditionExpr α

mutual
/-- The values of the Go interface `Expr` that the FROM clause builds: `TableIdentifier`,
`TableFunctionExpr`, `SelectExprList`, `AliasExpr`, `TableExpr` and `JoinExpr`. -/
inductive Expr (α : Type) where
  | tableIdentifier (t : TableIdentifier α)
  | tableFunction (f : TableFunctionExpr α)
  | selectList (s : SelectExprList α)
  | alias (expr : Expr α) (AliasPos : Pos) (Alias : α)
  | table (t : TableExpr α)
  | join (JoinPos : Pos) (Left : Expr α) (Right : Expr α)
      (SampleRatio : Option (SampleRatioExpr α)) (Constraints : Option (JoinConstraints α))
inductive TableExpr (α : Type) where
  | mk (TablePos : Pos) (TableEnd : Pos) (expr : Expr α)
inductive SelectExprList (α : Type) where
  | mk (Items : List (SelectExpr α))
inductive FromExpr (α : Type) where
  | mk (FromPos : Pos) (expr : Expr α)
inductive CTEExpr (α : Type) where
  | mk (CTEPos : Pos) (Name : α) (selectExpr : SelectExpr α) (EndPos : Pos)
      (ColumnAliases : List α)
inductive WithExpr (α : Type) where
  | mk (WithPos : Pos) (CTEs : List (CTEExpr α)) (EndPos : Pos)
inductive SelectExpr (α : Type) where
  | mk (With : Option (WithExpr α)) (SelectPos : Pos) (StatementEnd : Pos)
      (Top : Option (TopExpr α)) (SelectColumns : α) (From : Option (FromExpr α))
      (ArrayJoin : Option (ArrayJoinExpr α)) (Window : Option (WindowExpr α))
      (Prewhere : Option (PrewhereExpr α)) (Where : Option (WhereExpr α))
      (GroupBy : Option (GroupByExpr α)) (Having : Option (HavingExpr α))
      (OrderBy : Option α) (LimitBy : Option (LimitByExpr α)) (Settings : Option α)
end

structure SubQueryExpr (α : Type) where
  AsPos : Pos
  Selects : SelectExprList α

def TableExpr.TablePos {α : Type} : TableExpr α → Pos
  | TableExpr.mk p _ _ => p

def TableExpr.TableEnd {α : Type} : TableExpr α → Pos
  | TableExpr.mk _ e _ => e

def TableExpr.Expr {α : Type} : TableExpr α → Expr α
  | TableExpr.mk _ _ e => e

def SelectExprList.Items {α : Type} : SelectExprList α → List (SelectExpr α)
  | SelectExprList.mk items => items

def FromExpr.FromPos {α : Type} : FromExpr α → Pos
  | FromExpr.mk p _ => p

def FromExpr.Expr {α : Type} : FromExpr α → Expr α
  | FromExpr.mk _ e => e

def CTEExpr.EndPos {α : Type} : CTEExpr α → Pos
  | CTEExpr.mk _ _ _ e _ => e

def WithExpr.EndPos {α : Type} : WithExpr α → Pos
  | WithExpr.mk _ _ e => e

def SelectExpr.SelectPos {α : Type} : SelectExpr α → Pos
  | SelectExpr.mk _ p _ _ _ _ _ _ _ _ _ _ _ _ _ => p

def SelectExpr.StatementEnd {α : Type} : SelectExpr α → Pos
  | SelectExpr.mk _ _ e _ _ _ _ _ _ _ _ _ _ _ _ => e

def SelectExpr.With {α : Type} : SelectExpr α → Option (WithExpr α)
  | SelectExpr.mk w _ _ _ _ _ _ _ _ _ _ _ _ _ _ => w

def SelectExpr.Top {α : Type} : SelectExpr α → Option (TopExpr α)
  | SelectExpr.mk _ _ _ t _ _ _ _ _ _ _ _ _ _ _ => t

def SelectExpr.SelectColumns {α : Type} : SelectExpr α → α
  | SelectExpr.mk _ _ _ _ c _ _ _ _ _ _ _ _ _ _ => c

def SelectExpr.From {α : Type} : SelectExpr α → Option (FromExpr α)
  | SelectExpr.mk _ _ _ _ _ f _ _ _ _ _ _ _ _ _ => f

def SelectExpr.ArrayJoin {α : Type} : SelectExpr α → Option (ArrayJoinExpr α)
  | SelectExpr.mk _ _ _ _ _ _ a _ _ _ _ _ _ _ _ => a

def SelectExpr.Window {α : Type} : SelectExpr α → Option (WindowExpr α)
  | SelectExpr.mk _ _ _ _ _ _ _ w _ _ _ _ _ _ _ => w

def SelectExpr.Prewhere {α : Type} : SelectExpr α → Option (PrewhereExpr α)
  | SelectExpr.mk _ _ _ _ _ _ _ _ p _ _ _ _ _ _ => p

def SelectExpr.Where {α : Type} : SelectExpr α → Option (WhereExpr α)
  | SelectExpr.mk _ _ _ _ _ _ _ _ _ w _ _ _ _ _ => w

def SelectExpr.GroupBy {α : Type} : SelectExpr α → Option (GroupByExpr α)
  | SelectExpr.mk _ _ _ _ _ _ _ _ _ _ g _ _ _ _ => g

def SelectExpr.Having {α : Type} : SelectExpr α → Option (HavingExpr α)
  | SelectExpr.mk _ _ _ _ _ _ _ _ _ _ _ h _ _ _ => h

def SelectExpr.OrderBy {α : Type} : SelectExpr α → Option α
  | SelectExpr.mk _ _ _ _ _ _ _ _ _ _ _ _ o _ _ => o

def SelectExpr.LimitBy {α : Type} : SelectExpr α → Option (LimitByExpr α)
  | SelectExpr.mk _ _ _ _ _ _ _ _ _ _ _ _ _ l _ => l

def SelectExpr.Settings {α : Type} : SelectExpr α → Option α
  | SelectExpr.mk _ _ _ _ _ _ _ _ _ _ _ _ _ _ s => s

/-- The Go field `SelectExpr` of `CTEExpr`. -/
def CTEExpr.Select {α : Type} : CTEExpr α → ClickHouse.SelectExpr α
  | CTEExpr.mk _ _ s _ _ => s

/-! ## The scalar-expression layer -/

/-- The parsers of the scalar-expression layer called by `parser_query.go`, and the `End()`
method of the nodes they build.  They live in other files of the parser and are taken as a
parameter: each is an arbitrary function of the position argument and the cursor. -/
structure Scalar (α : Type) where
  End : α → Pos
  parseExpr : Pos → P α
  parseColumnExprList : Pos → P α
  parseColumnExprListWithRoundBracket : Pos → P α
  parseColumnsExpr : Pos → P α
  parseFunctionParams : Pos → P α
  parseTableArgList : Pos → P α
  parseTableIdentifier : Pos → P (TableIdentifier α)
  parseIdent : P α
  parseNumber : Pos → P α
  parseFloat : Pos → P α
  tryParsePartitionByExpr : Pos → P (Option α)
  tryParseOrderByExprList : Pos → P (Option α)
  tryParseSettingsExprList : Pos → P (Option α)

/-! ## `End()` of the nodes -/

/-- The `End()` methods that `parser_query.go` calls on the nodes it builds.  They are
declared with the AST, in another file, and are taken as a parameter.  `Expr` is the method
of the interface `Expr`, called on the table source in `parseTableExpr`. -/
structure Ends (α : Type) where
  Expr : Expr α → Pos
  SelectExpr : SelectExpr α → Pos
  CTEExpr : CTEExpr α → Pos
  FromExpr : FromExpr α → Pos
  ArrayJoinExpr : ArrayJoinExpr α → Pos
  WindowExpr : WindowExpr α → Pos
  PrewhereExpr : PrewhereExpr α → Pos
  WhereExpr : WhereExpr α → Pos
  GroupByExpr : GroupByExpr α → Pos
  HavingExpr : HavingExpr α → Pos
  LimitByExpr : LimitByExpr α → Pos

/-! ## The parsers of `parser_query.go` that do not reach a nested SELECT -/

section Parsers

variable {α : Type} (S : Scalar α)

def parseTopExpr (pos : Pos) : P (TopExpr α) := do
  consumeKeyword KeywordTop
  let number ← S.parseNumber (← getPos)
  let topEnd := S.End number
  match ← tryConsumeKeyword KeywordWith with
  | some _ =>
    let topEnd := (← lastToken).End
    consumeKeyword KeywordTies
    pure { TopPos := pos, TopEnd := topEnd, Number := number, WithTies := true }
  | none =>
    pure { TopPos := pos, TopEnd := topEnd, Number := number, WithTies := false }

def tryParseTopExpr (pos : Pos) : P (Option (TopExpr α)) := do
  if !(← matchKeyword KeywordTop) then
    pure none
  else
    let t ← parseTopExpr S pos
    pure (some t)

def tryParseJoinConstraints (pos : Pos) : P (Option (JoinConstraints α)) := do
  match ← tryConsumeKeyword KeywordOn with
  | some _ =>
    let columnExprList ← S.parseColumnExprListWithRoundBracket (← getPos)
    pure (some (JoinConstraints.OnExpr pos columnExprList))
  | none =>
    match ← tryConsumeKeyword KeywordUsing with
    | some _ =>
      let hasParen := (← tryConsumeTokenKind "(").isSome
      let columnExprList ← S.parseColumnExprListWithRoundBracket (← getPos)
      if hasParen then
        let _ ← consumeTokenKind ")"
        pure (some (JoinConstraints.UsingExpr pos columnExprList))
      else
        pure (some (JoinConstraints.UsingExpr pos columnExprList))
    | none => pure none

def parsePrewhereExpr (pos : Pos) : P (PrewhereExpr α) := do
  consumeKeyword KeywordPrewhere
  let expr ← S.parseExpr (← getPos)
  pure { PrewherePos := pos, Expr := expr }

def tryParsePrewhereExpr (pos : Pos) : P (Option (PrewhereExpr α)) := do
  if !(← matchKeyword KeywordPrewhere) then
    pure none
  else
    let e ← parsePrewhereExpr S pos
    pure (some e)

def parseWhereExpr (pos : Pos) : P (WhereExpr α) := do
  consumeKeyword KeywordWhere
  let expr ← S.parseExpr (← getPos)
  pure { WherePos := pos, Expr := expr }

def tryParseWhereExpr (pos : Pos) : P (Option (WhereExpr α)) := do
  if !(← matchKeyword KeywordWhere) then
    pure none
  else
    let e ← parseWhereExpr S pos
    pure (some e)

/-- The loop `for p.tryConsumeKeyword(KeywordWith) != nil { switch ... }` of
`parseGroupByExpr`; one unit of fuel per iteration. -/
def parseGroupByExprWith : Nat → GroupByExpr α → P (GroupByExpr α)
  | 0, _ => P.outOfFuel
  | n + 1, groupByExpr => do
    match ← tryConsumeKeyword KeywordWith with
    | none => pure groupByExpr
    | some _ =>
      match ← tryConsumeKeyword KeywordCube with
      | some _ => parseGroupByExprWith n { groupByExpr with WithCube := true }
      | none =>
        match ← tryConsumeKeyword KeywordRollup with
        | some _ => parseGroupByExprWith n { groupByExpr with WithRollup := true }
        | none =>
          match ← tryConsumeKeyword KeywordTotals with
          | some _ => parseGroupByExprWith n { groupByExpr with WithTotals := true }
          | none => P.fail ("expected CUBE, ROLLUP or TOTALS, got " ++ (← lastTokenKind))

/-- Go `parseGroupByExpr`; `fuel` bounds the iterations of the modifier loop. -/
def parseGroupByExpr (fuel : Nat) (pos : Pos) : P (GroupByExpr α) := do
  consumeKeyword KeywordGroup
  consumeKeyword KeywordBy
  if (← matchKeyword KeywordCube) || (← matchKeyword KeywordRollup) then
    let aggregateType := (← lastToken).String
    consumeToken
    let expr ← S.parseFunctionParams (← getPos)
    parseGroupByExprWith fuel
      { GroupByPos := pos, AggregateType := toUpper aggregateType, Expr := expr,
        WithCube := false, WithRollup := false, WithTotals := false }
  else
    let expr ← S.parseColumnExprListWithRoundBracket (← getPos)
    parseGroupByExprWith fuel
      { GroupByPos := pos, AggregateType := toUpper "", Expr := expr,
        WithCube := false, WithRollup := false, WithTotals := false }

def tryParseGroupByExpr (fuel : Nat) (pos : Pos) : P (Option (GroupByExpr α)) := do
  if !(← matchKeyword KeywordGroup) then
    pure none
  else
    let e ← parseGroupByExpr S fuel pos
    pure (some e)

def parseLimitByExpr (pos : Pos) : P (LimitByExpr α) := do
  consumeKeyword KeywordLimit
  let limit ← S.parseExpr (← getPos)
  let (limit, offset) ← (do
    match ← tryConsumeKeyword KeywordOffset with
    | some _ =>
      let offset ← S.parseExpr (← getPos)
      pure (limit, some offset)
    | none =>
      match ← tryConsumeTokenKind "," with
      | some _ =>
        let offset := limit
        let limit ← S.parseExpr (← getPos)
        pure (limit, some offset)
      | none => pure (limit, none) : P (α × Option α))
  match ← tryConsumeKeyword KeywordBy with
  | some _ =>
    let by_ ← S.parseColumnExprListWithRoundBracket (← getPos)
    pure { LimitPos := pos, Limit := limit, Offset := offset, ByExpr := some by_ }
  | none =>
    pure { LimitPos := pos, Limit := limit, Offset := offset, ByExpr := none }

def tryParseLimitByExpr (pos : Pos) : P (Option (LimitByExpr α)) := do
  if !(← matchKeyword KeywordLimit) then
    pure none
  else
    let e ← parseLimitByExpr S pos
    pure (some e)

/-- Go `parseWindowFrameExpr`; the fuel bounds the nesting of `BETWEEN`. -/
def parseWindowFrameExpr : Nat → Pos → P (WindowFrameExpr α)
  | 0, _ => P.outOfFuel
  | n + 1, pos => do
    let windowFrameType ← (do
      if (← matchKeyword KeywordRows) || (← matchKeyword KeywordRange) then
        let t ← lastToken
        consumeToken
        pure (toUpper t.String)
      else
        pure "" : P String)
    let expr ← (do
      match ← tryConsumeKeyword KeywordBetween with
      | some _ =>
        let betweenExpr ← parseWindowFrameExpr n (← getPos)
        let andPos ← getPos
        consumeKeyword KeywordAnd
        let andExpr ← parseWindowFrameExpr n (← getPos)
        pure (WindowFrameExtend.WindowFrameRangeExpr pos betweenExpr andPos andExpr)
      | none =>
        if ← matchKeyword KeywordCurrent then
          let currentPos ← getPos
          consumeToken
          let rowEnd := (← lastToken).End
          consumeKeyword KeywordRow
          pure (WindowFrameExtend.WindowFrameCurrentRow currentPos rowEnd)
        else if ← matchKeyword KeywordUnbounded then
          let unboundedPos ← getPos
          consumeToken
          if (← matchKeyword KeywordPreceding) || (← matchKeyword KeywordFollowing) then
            let direction := (← lastToken).String
            consumeToken
            pure (WindowFrameExtend.WindowFrameUnbounded unboundedPos direction)
          else
            P.fail ("expected PRECEDING or FOLLOWING, got " ++ (← lastTokenKind))
        else if ← matchTokenKind TokenInt then
          let number ← S.parseNumber (← getPos)
          if (← matchKeyword KeywordPreceding) || (← matchKeyword KeywordFollowing) then
            let t ← lastToken
            consumeToken
            pure (WindowFrameExtend.WindowFrameNumber t.End number t.String)
          else
            P.fail ("expected PRECEDING or FOLLOWING, got " ++ (← lastTokenKind))
        else
          P.fail ("expected BETWEEN, CURRENT, UNBOUNDED or integer, got " ++ (← lastTokenKind))
      : P (WindowFrameExtend α))
    pure (WindowFrameExpr.mk pos windowFrameType expr)

def tryParseWindowFrameExpr (fuel : Nat) (pos : Pos) : P (Option (WindowFrameExpr α)) := do
  if !(← matchKeyword KeywordRows) && !(← matchKeyword KeywordRange) then
    pure none
  else
    let e ← parseWindowFrameExpr S fuel pos
    pure (some e)

def parseWindowCondition (fuel : Nat) (pos : Pos) : P (WindowConditionExpr α) := do
  let _ ← consumeTokenKind "("
  let partitionBy ← S.tryParsePartitionByExpr pos
  let orderBy ← S.tryParseOrderByExprList (← getPos)
  let frame ← tryParseWindowFrameExpr S fuel (← getPos)
  let rightParenPos ← getPos
  let _ ← consumeTokenKind ")"
  pure { LeftParenPos := pos, RightParenPos := rightParenPos, PartitionBy := partitionBy,
         OrderBy := orderBy, Frame := frame }

def parseWindowExpr (fuel : Nat) (pos : Pos) : P (WindowExpr α) := do
  consumeKeyword KeywordWindow
  let windowName ← S.parseIdent
  consumeKeyword KeywordAs
  let condition ← parseWindowCondition S fuel (← getPos)
  pure { WindowPos := pos, Name := windowName, WindowConditionExpr := condition }

def tryParseWindowExpr (fuel : Nat) (pos : Pos) : P (Option (WindowExpr α)) := do
  if !(← matchKeyword KeywordWindow) then
    pure none
  else
    let e ← parseWindowExpr S fuel pos
    pure (some e)

def parseArrayJoin (_pos : Pos) : P (ArrayJoinExpr α) := do
  let typ ← (do
    if (← matchKeyword KeywordLeft) || (← matchKeyword KeywordInner) then
      let typ := (← lastToken).String
      consumeToken
      pure typ
    else
      pure "" : P String)
  let arrayPos ← getPos
  consumeKeyword KeywordArray
  consumeKeyword KeywordJoin
  let expr ← S.parseColumnExprList (← getPos)
  pure { ArrayPos := arrayPos, Typ := typ, Expr := expr }

def tryParseArrayJoin (pos : Pos) : P (Option (ArrayJoinExpr α)) := do
  if !(← matchKeyword KeywordLeft) && !(← matchKeyword KeywordInner)
      && !(← matchKeyword KeywordArray) then
    pure none
  else
    let e ← parseArrayJoin S pos
    pure (some e)

def parseHavingExpr (pos : Pos) : P (HavingExpr α) := do
  consumeKeyword KeywordHaving
  let expr ← S.parseColumnsExpr (← getPos)
  pure { HavingPos := pos, Expr := expr }

def tryParseHavingExpr (pos : Pos) : P (Option (HavingExpr α)) := do
  if !(← matchKeyword KeywordHaving) then
    pure none
  else
    let e ← parseHavingExpr S pos
    pure (some e)

/-- The loop `for { ident; if ")" break; "," }` of `tryParseColumnAliases`; one unit of fuel
per iteration. -/
def tryParseColumnAliasesLoop : Nat → List α → P (List α)
  | 0, _ => P.outOfFuel
  | n + 1, aliasList => do
    let ident ← S.parseIdent
    let aliasList := aliasList ++ [ident]
    if ← matchTokenKind ")" then
      pure aliasList
    else
      let _ ← consumeTokenKind ","
      tryParseColumnAliasesLoop n aliasList

/-- Go `tryParseColumnAliases`; the nil slice is the empty list. -/
def tryParseColumnAliases (fuel : Nat) : P (List α) := do
  if !(← matchTokenKind "(") then
    pure []
  else
    let _ ← consumeTokenKind "("
    let aliasList ← tryParseColumnAliasesLoop S fuel []
    let _ ← consumeTokenKind ")"
    pure aliasList

def parseSampleRationExpr (pos : Pos) : P (SampleRatioExpr α) := do
  consumeKeyword KeywordSample
  let ratio ← S.parseFloat (← getPos)
  if ← matchKeyword KeywordOffset then
    consumeToken
    let offset ← S.parseFloat (← getPos)
    pure { SamplePos := pos, Ratio := ratio, Offset := some offset }
  else
    pure { SamplePos := pos, Ratio := ratio, Offset := none }

def tryParseSampleRationExpr (pos : Pos) : P (Option (SampleRatioExpr α)) := do
  if !(← matchKeyword KeywordSample) then
    pure none
  else
    let e ← parseSampleRationExpr S pos
    pure (some e)

end Parsers

/-! ## The mutually recursive parsers

`parseTableExpr` reaches `parseSelectUnionExprList` for a subquery, and `parseSelectStatement`
reaches `parseJoinExpr` through the FROM clause and itself through WITH.  Every call inside
the group passes one unit of fuel less. -/

section Parsers

variable {α : Type} (S : Scalar α) (E : Ends α)

/-- The `switch` of `parseJoinOp`: consumes the modifier keywords of the first matching
branch and returns `true`, or returns `false` in the `default` branch. -/
def parseJoinOpSwitch : P Bool := do
  match ← tryConsumeKeyword KeywordCross with
  | some _ =>
    consumeKeyword KeywordJoin
    pure true
  | none =>
    match ← tryConsumeTokenKind "," with
    | some _ => pure true
    | none =>
      if (← matchKeyword KeywordAny) || (← matchKeyword KeywordAll) then
        consumeToken
        if ← matchKeyword KeywordFull then
          consumeToken
        if (← matchKeyword KeywordLeft) || (← matchKeyword KeywordRight)
            || (← matchKeyword KeywordInner) || (← matchKeyword KeywordOuter) then
          consumeToken
        pure true
      else if (← matchKeyword KeywordSemi) || (← matchKeyword KeywordAsof) then
        consumeToken
        if (← matchKeyword KeywordLeft) || (← matchKeyword KeywordRight) then
          consumeToken
        if ← matchKeyword KeywordOuter then
          consumeToken
        pure true
      else if ← matchKeyword KeywordInner then
        consumeToken
        if (← matchKeyword KeywordAll) || (← matchKeyword KeywordAny)
            || (← matchKeyword KeywordAsof) then
          consumeToken
        pure true
      else if (← matchKeyword KeywordLeft) || (← matchKeyword KeywordRight) then
        if ← matchKeyword KeywordOuter then
          consumeToken
        if (← matchKeyword KeywordSemi) || (← matchKeyword KeywordAnti)
            || (← matchKeyword KeywordAny) || (← matchKeyword KeywordAll)
            || (← matchKeyword KeywordAsof) || (← matchKeyword KeywordArray) then
          consumeToken
        pure true
      else if ← matchKeyword KeywordFull then
        consumeToken
        if ← matchKeyword KeywordOuter then
          consumeToken
        if (← matchKeyword KeywordAll) || (← matchKeyword KeywordAny) then
          consumeToken
        pure true
      else
        pure false

mutual

def tryParseWithExpr : Nat → Pos → P (Option (WithExpr α))
  | 0, _ => P.outOfFuel
  | n + 1, pos => do
    if !(← matchKeyword KeywordWith) then
      pure none
    else
      let w ← parseWithExpr n pos
      pure (some w)
termination_by structural n => n

/-- Go `parseWithExpr`; `ctes[len(ctes)-1]` is the last element of the non-empty list. -/
def parseWithExpr : Nat → Pos → P (WithExpr α)
  | 0, _ => P.outOfFuel
  | n + 1, pos => do
    consumeKeyword KeywordWith
    let cteExpr ← parseCTEExpr n (← getPos)
    let ctes ← parseWithExprLoop n [cteExpr]
    pure (WithExpr.mk pos ctes (E.CTEExpr (ctes.getLastD cteExpr)))
termination_by structural n => n

/-- The loop `for p.tryConsumeTokenKind(",") != nil { ... }` of `parseWithExpr`. -/
def parseWithExprLoop : Nat → List (CTEExpr α) → P (List (CTEExpr α))
  | 0, _ => P.outOfFuel
  | n + 1, ctes => do
    match ← tryConsumeTokenKind "," with
    | none => pure ctes
    | some _ =>
      let cteExpr ← parseCTEExpr n (← getPos)
      parseWithExprLoop n (ctes ++ [cteExpr])
termination_by structural n => n

def tryParseFromExpr : Nat → Pos → P (Option (FromExpr α))
  | 0, _ => P.outOfFuel
  | n + 1, pos => do
    if !(← matchKeyword KeywordFrom) then
      pure none
    else
      let f ← parseFromExpr n pos
      pure (some f)
termination_by structural n => n

def parseFromExpr : Nat → Pos → P (FromExpr α)
  | 0, _ => P.outOfFuel
  | n + 1, pos => do
    consumeKeyword KeywordFrom
    let expr ← parseJoinExpr n (← getPos)
    pure (FromExpr.mk pos expr)
termination_by structural n => n

/-- Go `parseJoinOp`; `none` is the Go result `nil, nil` ("no join op"). -/
def parseJoinOp : Nat → Pos → P (Option (Expr α))
  | 0, _ => P.outOfFuel
  | n + 1, _ => do
    if ← parseJoinOpSwitch then
      let _ ← tryConsumeKeyword KeywordJoin
      let e ← parseJoinExpr n (← getPos)
      pure (some e)
    else
      pure none
termination_by structural n => n

/-- Go `parseJoinExpr`.  The error of the `default` branch names the kind of the token under
the cursor, where Go formats the token itself. -/
def parseJoinExpr : Nat → Pos → P (Expr α)
  | 0, _ => P.outOfFuel
  | n + 1, pos => do
    if (← matchTokenKind TokenIdent) || (← matchTokenKind "(") then
      let expr ← parseTableExpr n (← getPos)
      let _ ← tryConsumeKeyword KeywordFinal
      let sampleRatio ← tryParseSampleRationExpr S (← getPos)
      if (← matchKeyword KeywordGlobal) || (← matchKeyword KeywordLocal) then
        consumeToken
      match ← parseJoinOp n (← getPos) with
      | none => pure (Expr.table expr)
      | some rightExpr =>
        let constrains ← tryParseJoinConstraints S (← getPos)
        pure (Expr.join pos (Expr.table expr) rightExpr sampleRatio constrains)
    else
      P.fail ("expected table name or subquery, got " ++ (← lastTokenKind))
termination_by structural n => n

def parseTableExpr : Nat → Pos → P (TableExpr α)
  | 0, _ => P.outOfFuel
  | n + 1, pos => do
    let expr ← (do
      if ← matchTokenKind TokenIdent then
        let tableIdentifier ← S.parseTableIdentifier (← getPos)
        if tableIdentifier.Database.isSome || !(← matchTokenKind "(") then
          pure (Expr.tableIdentifier tableIdentifier)
        else
          let tableArgs ← S.parseTableArgList (← getPos)
          pure (Expr.tableFunction { Name := tableIdentifier.Table, Args := tableArgs })
      else if ← matchTokenKind "(" then
        let selects ← parseSelectUnionExprList n (← getPos)
        pure (Expr.selectList selects)
      else
        P.fail "expect table name or subquery" : P (Expr α))
    let tableEnd := E.Expr expr
    match ← tryConsumeKeyword KeywordAs with
    | some asToken =>
      let aliasIdent ← S.parseIdent
      let expr := Expr.alias expr asToken.Pos aliasIdent
      pure (TableExpr.mk pos (E.Expr expr) expr)
    | none =>
      pure (TableExpr.mk pos tableEnd expr)
termination_by structural n => n

def parseSelectUnionExprList : Nat → Pos → P (SelectExprList α)
  | 0, _ => P.outOfFuel
  | n + 1, pos => do
    let selectQueries ← parseSelectUnionExprListLoop n pos []
    pure (SelectExprList.mk selectQueries)
termination_by structural n => n

/-- The loop `for { ... }` of `parseSelectUnionExprList`. -/
def parseSelectUnionExprListLoop : Nat → Pos → List (SelectExpr α) → P (List (SelectExpr α))
  | 0, _, _ => P.outOfFuel
  | n + 1, pos, selectQueries => do
    let selectQuery ← parseSelectQuery n pos
    let selectQueries := selectQueries ++ [selectQuery]
    match ← tryConsumeKeyword KeywordUnion with
    | none => pure selectQueries
    | some _ =>
      consumeKeyword KeywordAll
      parseSelectUnionExprListLoop n pos selectQueries
termination_by structural n => n

def parseSelectQuery : Nat → Pos → P (SelectExpr α)
  | 0, _ => P.outOfFuel
  | n + 1, pos => do
    if (← matchKeyword KeywordSelect) || (← matchKeyword KeywordWith) then
      parseSelectStatement n pos
    else if ← matchTokenKind "(" then
      parseSelectStatementWithParen n pos
    else
      P.fail ("expected SELECT, WITH or (, got " ++ (← lastTokenKind))
termination_by structural n => n

def parseSelectStatementWithParen : Nat → Pos → P (SelectExpr α)
  | 0, _ => P.outOfFuel
  | n + 1, _ => do
    let _ ← consumeTokenKind "("
    let selectExpr ← parseSelectStatement n (← getPos)
    let _ ← consumeTokenKind ")"
    pure selectExpr
termination_by structural n => n

def parseSelectStatement : Nat → Pos → P (SelectExpr α)
  | 0, _ => P.outOfFuel
  | n + 1, pos => do
    let withExpr ← tryParseWithExpr n pos
    consumeKeyword KeywordSelect
    let _ ← tryConsumeKeyword KeywordDistinct
    let topExpr ← tryParseTopExpr S (← getPos)
    let selectColumns ← S.parseColumnExprListWithRoundBracket (← getPos)
    let statementEnd := S.End selectColumns
    let fromExpr ← tryParseFromExpr n (← getPos)
    let statementEnd := match fromExpr with
      | some e => E.FromExpr e
      | none => statementEnd
    let arrayJoinExpr ← tryParseArrayJoin S (← getPos)
    let statementEnd := match arrayJoinExpr with
      | some e => E.ArrayJoinExpr e
      | none => statementEnd
    let windowExpr ← tryParseWindowExpr S n (← getPos)
    let statementEnd := match windowExpr with
      | some e => E.WindowExpr e
      | none => statementEnd
    let prewhereExpr ← tryParsePrewhereExpr S (← getPos)
    let statementEnd := match prewhereExpr with
      | some e => E.PrewhereExpr e
      | none => statementEnd
    let whereExpr ← tryParseWhereExpr S (← getPos)
    let statementEnd := match whereExpr with
      | some e => E.WhereExpr e
      | none => statementEnd
    let groupByExpr ← tryParseGroupByExpr S n (← getPos)
    let statementEnd := match groupByExpr with
      | some e => E.GroupByExpr e
      | none => statementEnd
    let havingExpr ← tryParseHavingExpr S (← getPos)
    let statementEnd := match havingExpr with
      | some e => E.HavingExpr e
      | none => statementEnd
    let orderByExpr ← S.tryParseOrderByExprList (← getPos)
    let statementEnd := match orderByExpr with
      | some e => S.End e
      | none => statementEnd
    let limitByExpr ← tryParseLimitByExpr S (← getPos)
    let statementEnd := match limitByExpr with
      | some e => E.LimitByExpr e
      | none => statementEnd
    let settingsExpr ← S.tryParseSettingsExprList (← getPos)
    let statementEnd := match settingsExpr with
      | some e => S.End e
      | none => statementEnd
    pure (SelectExpr.mk withExpr pos statementEnd topExpr selectColumns fromExpr
      arrayJoinExpr windowExpr prewhereExpr whereExpr groupByExpr havingExpr orderByExpr
      limitByExpr settingsExpr)
termination_by structural n => n

def parseCTEExpr : Nat → Pos → P (CTEExpr α)
  | 0, _ => P.outOfFuel
  | n + 1, pos => do
    let name ← S.parseIdent
    let columnAliases ← tryParseColumnAliases S n
    consumeKeyword KeywordAs
    let _ ← consumeTokenKind "("
    let selectExpr ← parseSelectStatement n (← getPos)
    let _ ← consumeTokenKind ")"
    pure (CTEExpr.mk pos name selectExpr (E.SelectExpr selectExpr) columnAliases)
termination_by structural n => n

end

def parseSubQuery (fuel : Nat) (pos : Pos) : P (SubQueryExpr α) := do
  consumeKeyword KeywordAs
  let selectExprList ← parseSelectUnionExprList S E fuel (← getPos)
  pure { AsPos := pos, Selects := selectExprList }

end Parsers

/-! ## End positions by the specification's rule -/

/-- Modelled from the spec: `End()` of the FROM-clause nodes, which is declared with the AST
outside `parser_query.go`.  A node that stores its end returns it (`TableEnd`,
`StatementEnd`); any other node returns the end of its last-parsed child ("parent end
positions are always derived from the last-parsed optional child"). -/
def Expr.End {α : Type} (S : Scalar α) : Expr α → Pos
  | Expr.tableIdentifier t => S.End t.Table
  | Expr.tableFunction f => S.End f.Args
  | Expr.selectList s =>
    match s.Items.getLast? with
    | none => 0
    | some q => q.StatementEnd
  | Expr.alias _ _ a => S.End a
  | Expr.table t => t.TableEnd
  | Expr.join _ _ _ _ (some (JoinConstraints.OnExpr _ c)) => S.End c
  | Expr.join _ _ _ _ (some (JoinConstraints.UsingExpr _ c)) => S.End c
  | Expr.join _ _ r _ none => Expr.End S r

/-- Modelled from the spec: the `End()` methods of the nodes built by `parser_query.go`,
by the same rule as `Expr.End`. -/
def specEnds {α : Type} (S : Scalar α) : Ends α where
  Expr := Expr.End S
  SelectExpr := fun s => s.StatementEnd
  CTEExpr := fun c => c.EndPos
  FromExpr := fun f => Expr.End S f.Expr
  ArrayJoinExpr := fun a => S.End a.Expr
  WindowExpr := fun w => w.WindowConditionExpr.RightParenPos + 1
  PrewhereExpr := fun e => S.End e.Expr
  WhereExpr := fun e => S.End e.Expr
  GroupByExpr := fun g => S.End g.Expr
  HavingExpr := fun e => S.End e.Expr
  LimitByExpr := fun e =>
    match e.ByExpr, e.Offset with
    | some b, _ => S.End b
    | none, some o => max (S.End o) (S.End e.Limit)
    | none, none => S.End e.Limit

/-! ## A small scalar layer for concrete runs

Each scalar node is the list of the tokens it spans.  An expression, a column list, an
identifier or a literal is one token; a table identifier is `ident` or `ident . ident`; a
table-argument list runs from `(` to the first `)`.  ORDER BY, SETTINGS and PARTITION BY are
never present. -/

namespace Toy

/-- One token whose kind is among `kinds`. -/
def one (kinds : List TokenKind) (what : String) : P (List Token) := fun l =>
  match l.last with
  | none => Res.err ("expected " ++ what ++ ", got " ++ TokenEOF)
  | some t =>
    if kinds.contains t.Kind then Res.ok [t] l.consumeToken
    else Res.err ("expected " ++ what ++ ", got " ++ t.Kind)

def parseExpr : P (List Token) := one [TokenIdent, TokenInt, TokenFloat] "expression"

def parseIdent : P (List Token) := one [TokenIdent] "identifier"

def parseTableIdentifier : P (TableIdentifier (List Token)) := do
  let a ← parseIdent
  match ← tryConsumeTokenKind "." with
  | some _ =>
    let b ← parseIdent
    pure { Database := some a, Table := b }
  | none => pure { Database := none, Table := a }

/-- The tokens up to and including the first `)`, and the tokens after it. -/
def splitAtParen : List Token → Option (List Token × List Token)
  | [] => none
  | t :: ts =>
    if t.Kind == ")" then some ([t], ts)
    else
      match splitAtParen ts with
      | none => none
      | some (a, b) => some (t :: a, b)

def parseTableArgList : P (List Token) := fun l =>
  if l.matchTokenKind "(" then
    match splitAtParen l.tokens with
    | none => Res.err "expected )"
    | some (a, b) => Res.ok a { l with tokens := b }
  else Res.err "expected ("

def End (n : List Token) : Pos :=
  match n.getLast? with
  | none => 0
  | some t => t.End

def scalar : Scalar (List Token) where
  End := End
  parseExpr := fun _ => parseExpr
  parseColumnExprList := fun _ => parseExpr
  parseColumnExprListWithRoundBracket := fun _ => parseExpr
  parseColumnsExpr := fun _ => parseExpr
  parseFunctionParams := fun _ => parseTableArgList
  parseTableArgList := fun _ => parseTableArgList
  parseTableIdentifier := fun _ => parseTableIdentifier
  parseIdent := parseIdent
  parseNumber := fun _ => one [TokenInt] "number"
  parseFloat := fun _ => one [TokenFloat, TokenInt] "float"
  tryParsePartitionByExpr := fun _ => pure none
  tryParseOrderByExprList := fun _ => pure none
  tryParseSettingsExprList := fun _ => pure none

def ends : Ends (List Token) := specEnds scalar

/-- A keyword token at offset `p`. -/
def kw (s : String) (p : Pos) : Token := { Kind := TokenKeyword, String := s, Pos := p, End := p + s.length }

/-- An identifier token at offset `p`. -/
def ident (s : String) (p : Pos) : Token := { Kind := TokenIdent, String := s, Pos := p, End := p + s.length }

/-- An integer token at offset `p`. -/
def int (s : String) (p : Pos) : Token := { Kind := TokenInt, String := s, Pos := p, End := p + s.length }

/-- A punctuation token at offset `p`; its kind is its text. -/
def sym (s : String) (p : Pos) : Token := { Kind := s, String := s, Pos := p, End := p + s.length }

/-- A cursor at the start of `ts`. -/
def lexer (ts : List Token) : Lexer := { tokens := ts, current := (ts.getLast?.map Token.End).getD 0 }

end Toy

/-! ## Vocabulary of the statements -/

/-- The outcome `r2` extends `r`: either `r` ran out of fuel, or both are the same outcome. -/
def Res.le {β : Type} (r r2 : Res β) : Prop := r = Res.fuel ∨ r = r2

/-- Pointwise extension order on parsers. -/
def P.le {β : Type} (x y : P β) : Prop := ∀ l, Res.le (x l) (y l)

/-- The token under the cursor when there is one (an end-of-input token otherwise). -/
def Lexer.token (l : Lexer) : Token :=
  l.tokens.headD { Kind := TokenEOF, String := "", Pos := l.current, End := l.current }

/-- The optional `BY <column-list>` that ends a LIMIT clause: from cursor `l` it is either
absent (`by_ = none`, the cursor stays) or `BY` followed by a column list `c` parsed by the
scalar layer (`by_ = some c`), leaving the cursor at `l2`. -/
def LimitByTail {α : Type} (S : Scalar α) (l : Lexer) (by_ : Option α) (l2 : Lexer) : Prop :=
  (l.matchKeyword KeywordBy = false ∧ by_ = none ∧ l2 = l) ∨
  (l.matchKeyword KeywordBy = true ∧ ∃ c, by_ = some c ∧
    S.parseColumnExprListWithRoundBracket l.consumeToken.Pos l.consumeToken = Res.ok c l2)

section

variable {α : Type} (S : Scalar α) (E : Ends α)

/-- `UnionPrefix S E n pos l qs l2`: from cursor `l` the input is the select queries `qs`, each
parsed by `parseSelectQuery` with fuel `n` and each followed by `UNION ALL`, and `l2` is the
cursor after the last `ALL`. -/
inductive UnionPrefix (n : Nat) (pos : Pos) : Lexer → List (SelectExpr α) → Lexer → Prop where
  | nil (l : Lexer) : UnionPrefix n pos l [] l
  | cons (l l1 l2 : Lexer) (q : SelectExpr α) (qs : List (SelectExpr α))
      (hq : parseSelectQuery S E n pos l = Res.ok q l1)
      (hunion : l1.matchKeyword KeywordUnion = true)
      (hall : l1.consumeToken.matchKeyword KeywordAll = true)
      (hrest : UnionPrefix n pos l1.consumeToken.consumeToken qs l2) :
      UnionPrefix n pos l (q :: qs) l2

end

/-- The cursor after an optional keyword `k`. -/
def Lexer.skipKeyword (l : Lexer) (k : String) : Lexer :=
  if l.matchKeyword k then l.consumeToken else l

/-- The cursor after an optional `GLOBAL` or `LOCAL`. -/
def Lexer.skipGlobalLocal (l : Lexer) : Lexer :=
  if l.matchKeyword KeywordGlobal || l.matchKeyword KeywordLocal then l.consumeToken else l

/-- The number of `JoinExpr` nodes threaded through `Right`. -/
def Expr.joinCount {α : Type} : Expr α → Nat
  | Expr.join _ _ r _ _ => Expr.joinCount r + 1
  | _ => 0

/-- The right-nested join tree of a chain of table sources, each with the sample ratio that
follows it: the first table alone when the chain has one table, and otherwise a `JoinExpr`
whose `Left` is the first table and whose `Right` is the tree of the rest (its `JoinPos` is
the position where the next table starts). -/
def joinTree {α : Type} (pos : Pos) (t : TableExpr α × Option (SampleRatioExpr α)) :
    List (TableExpr α × Option (SampleRatioExpr α)) → Expr α
  | [] => Expr.table t.1
  | t2 :: ts => Expr.join pos (Expr.table t.1) (joinTree t2.1.TablePos t2 ts) t.2 none

section

variable {α : Type} (S : Scalar α) (E : Ends α)

/-- `TableSource S E n l t sr l2`: from cursor `l`, the first part of `parseJoinExpr` reads the
table source `t` (with fuel `n`), an optional `FINAL`, the optional sample ratio `sr` and an
optional `GLOBAL`/`LOCAL`, and leaves the cursor at `l2`. -/
def TableSource (n : Nat) (l : Lexer) (t : TableExpr α) (sr : Option (SampleRatioExpr α))
    (l2 : Lexer) : Prop :=
  (l.matchTokenKind TokenIdent = true ∨ l.matchTokenKind "(" = true) ∧
  ∃ l1 ls, parseTableExpr S E n l.Pos l = Res.ok t l1 ∧
    tryParseSampleRationExpr S (l1.skipKeyword KeywordFinal).Pos (l1.skipKeyword KeywordFinal)
      = Res.ok sr ls ∧
    l2 = ls.skipGlobalLocal

/-- `JoinChain S E n l ts l2`: from cursor `l` the input is the table sources `ts`, separated
by join operators that the switch of `parseJoinOp` recognises (each followed by an optional
`JOIN`), and after the last table source, at `l2`, the switch finds no join operator. -/
inductive JoinChain (n : Nat) :
    Lexer → List (TableExpr α × Option (SampleRatioExpr α)) → Lexer → Prop where
  | single (l l1 : Lexer) (t : TableExpr α) (sr : Option (SampleRatioExpr α))
      (ht : TableSource S E n l t sr l1)
      (hop : parseJoinOpSwitch l1 = Res.ok false l1) : JoinChain n l [(t, sr)] l1
  | cons (l l1 l2 l3 : Lexer) (t : TableExpr α) (sr : Option (SampleRatioExpr α))
      (ts : List (TableExpr α × Option (SampleRatioExpr α)))
      (ht : TableSource S E n l t sr l1)
      (hop : parseJoinOpSwitch l1 = Res.ok true l2)
      (hrest : JoinChain n (l2.skipKeyword KeywordJoin) ts l3) :
      JoinChain n l ((t, sr) :: ts) l3

end

section

variable {α : Type} (S : Scalar α)

/-- The optional alias `AS <ident>` of a table source `e`: from cursor `l` it is either absent
(the node stays `e`, the cursor stays) or `AS` and an identifier `a` parsed by the scalar
layer, which wraps `e` in an `AliasExpr` at the position of the `AS` token. -/
def AliasTail (l : Lexer) (e e2 : Expr α) (l2 : Lexer) : Prop :=
  (l.matchKeyword KeywordAs = false ∧ e2 = e ∧ l2 = l) ∨
  (l.matchKeyword KeywordAs = true ∧
    ∃ a, S.parseIdent l.consumeToken = Res.ok a l2 ∧ e2 = Expr.alias e l.token.Pos a)

end

/-- The token `t` is the keyword `k` (the test of `matchKeyword` on one token). -/
def isKeyword (t : Token) (k : String) : Bool :=
  t.Kind == TokenKeyword && equalFold t.String k

/-- The tokens of a sequence of `WITH <modifier>` pairs. -/
def modifierTokens : List (Token × Token) → List Token
  | [] => []
  | p :: ps => p.1 :: p.2 :: modifierTokens ps

/-- A `WITH <modifier>` pair: `WITH` and one of `CUBE`, `ROLLUP`, `TOTALS`. -/
def isModifier (p : Token × Token) : Bool :=
  isKeyword p.1 KeywordWith &&
    (isKeyword p.2 KeywordCube || isKeyword p.2 KeywordRollup || isKeyword p.2 KeywordTotals)

section

variable {α : Type} (S : Scalar α)

/-- The part of `parseGroupByExpr` before the modifiers, from the cursor `l` after `GROUP BY`:
either a plain column list `e` (`agg = ""`), or `CUBE`/`ROLLUP` and its parameter list `e`
(`agg` is the upper-cased keyword); `l2` is the cursor after `e`. -/
def GroupByHead (l : Lexer) (agg : String) (e : α) (l2 : Lexer) : Prop :=
  (l.matchKeyword KeywordCube = false ∧ l.matchKeyword KeywordRollup = false ∧
    S.parseColumnExprListWithRoundBracket l.Pos l = Res.ok e l2 ∧ agg = "") ∨
  ((l.matchKeyword KeywordCube = true ∨ l.matchKeyword KeywordRollup = true) ∧
    S.parseFunctionParams l.consumeToken.Pos l.consumeToken = Res.ok e l2 ∧
    agg = toUpper l.token.String)

end

section
variable {α : Type} (S : Scalar α) (E : Ends α)

/-- The `End()` of the ten optional clauses of a statement after the column list, in the
fixed order From, ArrayJoin, Window, Prewhere, Where, GroupBy, Having, OrderBy, LimitBy,
Settings; `none` for an absent clause. -/
def clauseEnds (s : SelectExpr α) : List (Option Pos) :=
  [s.From.map E.FromExpr, s.ArrayJoin.map E.ArrayJoinExpr, s.Window.map E.WindowExpr,
   s.Prewhere.map E.PrewhereExpr, s.Where.map E.WhereExpr, s.GroupBy.map E.GroupByExpr,
   s.Having.map E.HavingExpr, s.OrderBy.map S.End, s.LimitBy.map E.LimitByExpr,
   s.Settings.map S.End]

/-- The end of the last clause present: `End()` of the last non-absent node in the fixed
order, and `SelectColumns.End()` when all ten are absent. -/
def lastClauseEnd (s : SelectExpr α) : Pos :=
  ((clauseEnds S E s).reduceOption.getLast?).getD (S.End s.SelectColumns)

end

/-- The end position of the last token consumed between the cursor `l` and the later cursor
`l2` (`none` when no token was consumed). -/
def lastConsumedEnd (l l2 : Lexer) : Option Pos :=
  ((l.tokens.take (l.tokens.length - l2.tokens.length)).getLast?).map Token.End

section
variable {α : Type} (S : Scalar α) (E : Ends α)

/-- `SelectHead S E n pos l w top cols l2`: from cursor `l`, the first part of
`parseSelectStatement` reads the optional WITH clause `w` (with fuel `n`), `SELECT`, an
optional `DISTINCT`, the optional TOP clause `top` and the column list `cols`, and leaves
the cursor at `l2`. -/
def SelectHead (n : Nat) (pos : Pos) (l : Lexer) (w : Option (WithExpr α))
    (top : Option (TopExpr α)) (cols : α) (l2 : Lexer) : Prop :=
  ∃ l0 l1, tryParseWithExpr S E n pos l = Res.ok w l0 ∧
    l0.matchKeyword KeywordSelect = true ∧
    tryParseTopExpr S (l0.consumeToken.skipKeyword KeywordDistinct).Pos
      (l0.consumeToken.skipKeyword KeywordDistinct) = Res.ok top l1 ∧
    S.parseColumnExprListWithRoundBracket l1.Pos l1 = Res.ok cols l2

/-- At the cursor `l` the scalar layer finds neither an ORDER BY nor a SETTINGS clause, and
leaves the cursor where it is. -/
def NoOrderBySettings (l : Lexer) : Prop :=
  S.tryParseOrderByExprList l.Pos l = Res.ok none l ∧
  S.tryParseSettingsExprList l.Pos l = Res.ok none l

/-- At the cursor `l` no clause that follows FROM starts: none of the keywords `LEFT`, `INNER`,
`ARRAY`, `WINDOW`, `PREWHERE`, `WHERE`, `GROUP`, `HAVING` and `LIMIT` is under the cursor,
and the scalar layer finds no ORDER BY and no SETTINGS. -/
def NoLaterClause (l : Lexer) : Prop :=
  (∀ k ∈ [KeywordLeft, KeywordInner, KeywordArray, KeywordWindow, KeywordPrewhere,
    KeywordWhere, KeywordGroup, KeywordHaving, KeywordLimit], l.matchKeyword k = false) ∧
  NoOrderBySettings S l

end

/-- The sample ratios recorded in a FROM tree: the `SampleRatio` field of every `JoinExpr`
node reached through `Left` and `Right` (no other node of the tree has such a field). -/
def Expr.sampleRatios {α : Type} : Expr α → List (SampleRatioExpr α)
  | Expr.join _ l r sr _ => sr.toList ++ Expr.sampleRatios l ++ Expr.sampleRatios r
  | _ => []

/-- `Safe k x`: on every cursor with at most `k` tokens left, the parser `x` returns (a result
or an error, not fuel exhaustion), and when it succeeds it has not moved the cursor backwards:
the tokens left are a suffix of the tokens it started with. -/
def Safe {β : Type} (k : Nat) (x : P β) : Prop :=
  ∀ l : Lexer, l.tokens.length ≤ k →
    x l ≠ Res.fuel ∧ ∀ v l2, x l = Res.ok v l2 → l2.tokens <:+ l.tokens

/-- The scalar layer is safe: each of its parsers returns, and does not move the cursor
backwards. -/
structure SafeScalar {α : Type} (S : Scalar α) : Prop where
  parseExpr : ∀ k pos, Safe k (S.parseExpr pos)
  parseColumnExprList : ∀ k pos, Safe k (S.parseColumnExprList pos)
  parseColumnExprListWithRoundBracket :
    ∀ k pos, Safe k (S.parseColumnExprListWithRoundBracket pos)
  parseColumnsExpr : ∀ k pos, Safe k (S.parseColumnsExpr pos)
  parseFunctionParams : ∀ k pos, Safe k (S.parseFunctionParams pos)
  parseTableArgList : ∀ k pos, Safe k (S.parseTableArgList pos)
  parseTableIdentifier : ∀ k pos, Safe k (S.parseTableIdentifier pos)
  parseIdent : ∀ k, Safe k S.parseIdent
  parseNumber : ∀ k pos, Safe k (S.parseNumber pos)
  parseFloat : ∀ k pos, Safe k (S.parseFloat pos)
  tryParsePartitionByExpr : ∀ k pos, Safe k (S.tryParsePartitionByExpr pos)
  tryParseOrderByExprList : ∀ k pos, Safe k (S.tryParseOrderByExprList pos)
  tryParseSettingsExprList : ∀ k pos, Safe k (S.tryParseSettingsExprList pos)

/-- `Returns f l b`: run on the cursor `l` with fuel `b`, the fuel-indexed parser `f` returns a
result or an error without running out of fuel, and returns the same with any larger fuel. -/
def Returns {β : Type} (f : Nat → P β) (l : Lexer) (b : Nat) : Prop :=
  ∃ r, r ≠ Res.fuel ∧ ∀ m, b ≤ m → f m l = r

/-- The introducing keywords of the ten optional clauses of a statement, in the fixed order
From, ArrayJoin, Window, Prewhere, Where, GroupBy, Having, OrderBy, LimitBy, Settings.  The
entries of ORDER BY and SETTINGS are empty: the scalar layer parses them and tests their
keywords itself. -/
def clauseKeywords : List (List String) :=
  [[KeywordFrom], [KeywordLeft, KeywordInner, KeywordArray], [KeywordWindow],
   [KeywordPrewhere], [KeywordWhere], [KeywordGroup], [KeywordHaving], [], [KeywordLimit], []]

/-- The keywords that are out of order once the first `i` clauses have been tried: `WITH` and
`TOP`, whose place is before the column list, and the introducing keywords of the first `i`
clauses. -/
def earlierKeywords (i : Nat) : List String :=
  [KeywordWith, KeywordTop] ++ (clauseKeywords.take i).flatten

/-- One step of the clause sequence.  When the clause is among those tried (`c`), its parser
`x`, run at the cursor `l`, returns `r` and leaves the cursor at `l1`; when it is not, the
clause is absent and the cursor stays. -/
def ClauseStep {β : Type} (c : Prop) (x : P (Option β)) (l : Lexer) (r : Option β)
    (l1 : Lexer) : Prop :=
  (c → x l = Res.ok r l1) ∧ (¬ c → r = none ∧ l1 = l)

section
variable {α : Type} (S : Scalar α) (E : Ends α)

/-- `ClausesUpTo S E n i l2 f aj win pw wh gb hv ob lb st l3`: from the cursor `l2` after the
column list, the parsers of the first `i` of the ten optional clauses, run one after the other
in the fixed order (with fuel `n`), return the nodes `f`, `aj`, ... (each present or absent)
and leave the cursor at `l3`; the clauses after the `i`-th are absent. -/
def ClausesUpTo (n i : Nat) (l2 : Lexer) (f : Option (FromExpr α))
    (aj : Option (ArrayJoinExpr α)) (win : Option (WindowExpr α))
    (pw : Option (PrewhereExpr α)) (wh : Option (WhereExpr α)) (gb : Option (GroupByExpr α))
    (hv : Option (HavingExpr α)) (ob : Option α) (lb : Option (LimitByExpr α))
    (st : Option α) (l3 : Lexer) : Prop :=
  ∃ k1 k2 k3 k4 k5 k6 k7 k8 k9 : Lexer,
    ClauseStep (1 ≤ i) (tryParseFromExpr S E n l2.Pos) l2 f k1 ∧
    ClauseStep (2 ≤ i) (tryParseArrayJoin S k1.Pos) k1 aj k2 ∧
    ClauseStep (3 ≤ i) (tryParseWindowExpr S n k2.Pos) k2 win k3 ∧
    ClauseStep (4 ≤ i) (tryParsePrewhereExpr S k3.Pos) k3 pw k4 ∧
    ClauseStep (5 ≤ i) (tryParseWhereExpr S k4.Pos) k4 wh k5 ∧
    ClauseStep (6 ≤ i) (tryParseGroupByExpr S n k5.Pos) k5 gb k6 ∧
    ClauseStep (7 ≤ i) (tryParseHavingExpr S k6.Pos) k6 hv k7 ∧
    ClauseStep (8 ≤ i) (S.tryParseOrderByExprList k7.Pos) k7 ob k8 ∧
    ClauseStep (9 ≤ i) (tryParseLimitByExpr S k8.Pos) k8 lb k9 ∧
    ClauseStep (10 ≤ i) (S.tryParseSettingsExprList k9.Pos) k9 st l3

end

/-- `Local x`: the parser `x` moves the cursor forward only, and a successful run reads the
input no further than the token under the cursor it returns with.  When it starts on the tokens
`A ++ B` and returns with the tokens `A1 ++ B` left, `A1` not empty, it returns the same value,
with `A1 ++ B2` left, on every input `A ++ B2` that starts with the same tokens `A`. -/
def Local {β : Type} (x : P β) : Prop :=
  (∀ l v l2, x l = Res.ok v l2 → l2.tokens <:+ l.tokens) ∧
  ∀ (A A1 B B2 : List Token) (c c1 : Pos) (v : β), A1 ≠ [] →
    x { tokens := A ++ B, current := c } = Res.ok v { tokens := A1 ++ B, current := c1 } →
    x { tokens := A ++ B2, current := c } = Res.ok v { tokens := A1 ++ B2, current := c1 }

/-- The scalar layer is local: each of its parsers moves the cursor forward only and reads the
input no further than the token under the cursor it returns with. -/
structure LocalScalar {α : Type} (S : Scalar α) : Prop where
  parseExpr : ∀ pos, Local (S.parseExpr pos)
  parseColumnExprList : ∀ pos, Local (S.parseColumnExprList pos)
  parseColumnExprListWithRoundBracket :
    ∀ pos, Local (S.parseColumnExprListWithRoundBracket pos)
  parseColumnsExpr : ∀ pos, Local (S.parseColumnsExpr pos)
  parseFunctionParams : ∀ pos, Local (S.parseFunctionParams pos)
  parseTableArgList : ∀ pos, Local (S.parseTableArgList pos)
  parseTableIdentifier : ∀ pos, Local (S.parseTableIdentifier pos)
  parseIdent : Local S.parseIdent
  parseNumber : ∀ pos, Local (S.parseNumber pos)
  parseFloat : ∀ pos, Local (S.parseFloat pos)
  tryParsePartitionByExpr : ∀ pos, Local (S.tryParsePartitionByExpr pos)
  tryParseOrderByExprList : ∀ pos, Local (S.tryParseOrderByExprList pos)
  tryParseSettingsExprList : ∀ pos, Local (S.tryParseSettingsExprList pos)

section
variable {α : Type} (S : Scalar α) (E : Ends α)

/-- `InsertionPoint S E n g B l`: in the join chain that `parseJoinExpr` reads from the cursor
`l`, the tokens `B` are what is left right before a join operator that no `GLOBAL`/`LOCAL`
precedes, and `g` is a token that can be inserted there.

* `here`: the first table source of `l` (`t`, with an optional `FINAL` and the sample ratio
  `sr`) ends there: the cursor `ls` after it has the tokens `B`, and the switch of
  `parseJoinOp` recognises a join operator at `ls`.  The table source looks at the token that
  follows it (for `.`, `(`, `AS`, `FINAL`, `SAMPLE`, partly in the scalar layer), so that it is
  read to the same nodes `t` and `sr` when `g` stands before `B` is part of the premise
  (`ht2`, `hsr2`).
* `deeper`: a join operator follows the first table source of `l`, and `B` is such a place in
  the chain that starts at the right operand. -/
inductive InsertionPoint (n : Nat) (g : Token) (B : List Token) : Lexer → Prop where
  | here (l la ls l2 ma : Lexer) (A : List Token) (t : TableExpr α)
      (sr : Option (SampleRatioExpr α))
      (hstart : l.matchTokenKind TokenIdent = true ∨ l.matchTokenKind "(" = true)
      (ht : parseTableExpr S E n l.Pos l = Res.ok t la)
      (hsr : tryParseSampleRationExpr S (la.skipKeyword KeywordFinal).Pos
        (la.skipKeyword KeywordFinal) = Res.ok sr ls)
      (hB : ls.tokens = B)
      (hop : parseJoinOpSwitch ls = Res.ok true l2)
      (hl : l.tokens = A ++ B)
      (ht2 : parseTableExpr S E n l.Pos { tokens := A ++ g :: B, current := l.current }
        = Res.ok t ma)
      (hsr2 : tryParseSampleRationExpr S (ma.skipKeyword KeywordFinal).Pos
        (ma.skipKeyword KeywordFinal) = Res.ok sr { tokens := g :: B, current := ls.current }) :
      InsertionPoint n g B l
  | deeper (l l1 l2 : Lexer) (t : TableExpr α) (sr : Option (SampleRatioExpr α))
      (hs : TableSource S E n l t sr l1)
      (hop : parseJoinOpSwitch l1 = Res.ok true l2)
      (hrest : InsertionPoint n g B (l2.skipKeyword KeywordJoin)) :
      InsertionPoint n g B l

end
/-! # Theorems -/

/-! ## The parser monad and fuel -/

theorem bind_apply {β γ : Type} (x : P β) (f : β → P γ) (l : Lexer) :
    (x >>= f) l = match x l with
      | Res.ok b l1 => f b l1
      | Res.err e => Res.err e
      | Res.fuel => Res.fuel := rfl

theorem pure_apply {β : Type} (b : β) (l : Lexer) : (pure b : P β) l = Res.ok b l := rfl

theorem P.le_refl {β : Type} (x : P β) : P.le x x := fun _ => Or.inr rfl

theorem P.outOfFuel_le {β : Type} (x : P β) : P.le P.outOfFuel x := fun _ => Or.inl rfl

theorem P.le_bind {β γ : Type} {x y : P β} {f g : β → P γ} (h : P.le x y)
    (hf : ∀ b, P.le (f b) (g b)) : P.le (x >>= f) (y >>= g) := by
  intro l
  rw [bind_apply, bind_apply]
  rcases h l with h1 | h1
  · rw [h1]; exact Or.inl rfl
  · rw [h1]
    cases y l with
    | ok b l1 => exact hf b l1
    | err e => exact Or.inr rfl
    | fuel => exact Or.inr rfl

theorem P.le_ite {β : Type} {c : Prop} [Decidable c] {a a' b b' : P β} (h1 : P.le a a')
    (h2 : P.le b b') : P.le (if c then a else b) (if c then a' else b') := by
  split
  · exact h1
  · exact h2

theorem parseGroupByExprWith_mono {α : Type} (n : Nat) :
    ∀ g : GroupByExpr α, P.le (parseGroupByExprWith n g) (parseGroupByExprWith (n + 1) g) := by
  induction n with
  | zero => intro g; exact P.outOfFuel_le _
  | succ n ih =>
    intro g
    rw [parseGroupByExprWith, parseGroupByExprWith]
    repeat' first
      | with_reducible exact P.le_refl _
      | apply ih
      | (refine P.le_bind ?_ (fun x => ?_) <;> try beta_reduce)
      | apply P.le_ite
      | split

theorem parseGroupByExpr_mono {α : Type} (S : Scalar α) (n : Nat) (pos : Pos) :
    P.le (parseGroupByExpr S n pos) (parseGroupByExpr S (n + 1) pos) := by
  unfold parseGroupByExpr
  repeat' first
    | with_reducible exact P.le_refl _
    | apply parseGroupByExprWith_mono
    | (refine P.le_bind ?_ (fun x => ?_) <;> try beta_reduce)
    | apply P.le_ite

theorem tryParseGroupByExpr_mono {α : Type} (S : Scalar α) (n : Nat) (pos : Pos) :
    P.le (tryParseGroupByExpr S n pos) (tryParseGroupByExpr S (n + 1) pos) := by
  unfold tryParseGroupByExpr
  repeat' first
    | with_reducible exact P.le_refl _
    | apply parseGroupByExpr_mono
    | (refine P.le_bind ?_ (fun x => ?_) <;> try beta_reduce)
    | apply P.le_ite

theorem parseWindowFrameExpr_mono {α : Type} (S : Scalar α) (n : Nat) :
    ∀ pos, P.le (parseWindowFrameExpr S n pos) (parseWindowFrameExpr S (n + 1) pos) := by
  induction n with
  | zero => intro pos; exact P.outOfFuel_le _
  | succ n ih =>
    intro pos
    rw [parseWindowFrameExpr, parseWindowFrameExpr]
    repeat' first
      | with_reducible exact P.le_refl _
      | apply ih
      | (refine P.le_bind ?_ (fun x => ?_) <;> try beta_reduce)
      | apply P.le_ite
      | split

theorem tryParseWindowExpr_mono {α : Type} (S : Scalar α) (n : Nat) (pos : Pos) :
    P.le (tryParseWindowExpr S n pos) (tryParseWindowExpr S (n + 1) pos) := by
  unfold tryParseWindowExpr parseWindowExpr parseWindowCondition tryParseWindowFrameExpr
  repeat' first
    | with_reducible exact P.le_refl _
    | apply parseWindowFrameExpr_mono
    | (refine P.le_bind ?_ (fun x => ?_) <;> try beta_reduce)
    | apply P.le_ite

theorem tryParseColumnAliasesLoop_mono {α : Type} (S : Scalar α) (n : Nat) :
    ∀ acc, P.le (tryParseColumnAliasesLoop S n acc) (tryParseColumnAliasesLoop S (n + 1) acc) := by
  induction n with
  | zero => intro acc; exact P.outOfFuel_le _
  | succ n ih =>
    intro acc
    rw [tryParseColumnAliasesLoop, tryParseColumnAliasesLoop]
    repeat' first
      | with_reducible exact P.le_refl _
      | apply ih
      | (refine P.le_bind ?_ (fun x => ?_) <;> try beta_reduce)
      | apply P.le_ite

theorem tryParseColumnAliases_mono {α : Type} (S : Scalar α) (n : Nat) :
    P.le (tryParseColumnAliases S n) (tryParseColumnAliases S (n + 1)) := by
  unfold tryParseColumnAliases
  repeat' first
    | with_reducible exact P.le_refl _
    | apply tryParseColumnAliasesLoop_mono
    | (refine P.le_bind ?_ (fun x => ?_) <;> try beta_reduce)
    | apply P.le_ite

section Mono

variable {α : Type} (S : Scalar α) (E : Ends α)

/-- One more unit of fuel extends every parser of the mutually recursive group. -/
theorem mutual_mono (n : Nat) :
    (∀ pos, P.le (tryParseWithExpr S E n pos) (tryParseWithExpr S E (n + 1) pos)) ∧
    (∀ pos, P.le (parseWithExpr S E n pos) (parseWithExpr S E (n + 1) pos)) ∧
    (∀ acc, P.le (parseWithExprLoop S E n acc) (parseWithExprLoop S E (n + 1) acc)) ∧
    (∀ pos, P.le (tryParseFromExpr S E n pos) (tryParseFromExpr S E (n + 1) pos)) ∧
    (∀ pos, P.le (parseFromExpr S E n pos) (parseFromExpr S E (n + 1) pos)) ∧
    (∀ pos, P.le (parseJoinOp S E n pos) (parseJoinOp S E (n + 1) pos)) ∧
    (∀ pos, P.le (parseJoinExpr S E n pos) (parseJoinExpr S E (n + 1) pos)) ∧
    (∀ pos, P.le (parseTableExpr S E n pos) (parseTableExpr S E (n + 1) pos)) ∧
    (∀ pos, P.le (parseSelectUnionExprList S E n pos) (parseSelectUnionExprList S E (n + 1) pos)) ∧
    (∀ pos acc, P.le (parseSelectUnionExprListLoop S E n pos acc)
      (parseSelectUnionExprListLoop S E (n + 1) pos acc)) ∧
    (∀ pos, P.le (parseSelectQuery S E n pos) (parseSelectQuery S E (n + 1) pos)) ∧
    (∀ pos, P.le (parseSelectStatementWithParen S E n pos)
      (parseSelectStatementWithParen S E (n + 1) pos)) ∧
    (∀ pos, P.le (parseSelectStatement S E n pos) (parseSelectStatement S E (n + 1) pos)) ∧
    (∀ pos, P.le (parseCTEExpr S E n pos) (parseCTEExpr S E (n + 1) pos)) := by
  induction n with
  | zero =>
    refine ⟨?_, ?_, ?_, ?_, ?_, ?_, ?_, ?_, ?_, ?_, ?_, ?_, ?_, ?_⟩ <;> intros <;>
      exact P.outOfFuel_le _
  | succ n ih =>
    obtain ⟨h1, h2, h3, h4, h5, h6, h7, h8, h9, h10, h11, h12, h13, h14⟩ := ih
    refine ⟨?_, ?_, ?_, ?_, ?_, ?_, ?_, ?_, ?_, ?_, ?_, ?_, ?_, ?_⟩
    · intro pos
      rw [tryParseWithExpr, tryParseWithExpr]
      repeat' first
        | with_reducible exact P.le_refl _
        | apply h2
        | (refine P.le_bind ?_ (fun x => ?_) <;> try beta_reduce)
        | apply P.le_ite
    · intro pos
      rw [parseWithExpr, parseWithExpr]
      repeat' first
        | with_reducible exact P.le_refl _
        | apply h3
        | apply h14
        | (refine P.le_bind ?_ (fun x => ?_) <;> try beta_reduce)
    · intro acc
      rw [parseWithExprLoop, parseWithExprLoop]
      repeat' first
        | with_reducible exact P.le_refl _
        | apply h3
        | apply h14
        | (refine P.le_bind ?_ (fun x => ?_) <;> try beta_reduce)
        | apply P.le_ite
        | split
    · intro pos
      rw [tryParseFromExpr, tryParseFromExpr]
      repeat' first
        | with_reducible exact P.le_refl _
        | apply h5
        | (refine P.le_bind ?_ (fun x => ?_) <;> try beta_reduce)
        | apply P.le_ite
    · intro pos
      rw [parseFromExpr, parseFromExpr]
      repeat' first
        | with_reducible exact P.le_refl _
        | apply h7
        | (refine P.le_bind ?_ (fun x => ?_) <;> try beta_reduce)
    · intro pos
      rw [parseJoinOp, parseJoinOp]
      repeat' first
        | with_reducible exact P.le_refl _
        | apply h7
        | (refine P.le_bind ?_ (fun x => ?_) <;> try beta_reduce)
        | apply P.le_ite
    · intro pos
      rw [parseJoinExpr, parseJoinExpr]
      repeat' first
        | with_reducible exact P.le_refl _
        | apply h6
        | apply h8
        | (refine P.le_bind ?_ (fun x => ?_) <;> try beta_reduce)
        | apply P.le_ite
    · intro pos
      rw [parseTableExpr, parseTableExpr]
      repeat' first
        | with_reducible exact P.le_refl _
        | apply h9
        | (refine P.le_bind ?_ (fun x => ?_) <;> try beta_reduce)
        | apply P.le_ite
    · intro pos
      rw [parseSelectUnionExprList, parseSelectUnionExprList]
      repeat' first
        | with_reducible exact P.le_refl _
        | apply h10
        | (refine P.le_bind ?_ (fun x => ?_) <;> try beta_reduce)
    · intro pos acc
      rw [parseSelectUnionExprListLoop, parseSelectUnionExprListLoop]
      repeat' first
        | with_reducible exact P.le_refl _
        | apply h10
        | apply h11
        | (refine P.le_bind ?_ (fun x => ?_) <;> try beta_reduce)
        | apply P.le_ite
        | split
    · intro pos
      rw [parseSelectQuery, parseSelectQuery]
      repeat' first
        | with_reducible exact P.le_refl _
        | apply h12
        | apply h13
        | (refine P.le_bind ?_ (fun x => ?_) <;> try beta_reduce)
        | apply P.le_ite
    · intro pos
      rw [parseSelectStatementWithParen, parseSelectStatementWithParen]
      repeat' first
        | with_reducible exact P.le_refl _
        | apply h13
        | (refine P.le_bind ?_ (fun x => ?_) <;> try beta_reduce)
    · intro pos
      rw [parseSelectStatement, parseSelectStatement]
      repeat' first
        | with_reducible exact P.le_refl _
        | apply h1
        | apply h4
        | apply tryParseWindowExpr_mono
        | apply tryParseGroupByExpr_mono
        | (refine P.le_bind ?_ (fun x => ?_) <;> try beta_reduce)
    · intro pos
      rw [parseCTEExpr, parseCTEExpr]
      repeat' first
        | with_reducible exact P.le_refl _
        | apply h13
        | apply tryParseColumnAliases_mono
        | (refine P.le_bind ?_ (fun x => ?_) <;> try beta_reduce)

end Mono

theorem fuel_mono {β : Type} {f : Nat → P β} (h : ∀ n, P.le (f n) (f (n + 1))) {n m : Nat}
    (hnm : n ≤ m) : P.le (f n) (f m) := by
  induction hnm with
  | refl => exact P.le_refl _
  | step _ ih =>
    intro l
    rcases ih l with h1 | h1
    · exact Or.inl h1
    · rw [h1]; exact h _ l

theorem fuel_ok {β : Type} {f : Nat → P β} (h : ∀ n, P.le (f n) (f (n + 1))) {n m : Nat}
    (hnm : n ≤ m) {l l2 : Lexer} {v : β} (hv : f n l = Res.ok v l2) : f m l = Res.ok v l2 := by
  rcases fuel_mono h hnm l with h1 | h1
  · rw [hv] at h1; cases h1
  · rw [← h1, hv]

theorem fuel_err {β : Type} {f : Nat → P β} (h : ∀ n, P.le (f n) (f (n + 1))) {n m : Nat}
    (hnm : n ≤ m) {l : Lexer} {e : String} (hv : f n l = Res.err e) : f m l = Res.err e := by
  rcases fuel_mono h hnm l with h1 | h1
  · rw [hv] at h1; cases h1
  · rw [← h1, hv]

/-! ## Cursor operations -/

theorem Lexer.last_of_matchKeyword {l : Lexer} {k : String} (h : l.matchKeyword k = true) :
    l.last = some l.token := by
  rcases l with ⟨_ | ⟨t, ts⟩, cur⟩
  · simp [Lexer.matchKeyword, Lexer.last] at h
  · rfl

theorem Lexer.last_of_matchTokenKind {l : Lexer} {k : TokenKind}
    (h : l.matchTokenKind k = true) : l.last = some l.token := by
  rcases l with ⟨_ | ⟨t, ts⟩, cur⟩
  · simp [Lexer.matchTokenKind, Lexer.last] at h
  · rfl

theorem tryConsumeKeyword_true {l : Lexer} {k : String} (h : l.matchKeyword k = true) :
    tryConsumeKeyword k l = Res.ok (some l.token) l.consumeToken := by
  simp [tryConsumeKeyword, h, Lexer.last_of_matchKeyword h]

theorem tryConsumeKeyword_false {l : Lexer} {k : String} (h : l.matchKeyword k = false) :
    tryConsumeKeyword k l = Res.ok none l := by
  simp [tryConsumeKeyword, h]

theorem consumeKeyword_true {l : Lexer} {k : String} (h : l.matchKeyword k = true) :
    consumeKeyword k l = Res.ok () l.consumeToken := by
  simp [consumeKeyword, h]

theorem consumeKeyword_false {l : Lexer} {k : String} (h : l.matchKeyword k = false) :
    consumeKeyword k l
      = Res.err ("expected keyword: " ++ k ++ ", but got " ++ l.lastTokenKind) := by
  simp [consumeKeyword, h]

theorem tryConsumeTokenKind_true {l : Lexer} {k : TokenKind} (h : l.matchTokenKind k = true) :
    tryConsumeTokenKind k l = Res.ok (some l.token) l.consumeToken := by
  simp [tryConsumeTokenKind, h, Lexer.last_of_matchTokenKind h]

theorem tryConsumeTokenKind_false {l : Lexer} {k : TokenKind} (h : l.matchTokenKind k = false) :
    tryConsumeTokenKind k l = Res.ok none l := by
  simp [tryConsumeTokenKind, h]

theorem consumeTokenKind_true {l : Lexer} {k : TokenKind} (h : l.matchTokenKind k = true) :
    consumeTokenKind k l = Res.ok (some l.token) l.consumeToken := by
  simp [consumeTokenKind, h, Lexer.last_of_matchTokenKind h]

theorem consumeTokenKind_false {l : Lexer} {k : TokenKind} (h : l.matchTokenKind k = false) :
    consumeTokenKind k l
      = Res.err ("expected token kind: " ++ k ++ ", but got " ++ l.lastTokenKind) := by
  simp [consumeTokenKind, h]

theorem lastToken_of_matchKeyword {l : Lexer} {k : String} (h : l.matchKeyword k = true) :
    lastToken l = Res.ok l.token l := by
  simp [lastToken, Lexer.last_of_matchKeyword h]

theorem getPos_apply (l : Lexer) : getPos l = Res.ok l.Pos l := rfl

theorem matchKeyword_apply (k : String) (l : Lexer) :
    matchKeyword k l = Res.ok (l.matchKeyword k) l := rfl

theorem matchTokenKind_apply (k : TokenKind) (l : Lexer) :
    matchTokenKind k l = Res.ok (l.matchTokenKind k) l := rfl

theorem consumeToken_apply (l : Lexer) : consumeToken l = Res.ok () l.consumeToken := rfl

theorem lastTokenKind_apply (l : Lexer) : lastTokenKind l = Res.ok l.lastTokenKind l := rfl

theorem fail_apply {β : Type} (msg : String) (l : Lexer) :
    (P.fail msg : P β) l = Res.err msg := rfl

theorem Lexer.matchKeyword_excl {l : Lexer} {k k2 : String} (h : l.matchKeyword k = true)
    (hk : equalFold k k2 = false) : l.matchKeyword k2 = false := by
  rcases l with ⟨_ | ⟨t, ts⟩, cur⟩
  · rfl
  · simp only [Lexer.matchKeyword, Lexer.last, List.head?_cons, Bool.and_eq_true, equalFold,
      beq_iff_eq] at h
    simp only [Lexer.matchKeyword, Lexer.last, List.head?_cons, equalFold, h.2]
    simp only [equalFold] at hk
    simp [hk]

theorem Lexer.matchTokenKind_of_matchKeyword {l : Lexer} {k : String} (kind : TokenKind)
    (h : l.matchKeyword k = true) (hk : (TokenKeyword == kind) = false) :
    l.matchTokenKind kind = false := by
  rcases l with ⟨_ | ⟨t, ts⟩, cur⟩
  · rfl
  · simp only [Lexer.matchKeyword, Lexer.last, List.head?_cons, Bool.and_eq_true,
      beq_iff_eq] at h
    simp only [Lexer.matchTokenKind, Lexer.last, List.head?_cons, h.1, hk]

theorem Lexer.lastTokenKind_of_matchKeyword {l : Lexer} {k : String}
    (h : l.matchKeyword k = true) : l.lastTokenKind = TokenKeyword := by
  rcases l with ⟨_ | ⟨t, ts⟩, cur⟩
  · simp [Lexer.matchKeyword, Lexer.last] at h
  · simp only [Lexer.matchKeyword, Lexer.last, List.head?_cons, Bool.and_eq_true,
      beq_iff_eq] at h
    simp only [Lexer.lastTokenKind, Lexer.last, List.head?_cons, h.1]

/-! ## Fuel corollaries and the join-operator switch -/

section

variable {α : Type} (S : Scalar α) (E : Ends α)

theorem parseSelectQuery_fuel {n m : Nat} (hnm : n ≤ m) {pos : Pos} {l l2 : Lexer}
    {q : SelectExpr α} (h : parseSelectQuery S E n pos l = Res.ok q l2) :
    parseSelectQuery S E m pos l = Res.ok q l2 :=
  fuel_ok (f := fun k => parseSelectQuery S E k pos)
    (fun k => (mutual_mono S E k).2.2.2.2.2.2.2.2.2.2.1 pos) hnm h

theorem parseTableExpr_fuel {n m : Nat} (hnm : n ≤ m) {pos : Pos} {l l2 : Lexer}
    {t : TableExpr α} (h : parseTableExpr S E n pos l = Res.ok t l2) :
    parseTableExpr S E m pos l = Res.ok t l2 :=
  fuel_ok (f := fun k => parseTableExpr S E k pos)
    (fun k => (mutual_mono S E k).2.2.2.2.2.2.2.1 pos) hnm h

/-- On the bare keyword `JOIN` the switch of `parseJoinOp` takes its `default` branch. -/
theorem parseJoinOpSwitch_join {l : Lexer} (h : l.matchKeyword KeywordJoin = true) :
    parseJoinOpSwitch l = Res.ok false l := by
  have e : ∀ k, equalFold KeywordJoin k = false → l.matchKeyword k = false :=
    fun k hk => Lexer.matchKeyword_excl h hk
  simp [parseJoinOpSwitch, bind_apply, pure_apply, matchKeyword_apply,
    tryConsumeKeyword_false (e KeywordCross (by decide)),
    tryConsumeTokenKind_false (Lexer.matchTokenKind_of_matchKeyword "," h (by decide)),
    e KeywordAny (by decide), e KeywordAll (by decide), e KeywordSemi (by decide),
    e KeywordAsof (by decide), e KeywordInner (by decide), e KeywordLeft (by decide),
    e KeywordRight (by decide), e KeywordFull (by decide)]

/-- On `LEFT` or `RIGHT` the switch of `parseJoinOp` reports a join operator without moving
the cursor: the branch never consumes the keyword it matched. -/
theorem parseJoinOpSwitch_left_right {l : Lexer}
    (h : l.matchKeyword KeywordLeft = true ∨ l.matchKeyword KeywordRight = true) :
    parseJoinOpSwitch l = Res.ok true l := by
  rcases h with h | h
  · have e : ∀ k, equalFold KeywordLeft k = false → l.matchKeyword k = false :=
      fun k hk => Lexer.matchKeyword_excl h hk
    simp [parseJoinOpSwitch, bind_apply, pure_apply, matchKeyword_apply, h,
      tryConsumeKeyword_false (e KeywordCross (by decide)),
      tryConsumeTokenKind_false (Lexer.matchTokenKind_of_matchKeyword "," h (by decide)),
      e KeywordAny (by decide), e KeywordAll (by decide), e KeywordSemi (by decide),
      e KeywordAsof (by decide), e KeywordInner (by decide), e KeywordOuter (by decide),
      e KeywordAnti (by decide), e KeywordArray (by decide)]
  · have e : ∀ k, equalFold KeywordRight k = false → l.matchKeyword k = false :=
      fun k hk => Lexer.matchKeyword_excl h hk
    simp [parseJoinOpSwitch, bind_apply, pure_apply, matchKeyword_apply, h,
      tryConsumeKeyword_false (e KeywordCross (by decide)),
      tryConsumeTokenKind_false (Lexer.matchTokenKind_of_matchKeyword "," h (by decide)),
      e KeywordAny (by decide), e KeywordAll (by decide), e KeywordSemi (by decide),
      e KeywordAsof (by decide), e KeywordInner (by decide), e KeywordOuter (by decide),
      e KeywordAnti (by decide), e KeywordArray (by decide), e KeywordLeft (by decide)]

end

/-! ## Steps of `parseJoinExpr` and `parseJoinOp` -/

section

variable {α : Type} (S : Scalar α) (E : Ends α)

theorem bind_ok_inv {β γ : Type} {x : P β} {f : β → P γ} {l l2 : Lexer} {v : γ}
    (h : (x >>= f) l = Res.ok v l2) : ∃ b l1, x l = Res.ok b l1 ∧ f b l1 = Res.ok v l2 := by
  rw [bind_apply] at h
  cases hx : x l with
  | ok b l1 => rw [hx] at h; exact ⟨b, l1, rfl, h⟩
  | err e => rw [hx] at h; cases h
  | fuel => rw [hx] at h; cases h

/-- A table source starts at the position passed to `parseTableExpr`. -/
theorem parseTableExpr_TablePos {n : Nat} {pos : Pos} {l l2 : Lexer} {t : TableExpr α}
    (h : parseTableExpr S E n pos l = Res.ok t l2) : t.TablePos = pos := by
  cases n with
  | zero => cases h
  | succ n =>
    rw [parseTableExpr] at h
    obtain ⟨e, l1, _, h⟩ := bind_ok_inv h
    obtain ⟨o, l3, _, h⟩ := bind_ok_inv h
    cases o with
    | none =>
      simp only [pure_apply] at h
      cases h
      rfl
    | some tok =>
      obtain ⟨a, l4, _, h⟩ := bind_ok_inv h
      simp only [pure_apply] at h
      cases h
      rfl

theorem joinCount_joinTree (pos : Pos) (t : TableExpr α × Option (SampleRatioExpr α))
    (ts : List (TableExpr α × Option (SampleRatioExpr α))) :
    (joinTree pos t ts).joinCount = ts.length := by
  induction ts generalizing pos t with
  | nil => simp [joinTree, Expr.joinCount]
  | cons t2 ts ih => simp [joinTree, Expr.joinCount, ih]

/-- `parseJoinExpr` on a table source after which `parseJoinOp` finds no join operator. -/
theorem parseJoinExpr_no_op {n k : Nat} (hk : n ≤ k) {pos : Pos} {l l1 l2 : Lexer}
    {t : TableExpr α} {sr : Option (SampleRatioExpr α)} (ht : TableSource S E n l t sr l1)
    (hop : parseJoinOp S E k l1.Pos l1 = Res.ok none l2) :
    parseJoinExpr S E (k + 1) pos l = Res.ok (Expr.table t) l2 := by
  obtain ⟨hstart, la, ls, hta, hsr, rfl⟩ := ht
  have hta2 := parseTableExpr_fuel S E hk hta
  cases hf : la.matchKeyword KeywordFinal <;>
    cases hg : (ls.matchKeyword KeywordGlobal || ls.matchKeyword KeywordLocal) <;>
    simp only [Lexer.skipKeyword, Lexer.skipGlobalLocal, hf, hg, if_true, if_false,
      Bool.false_eq_true] at hsr hop <;>
    simp only [Bool.or_eq_true, Bool.or_eq_false_iff] at hg <;>
    simp [parseJoinExpr, bind_apply, pure_apply, getPos_apply, matchTokenKind_apply, hstart,
      hta2, tryConsumeKeyword_false, tryConsumeKeyword_true, hf, hsr, matchKeyword_apply, hg,
      consumeToken_apply, hop]

/-- `parseJoinExpr` on a table source followed by a join operator and its right operand. -/
theorem parseJoinExpr_op {n k : Nat} (hk : n ≤ k) {pos : Pos} {l l1 l2 l3 : Lexer}
    {t : TableExpr α} {sr : Option (SampleRatioExpr α)} {r : Expr α}
    {c : Option (JoinConstraints α)} (ht : TableSource S E n l t sr l1)
    (hop : parseJoinOp S E k l1.Pos l1 = Res.ok (some r) l2)
    (hc : tryParseJoinConstraints S l2.Pos l2 = Res.ok c l3) :
    parseJoinExpr S E (k + 1) pos l = Res.ok (Expr.join pos (Expr.table t) r sr c) l3 := by
  obtain ⟨hstart, la, ls, hta, hsr, rfl⟩ := ht
  have hta2 := parseTableExpr_fuel S E hk hta
  cases hf : la.matchKeyword KeywordFinal <;>
    cases hg : (ls.matchKeyword KeywordGlobal || ls.matchKeyword KeywordLocal) <;>
    simp only [Lexer.skipKeyword, Lexer.skipGlobalLocal, hf, hg, if_true, if_false,
      Bool.false_eq_true] at hsr hop hc <;>
    simp only [Bool.or_eq_true, Bool.or_eq_false_iff] at hg <;>
    simp [parseJoinExpr, bind_apply, pure_apply, getPos_apply, matchTokenKind_apply, hstart,
      hta2, tryConsumeKeyword_false, tryConsumeKeyword_true, hf, hsr, matchKeyword_apply, hg,
      consumeToken_apply, hop, hc]

/-- `parseJoinOp` when the switch takes its `default` branch. -/
theorem parseJoinOp_none {k : Nat} {pos : Pos} {l l1 : Lexer}
    (h : parseJoinOpSwitch l = Res.ok false l1) :
    parseJoinOp S E (k + 1) pos l = Res.ok none l1 := by
  simp [parseJoinOp, bind_apply, pure_apply, h]

/-- `parseJoinOp` when the switch recognises a join operator. -/
theorem parseJoinOp_some {k : Nat} {pos : Pos} {l l1 l2 : Lexer} {r : Expr α}
    (h : parseJoinOpSwitch l = Res.ok true l1)
    (hr : parseJoinExpr S E k (l1.skipKeyword KeywordJoin).Pos (l1.skipKeyword KeywordJoin)
      = Res.ok r l2) :
    parseJoinOp S E (k + 1) pos l = Res.ok (some r) l2 := by
  cases hj : l1.matchKeyword KeywordJoin <;>
    simp only [Lexer.skipKeyword, hj, if_true, if_false, Bool.false_eq_true] at hr <;>
    simp [parseJoinOp, bind_apply, pure_apply, h, tryConsumeKeyword_false,
      tryConsumeKeyword_true, hj, getPos_apply, hr]

/-- No ON and no USING: no constraints, and the cursor stays. -/
theorem tryParseJoinConstraints_none {pos : Pos} {l : Lexer}
    (hon : l.matchKeyword KeywordOn = false) (husing : l.matchKeyword KeywordUsing = false) :
    tryParseJoinConstraints S pos l = Res.ok none l := by
  simp [tryParseJoinConstraints, bind_apply, pure_apply, tryConsumeKeyword_false, hon, husing]

end

section

variable {α : Type} (S : Scalar α) (E : Ends α)

/-- On a keyword that starts no join operator the switch of `parseJoinOp` takes its `default`
branch. -/
theorem parseJoinOpSwitch_default {l : Lexer} {k : String} (h : l.matchKeyword k = true)
    (hk : ∀ k2 ∈ [KeywordCross, KeywordAny, KeywordAll, KeywordSemi, KeywordAsof, KeywordInner,
      KeywordLeft, KeywordRight, KeywordFull], equalFold k k2 = false) :
    parseJoinOpSwitch l = Res.ok false l := by
  have e : ∀ k2 ∈ [KeywordCross, KeywordAny, KeywordAll, KeywordSemi, KeywordAsof,
      KeywordInner, KeywordLeft, KeywordRight, KeywordFull], l.matchKeyword k2 = false :=
    fun k2 hk2 => Lexer.matchKeyword_excl h (hk k2 hk2)
  simp [parseJoinOpSwitch, bind_apply, pure_apply, matchKeyword_apply,
    tryConsumeKeyword_false (e KeywordCross (by simp)),
    tryConsumeTokenKind_false (Lexer.matchTokenKind_of_matchKeyword "," h (by decide)),
    e KeywordAny (by simp), e KeywordAll (by simp), e KeywordSemi (by simp),
    e KeywordAsof (by simp), e KeywordInner (by simp), e KeywordLeft (by simp),
    e KeywordRight (by simp), e KeywordFull (by simp)]

/-- `ON` and a column list: an `OnExpr`. -/
theorem tryParseJoinConstraints_on {pos : Pos} {l l2 : Lexer} {c : α}
    (hon : l.matchKeyword KeywordOn = true)
    (hc : S.parseColumnExprListWithRoundBracket l.consumeToken.Pos l.consumeToken
      = Res.ok c l2) :
    tryParseJoinConstraints S pos l = Res.ok (some (JoinConstraints.OnExpr pos c)) l2 := by
  simp [tryParseJoinConstraints, bind_apply, pure_apply, tryConsumeKeyword_true hon,
    getPos_apply, hc]

end

theorem Lexer.matchTokenKind_excl {l : Lexer} {k : TokenKind} (k2 : TokenKind)
    (h : l.matchTokenKind k = true) (hk : (k == k2) = false) : l.matchTokenKind k2 = false := by
  rcases l with ⟨_ | ⟨t, ts⟩, cur⟩
  · rfl
  · simp only [Lexer.matchTokenKind, Lexer.last, List.head?_cons, beq_iff_eq] at h
    simp only [Lexer.matchTokenKind, Lexer.last, List.head?_cons, h, hk]

theorem Lexer.matchKeyword_of_matchTokenKind {l : Lexer} {k : TokenKind} (kw : String)
    (h : l.matchTokenKind k = true) (hk : (k == TokenKeyword) = false) :
    l.matchKeyword kw = false := by
  rcases l with ⟨_ | ⟨t, ts⟩, cur⟩
  · rfl
  · simp only [Lexer.matchTokenKind, Lexer.last, List.head?_cons, beq_iff_eq] at h
    simp only [Lexer.matchKeyword, Lexer.last, List.head?_cons, h, hk, Bool.false_and]

section

variable {α : Type} (S : Scalar α) (E : Ends α)

theorem parseSelectStatement_fuel {n m : Nat} (hnm : n ≤ m) {pos : Pos} {l l2 : Lexer}
    {q : SelectExpr α} (h : parseSelectStatement S E n pos l = Res.ok q l2) :
    parseSelectStatement S E m pos l = Res.ok q l2 :=
  fuel_ok (f := fun k => parseSelectStatement S E k pos)
    (fun k => (mutual_mono S E k).2.2.2.2.2.2.2.2.2.2.2.2.1 pos) hnm h

end

/-! ## The GROUP BY loop -/

theorem matchKeyword_cons (t : Token) (ts : List Token) (cur : Pos) (k : String) :
    (Lexer.mk (t :: ts) cur).matchKeyword k = isKeyword t k := rfl

theorem consumeToken_cons (t : Token) (ts : List Token) (cur : Pos) :
    (Lexer.mk (t :: ts) cur).consumeToken = Lexer.mk ts cur := rfl

theorem isKeyword_excl {t : Token} {k : String} (k2 : String) (h : isKeyword t k = true)
    (hk : equalFold k k2 = false) : isKeyword t k2 = false :=
  Lexer.matchKeyword_excl (l := Lexer.mk [t] 0) h hk

section

variable {α : Type} (S : Scalar α)

/-- The loop of `parseGroupByExpr` over a sequence of modifiers: each flag is set when its
keyword occurs. -/
theorem parseGroupByExprWith_modifiers (mods : List (Token × Token))
    (hmods : ∀ p ∈ mods, isModifier p = true) (toks : List Token) (cur : Pos) :
    ∀ (g : GroupByExpr α) (fuel : Nat),
      parseGroupByExprWith (fuel + mods.length) g (Lexer.mk (modifierTokens mods ++ toks) cur)
        = parseGroupByExprWith fuel
            { g with
              WithCube := g.WithCube || mods.any (fun p => isKeyword p.2 KeywordCube)
              WithRollup := g.WithRollup || mods.any (fun p => isKeyword p.2 KeywordRollup)
              WithTotals := g.WithTotals || mods.any (fun p => isKeyword p.2 KeywordTotals) }
            (Lexer.mk toks cur) := by
  induction mods with
  | nil => intro g fuel; simp [modifierTokens]
  | cons p ps ih =>
    intro g fuel
    have hp := hmods p (List.mem_cons_self _ _)
    simp only [isModifier, Bool.and_eq_true, Bool.or_eq_true, or_assoc] at hp
    obtain ⟨hw, hm⟩ := hp
    have ih2 := ih (fun q hq => hmods q (List.mem_cons_of_mem _ hq))
    have e : fuel + (p :: ps).length = (fuel + ps.length) + 1 := by simp; omega
    rw [e, parseGroupByExprWith]
    have hw2 : (Lexer.mk (p.1 :: p.2 :: (modifierTokens ps ++ toks)) cur).matchKeyword
        KeywordWith = true := hw
    simp only [modifierTokens, List.cons_append, bind_apply, tryConsumeKeyword_true hw2,
      consumeToken_cons]
    rcases hm with hc | hr | ht
    · have h1 : (Lexer.mk (p.2 :: (modifierTokens ps ++ toks)) cur).matchKeyword KeywordCube
          = true := hc
      simp only [tryConsumeKeyword_true h1, consumeToken_cons, ih2]
      simp [hc, isKeyword_excl KeywordRollup hc (by decide),
        isKeyword_excl KeywordTotals hc (by decide), Bool.or_assoc]
    · have h0 : (Lexer.mk (p.2 :: (modifierTokens ps ++ toks)) cur).matchKeyword KeywordCube
          = false := isKeyword_excl KeywordCube hr (by decide)
      have h1 : (Lexer.mk (p.2 :: (modifierTokens ps ++ toks)) cur).matchKeyword KeywordRollup
          = true := hr
      simp only [bind_apply, tryConsumeKeyword_false h0, tryConsumeKeyword_true h1,
        consumeToken_cons, ih2]
      simp [hr, isKeyword_excl KeywordCube hr (by decide),
        isKeyword_excl KeywordTotals hr (by decide), Bool.or_assoc]
    · have h0 : (Lexer.mk (p.2 :: (modifierTokens ps ++ toks)) cur).matchKeyword KeywordCube
          = false := isKeyword_excl KeywordCube ht (by decide)
      have h1 : (Lexer.mk (p.2 :: (modifierTokens ps ++ toks)) cur).matchKeyword KeywordRollup
          = false := isKeyword_excl KeywordRollup ht (by decide)
      have h2 : (Lexer.mk (p.2 :: (modifierTokens ps ++ toks)) cur).matchKeyword KeywordTotals
          = true := ht
      simp only [bind_apply, tryConsumeKeyword_false h0, tryConsumeKeyword_false h1,
        tryConsumeKeyword_true h2, consumeToken_cons, ih2]
      simp [ht, isKeyword_excl KeywordCube ht (by decide),
        isKeyword_excl KeywordRollup ht (by decide), Bool.or_assoc]

/-- `parseGroupByExpr` up to its loop. -/
theorem parseGroupByExpr_head {fuel : Nat} {pos : Pos} {l l2 : Lexer} {agg : String} {e : α}
    (hgroup : l.matchKeyword KeywordGroup = true)
    (hby : l.consumeToken.matchKeyword KeywordBy = true)
    (hhead : GroupByHead S l.consumeToken.consumeToken agg e l2) :
    parseGroupByExpr S fuel pos l
      = parseGroupByExprWith fuel
          { GroupByPos := pos, AggregateType := agg, Expr := e, WithCube := false,
            WithRollup := false, WithTotals := false } l2 := by
  rcases hhead with ⟨hc, hr, he, rfl⟩ | ⟨hcr, he, rfl⟩
  · have hu : toUpper "" = "" := by decide
    simp [parseGroupByExpr, bind_apply, consumeKeyword_true hgroup, consumeKeyword_true hby,
      matchKeyword_apply, hc, hr, getPos_apply, he, hu]
  · have hl : lastToken l.consumeToken.consumeToken
        = Res.ok l.consumeToken.consumeToken.token l.consumeToken.consumeToken := by
      rcases hcr with h | h <;> exact lastToken_of_matchKeyword h
    simp [parseGroupByExpr, bind_apply, consumeKeyword_true hgroup, consumeKeyword_true hby,
      matchKeyword_apply, hcr, getPos_apply, he, hl, consumeToken_apply]

end

/-! ## Window frames -/

theorem toUpper_of_matchKeyword {l : Lexer} {k : String} (h : l.matchKeyword k = true) :
    toUpper l.token.String = toUpper k := by
  rcases l with ⟨_ | ⟨t, ts⟩, cur⟩
  · simp [Lexer.matchKeyword, Lexer.last] at h
  · simp only [Lexer.matchKeyword, Lexer.last, List.head?_cons, Bool.and_eq_true, equalFold,
      beq_iff_eq] at h
    simp only [toUpper, Lexer.token, List.headD_cons, h.2]

section

variable {α : Type} (S : Scalar α)

theorem parseWindowFrameExpr_fuel {n m : Nat} (hnm : n ≤ m) {pos : Pos} {l l2 : Lexer}
    {w : WindowFrameExpr α} (h : parseWindowFrameExpr S n pos l = Res.ok w l2) :
    parseWindowFrameExpr S m pos l = Res.ok w l2 :=
  fuel_ok (f := fun k => parseWindowFrameExpr S k pos)
    (fun k => parseWindowFrameExpr_mono S k pos) hnm h

end

/-- The last present element of a list of optional positions, with a default: the default
moves inward. -/
theorem lastPresent_cons_getD (o : Option Pos) (os : List (Option Pos)) (d : Pos) :
    ((o :: os).reduceOption.getLast?).getD d = (os.reduceOption.getLast?).getD (o.getD d) := by
  cases o with
  | none => simp [List.reduceOption_cons_of_none]
  | some x =>
    simp only [List.reduceOption_cons_of_some, Option.getD_some]
    cases h : os.reduceOption with
    | nil => simp
    | cons y ys =>
      have e : (y :: ys).getLast? = some ((y :: ys).getLast (by simp)) :=
        List.getLast?_eq_getLast _ _
      simp [e]

section
variable {α : Type} (S : Scalar α) (E : Ends α)

/-- A successful `parseSelectStatement` starts at the position it was given and ends with its
last clause. -/
theorem parseSelectStatement_inv {n : Nat} {pos : Pos} {l l2 : Lexer} {s : SelectExpr α}
    (h : parseSelectStatement S E n pos l = Res.ok s l2) :
    s.SelectPos = pos ∧ s.StatementEnd = lastClauseEnd S E s := by
  cases n with
  | zero => cases h
  | succ n =>
    rw [parseSelectStatement] at h
    obtain ⟨withExpr, _, _, h⟩ := bind_ok_inv h
    obtain ⟨_, _, _, h⟩ := bind_ok_inv h
    obtain ⟨_, _, _, h⟩ := bind_ok_inv h
    obtain ⟨_, _, _, h⟩ := bind_ok_inv h
    obtain ⟨topExpr, _, _, h⟩ := bind_ok_inv h
    obtain ⟨_, _, _, h⟩ := bind_ok_inv h
    obtain ⟨selectColumns, _, _, h⟩ := bind_ok_inv h
    obtain ⟨_, _, _, h⟩ := bind_ok_inv h
    obtain ⟨fromExpr, _, _, h⟩ := bind_ok_inv h
    obtain ⟨_, _, _, h⟩ := bind_ok_inv h
    obtain ⟨arrayJoinExpr, _, _, h⟩ := bind_ok_inv h
    obtain ⟨_, _, _, h⟩ := bind_ok_inv h
    obtain ⟨windowExpr, _, _, h⟩ := bind_ok_inv h
    obtain ⟨_, _, _, h⟩ := bind_ok_inv h
    obtain ⟨prewhereExpr, _, _, h⟩ := bind_ok_inv h
    obtain ⟨_, _, _, h⟩ := bind_ok_inv h
    obtain ⟨whereExpr, _, _, h⟩ := bind_ok_inv h
    obtain ⟨_, _, _, h⟩ := bind_ok_inv h
    obtain ⟨groupByExpr, _, _, h⟩ := bind_ok_inv h
    obtain ⟨_, _, _, h⟩ := bind_ok_inv h
    obtain ⟨havingExpr, _, _, h⟩ := bind_ok_inv h
    obtain ⟨_, _, _, h⟩ := bind_ok_inv h
    obtain ⟨orderByExpr, _, _, h⟩ := bind_ok_inv h
    obtain ⟨_, _, _, h⟩ := bind_ok_inv h
    obtain ⟨limitByExpr, _, _, h⟩ := bind_ok_inv h
    obtain ⟨_, _, _, h⟩ := bind_ok_inv h
    obtain ⟨settingsExpr, _, _, h⟩ := bind_ok_inv h
    simp only [pure_apply, Res.ok.injEq] at h
    obtain ⟨rfl, rfl⟩ := h
    refine ⟨rfl, ?_⟩
    simp only [SelectExpr.StatementEnd, lastClauseEnd, clauseEnds, SelectExpr.From,
      SelectExpr.ArrayJoin, SelectExpr.Window, SelectExpr.Prewhere, SelectExpr.Where,
      SelectExpr.GroupBy, SelectExpr.Having, SelectExpr.OrderBy, SelectExpr.LimitBy,
      SelectExpr.Settings, SelectExpr.SelectColumns, lastPresent_cons_getD,
      List.reduceOption_nil, List.getLast?_nil, Option.getD_none]
    cases settingsExpr <;> simp only [Option.map_some', Option.map_none', Option.getD_some,
      Option.getD_none]
    cases limitByExpr <;> simp only [Option.map_some', Option.map_none', Option.getD_some,
      Option.getD_none]
    cases orderByExpr <;> simp only [Option.map_some', Option.map_none', Option.getD_some,
      Option.getD_none]
    cases havingExpr <;> simp only [Option.map_some', Option.map_none', Option.getD_some,
      Option.getD_none]
    cases groupByExpr <;> simp only [Option.map_some', Option.map_none', Option.getD_some,
      Option.getD_none]
    cases whereExpr <;> simp only [Option.map_some', Option.map_none', Option.getD_some,
      Option.getD_none]
    cases prewhereExpr <;> simp only [Option.map_some', Option.map_none', Option.getD_some,
      Option.getD_none]
    cases windowExpr <;> simp only [Option.map_some', Option.map_none', Option.getD_some,
      Option.getD_none]
    cases arrayJoinExpr <;> simp only [Option.map_some', Option.map_none', Option.getD_some,
      Option.getD_none]
    cases fromExpr <;> simp only [Option.map_some', Option.map_none', Option.getD_some,
      Option.getD_none]

end

/-! ## Absent clauses -/

section
variable {α : Type} (S : Scalar α) (E : Ends α)

theorem tryParseWithExpr_fuel {n m : Nat} (hnm : n ≤ m) {pos : Pos} {l l2 : Lexer}
    {w : Option (WithExpr α)} (h : tryParseWithExpr S E n pos l = Res.ok w l2) :
    tryParseWithExpr S E m pos l = Res.ok w l2 :=
  fuel_ok (f := fun k => tryParseWithExpr S E k pos) (fun k => (mutual_mono S E k).1 pos) hnm h

theorem tryParseGroupByExpr_fuel {n m : Nat} (hnm : n ≤ m) {pos : Pos} {l l2 : Lexer}
    {g : Option (GroupByExpr α)} (h : tryParseGroupByExpr S n pos l = Res.ok g l2) :
    tryParseGroupByExpr S m pos l = Res.ok g l2 :=
  fuel_ok (f := fun k => tryParseGroupByExpr S k pos)
    (fun k => tryParseGroupByExpr_mono S k pos) hnm h

theorem tryParseWithExpr_none {n : Nat} {pos : Pos} {l : Lexer}
    (h : l.matchKeyword KeywordWith = false) :
    tryParseWithExpr S E (n + 1) pos l = Res.ok none l := by
  simp [tryParseWithExpr, bind_apply, pure_apply, matchKeyword_apply, h]

theorem tryParseTopExpr_none {pos : Pos} {l : Lexer} (h : l.matchKeyword KeywordTop = false) :
    tryParseTopExpr S pos l = Res.ok none l := by
  simp [tryParseTopExpr, bind_apply, pure_apply, matchKeyword_apply, h]

theorem tryParseFromExpr_none {n : Nat} {pos : Pos} {l : Lexer}
    (h : l.matchKeyword KeywordFrom = false) :
    tryParseFromExpr S E (n + 1) pos l = Res.ok none l := by
  simp [tryParseFromExpr, bind_apply, pure_apply, matchKeyword_apply, h]

theorem tryParseArrayJoin_none {pos : Pos} {l : Lexer}
    (hl : l.matchKeyword KeywordLeft = false) (hi : l.matchKeyword KeywordInner = false)
    (ha : l.matchKeyword KeywordArray = false) :
    tryParseArrayJoin S pos l = Res.ok none l := by
  simp [tryParseArrayJoin, bind_apply, pure_apply, matchKeyword_apply, hl, hi, ha]

theorem tryParseWindowExpr_none {n : Nat} {pos : Pos} {l : Lexer}
    (h : l.matchKeyword KeywordWindow = false) :
    tryParseWindowExpr S n pos l = Res.ok none l := by
  simp [tryParseWindowExpr, bind_apply, pure_apply, matchKeyword_apply, h]

theorem tryParsePrewhereExpr_none {pos : Pos} {l : Lexer}
    (h : l.matchKeyword KeywordPrewhere = false) :
    tryParsePrewhereExpr S pos l = Res.ok none l := by
  simp [tryParsePrewhereExpr, bind_apply, pure_apply, matchKeyword_apply, h]

theorem tryParseWhereExpr_none {pos : Pos} {l : Lexer}
    (h : l.matchKeyword KeywordWhere = false) :
    tryParseWhereExpr S pos l = Res.ok none l := by
  simp [tryParseWhereExpr, bind_apply, pure_apply, matchKeyword_apply, h]

theorem tryParseGroupByExpr_none {n : Nat} {pos : Pos} {l : Lexer}
    (h : l.matchKeyword KeywordGroup = false) :
    tryParseGroupByExpr S n pos l = Res.ok none l := by
  simp [tryParseGroupByExpr, bind_apply, pure_apply, matchKeyword_apply, h]

theorem tryParseHavingExpr_none {pos : Pos} {l : Lexer}
    (h : l.matchKeyword KeywordHaving = false) :
    tryParseHavingExpr S pos l = Res.ok none l := by
  simp [tryParseHavingExpr, bind_apply, pure_apply, matchKeyword_apply, h]

theorem tryParseLimitByExpr_none {pos : Pos} {l : Lexer}
    (h : l.matchKeyword KeywordLimit = false) :
    tryParseLimitByExpr S pos l = Res.ok none l := by
  simp [tryParseLimitByExpr, bind_apply, pure_apply, matchKeyword_apply, h]

/-- `parseSelectStatement` after its head: the ten optional clauses, each given by the result
of its own parser. -/
theorem parseSelectStatement_clauses {n m : Nat} (hm : n ≤ m) {pos : Pos}
    {l l2 l3 l4 l5 l6 l7 l8 l9 l10 l11 l12 : Lexer}
    {w : Option (WithExpr α)} {top : Option (TopExpr α)} {cols : α}
    {f : Option (FromExpr α)} {aj : Option (ArrayJoinExpr α)} {win : Option (WindowExpr α)}
    {pw : Option (PrewhereExpr α)} {wh : Option (WhereExpr α)} {gb : Option (GroupByExpr α)}
    {hv : Option (HavingExpr α)} {ob : Option α} {lb : Option (LimitByExpr α)}
    {st : Option α}
    (hhead : SelectHead S E n pos l w top cols l2)
    (hf : tryParseFromExpr S E m l2.Pos l2 = Res.ok f l3)
    (haj : tryParseArrayJoin S l3.Pos l3 = Res.ok aj l4)
    (hwin : tryParseWindowExpr S m l4.Pos l4 = Res.ok win l5)
    (hpw : tryParsePrewhereExpr S l5.Pos l5 = Res.ok pw l6)
    (hwh : tryParseWhereExpr S l6.Pos l6 = Res.ok wh l7)
    (hgb : tryParseGroupByExpr S m l7.Pos l7 = Res.ok gb l8)
    (hhv : tryParseHavingExpr S l8.Pos l8 = Res.ok hv l9)
    (hob : S.tryParseOrderByExprList l9.Pos l9 = Res.ok ob l10)
    (hlb : tryParseLimitByExpr S l10.Pos l10 = Res.ok lb l11)
    (hst : S.tryParseSettingsExprList l11.Pos l11 = Res.ok st l12) :
    ∃ e, parseSelectStatement S E (m + 1) pos l
      = Res.ok (SelectExpr.mk w pos e top cols f aj win pw wh gb hv ob lb st) l12 := by
  obtain ⟨l0, l1, hw, hsel, htop, hcols⟩ := hhead
  have hw2 := tryParseWithExpr_fuel S E hm hw
  cases hd : l0.consumeToken.matchKeyword KeywordDistinct <;>
    simp only [Lexer.skipKeyword, hd, if_true, if_false, Bool.false_eq_true] at htop <;>
    exact ⟨_, by
      simp [parseSelectStatement, bind_apply, pure_apply, getPos_apply, hw2,
        consumeKeyword_true hsel, tryConsumeKeyword_false, tryConsumeKeyword_true, hd, htop,
        hcols, hf, haj, hwin, hpw, hwh, hgb, hhv, hob, hlb, hst]
      rfl⟩

/-- `parseSelectStatement` after its head, with `StatementEnd` spelled out: the end of the
last clause present. -/
theorem parseSelectStatement_run {n m : Nat} (hm : n ≤ m) {pos : Pos}
    {l l2 l3 l4 l5 l6 l7 l8 l9 l10 l11 l12 : Lexer}
    {w : Option (WithExpr α)} {top : Option (TopExpr α)} {cols : α}
    {f : Option (FromExpr α)} {aj : Option (ArrayJoinExpr α)} {win : Option (WindowExpr α)}
    {pw : Option (PrewhereExpr α)} {wh : Option (WhereExpr α)} {gb : Option (GroupByExpr α)}
    {hv : Option (HavingExpr α)} {ob : Option α} {lb : Option (LimitByExpr α)}
    {st : Option α}
    (hhead : SelectHead S E n pos l w top cols l2)
    (hf : tryParseFromExpr S E m l2.Pos l2 = Res.ok f l3)
    (haj : tryParseArrayJoin S l3.Pos l3 = Res.ok aj l4)
    (hwin : tryParseWindowExpr S m l4.Pos l4 = Res.ok win l5)
    (hpw : tryParsePrewhereExpr S l5.Pos l5 = Res.ok pw l6)
    (hwh : tryParseWhereExpr S l6.Pos l6 = Res.ok wh l7)
    (hgb : tryParseGroupByExpr S m l7.Pos l7 = Res.ok gb l8)
    (hhv : tryParseHavingExpr S l8.Pos l8 = Res.ok hv l9)
    (hob : S.tryParseOrderByExprList l9.Pos l9 = Res.ok ob l10)
    (hlb : tryParseLimitByExpr S l10.Pos l10 = Res.ok lb l11)
    (hst : S.tryParseSettingsExprList l11.Pos l11 = Res.ok st l12) :
    parseSelectStatement S E (m + 1) pos l
      = Res.ok (SelectExpr.mk w pos
          ((([f.map E.FromExpr, aj.map E.ArrayJoinExpr, win.map E.WindowExpr,
              pw.map E.PrewhereExpr, wh.map E.WhereExpr, gb.map E.GroupByExpr,
              hv.map E.HavingExpr, ob.map S.End, lb.map E.LimitByExpr,
              st.map S.End] : List (Option Pos)).reduceOption.getLast?).getD (S.End cols))
          top cols f aj win pw wh gb hv ob lb st) l12 := by
  obtain ⟨e, he⟩ := parseSelectStatement_clauses S E hm hhead hf haj hwin hpw hwh hgb hhv hob
    hlb hst
  have h := (parseSelectStatement_inv S E he).2
  simp only [SelectExpr.StatementEnd, lastClauseEnd, clauseEnds, SelectExpr.From,
    SelectExpr.ArrayJoin, SelectExpr.Window, SelectExpr.Prewhere, SelectExpr.Where,
    SelectExpr.GroupBy, SelectExpr.Having, SelectExpr.OrderBy, SelectExpr.LimitBy,
    SelectExpr.Settings, SelectExpr.SelectColumns] at h
  rw [he, h]

end

/-- A cursor on the keyword `K`, one of the keywords `ks`, is on no keyword that differs from
all of `ks`. -/
theorem matchKeyword_excl_mem {l : Lexer} {K : String} (ks : List String) (k2 : String)
    (hK : l.matchKeyword K = true) (hmem : K ∈ ks) (h : ∀ k ∈ ks, equalFold k k2 = false) :
    l.matchKeyword k2 = false :=
  Lexer.matchKeyword_excl hK (h K hmem)

section
variable {α : Type} (S : Scalar α) (E : Ends α)

/-- `parseJoinExpr` on a table source, a join operator accepted by the switch of
`parseJoinOp`, the right operand and the optional constraints: the `JoinExpr` is built from
the position and the operand nodes alone. -/
theorem parseJoinExpr_any_op {n k : Nat} (hk : n ≤ k + 1) {pos : Pos} {l l1 l2 l3 l4 : Lexer}
    {t : TableExpr α} {sr : Option (SampleRatioExpr α)} {r : Expr α}
    {c : Option (JoinConstraints α)} (ht : TableSource S E n l t sr l1)
    (hop : parseJoinOpSwitch l1 = Res.ok true l2)
    (hr : parseJoinExpr S E k (l2.skipKeyword KeywordJoin).Pos (l2.skipKeyword KeywordJoin)
      = Res.ok r l3)
    (hc : tryParseJoinConstraints S l3.Pos l3 = Res.ok c l4) :
    parseJoinExpr S E (k + 2) pos l = Res.ok (Expr.join pos (Expr.table t) r sr c) l4 :=
  parseJoinExpr_op S E hk ht (parseJoinOp_some S E hop hr) hc

end

/-! ## Inversion of the cursor operations -/

theorem consumeKeyword_ok_inv {k : String} {l l2 : Lexer} {u : Unit}
    (h : consumeKeyword k l = Res.ok u l2) : l.matchKeyword k = true ∧ l2 = l.consumeToken := by
  unfold consumeKeyword at h
  split at h
  · rename_i hm
    simp only [Res.ok.injEq] at h
    exact ⟨hm, h.2.symm⟩
  · cases h

theorem consumeTokenKind_ok_inv {k : TokenKind} {l l2 : Lexer} {u : Option Token}
    (h : consumeTokenKind k l = Res.ok u l2) :
    l.matchTokenKind k = true ∧ l2 = l.consumeToken := by
  unfold consumeTokenKind at h
  split at h
  · rename_i hm
    simp only [Res.ok.injEq] at h
    exact ⟨hm, h.2.symm⟩
  · cases h

theorem lastToken_ok_inv {l l2 : Lexer} {t : Token} (h : lastToken l = Res.ok t l2) :
    t = l.token ∧ l2 = l := by
  rcases l with ⟨_ | ⟨t0, ts⟩, cur⟩
  · simp [lastToken, Lexer.last] at h
  · simp only [lastToken, Lexer.last, List.head?_cons, Res.ok.injEq] at h
    exact ⟨h.1.symm, h.2.symm⟩

section
variable {α : Type} (S : Scalar α) (E : Ends α)

/-- `TopEnd` of a successful `parseTopExpr`: the end of the number without `WITH TIES`, and
the end of the `TIES` token, the last token consumed, with it. -/
theorem parseTopExpr_TopEnd {pos : Pos} {l l2 : Lexer} {top : TopExpr α}
    (h : parseTopExpr S pos l = Res.ok top l2) :
    (top.WithTies = false ∧ top.TopEnd = S.End top.Number) ∨
    (top.WithTies = true ∧ ∃ l1 : Lexer, l1.matchKeyword KeywordTies = true ∧ l2 = l1.consumeToken ∧
      top.TopEnd = l1.token.End) := by
  unfold parseTopExpr at h
  obtain ⟨_, _, _, h⟩ := bind_ok_inv h
  obtain ⟨_, _, _, h⟩ := bind_ok_inv h
  obtain ⟨number, _, _, h⟩ := bind_ok_inv h
  obtain ⟨o, _, _, h⟩ := bind_ok_inv h
  cases o with
  | none =>
    simp only [pure_apply, Res.ok.injEq] at h
    obtain ⟨rfl, rfl⟩ := h
    exact Or.inl ⟨rfl, rfl⟩
  | some tok =>
    obtain ⟨t, l1, ht, h⟩ := bind_ok_inv h
    obtain ⟨_, _, hc, h⟩ := bind_ok_inv h
    simp only [pure_apply, Res.ok.injEq] at h
    obtain ⟨rfl, rfl⟩ := h
    obtain ⟨rfl, rfl⟩ := lastToken_ok_inv ht
    obtain ⟨hm, rfl⟩ := consumeKeyword_ok_inv hc
    exact Or.inr ⟨rfl, _, hm, rfl, rfl⟩

/-- `EndPos` of a successful `parseCTEExpr` is `End()` of the statement between the
parentheses; the call then consumes the closing parenthesis. -/
theorem parseCTEExpr_inv {n : Nat} {pos : Pos} {l l2 : Lexer} {c : CTEExpr α}
    (h : parseCTEExpr S E n pos l = Res.ok c l2) :
    c.EndPos = E.SelectExpr c.Select ∧
    ∃ k p l0 l1, parseSelectStatement S E k p l0 = Res.ok c.Select l1 ∧
      l1.matchTokenKind ")" = true ∧ l2 = l1.consumeToken := by
  cases n with
  | zero => cases h
  | succ n =>
    rw [parseCTEExpr] at h
    obtain ⟨name, _, _, h⟩ := bind_ok_inv h
    obtain ⟨aliases, _, _, h⟩ := bind_ok_inv h
    obtain ⟨_, _, _, h⟩ := bind_ok_inv h
    obtain ⟨_, _, _, h⟩ := bind_ok_inv h
    obtain ⟨p, l0, hp, h⟩ := bind_ok_inv h
    obtain ⟨s, l1, hs, h⟩ := bind_ok_inv h
    obtain ⟨_, _, hc, h⟩ := bind_ok_inv h
    simp only [pure_apply, Res.ok.injEq] at h
    obtain ⟨rfl, rfl⟩ := h
    obtain ⟨hm, rfl⟩ := consumeTokenKind_ok_inv hc
    exact ⟨rfl, n, p, l0, l1, hs, hm, rfl⟩

end

/-! ## Absent clauses, continued -/

theorem tryConsumeKeyword_none_inv {k : String} {l l2 : Lexer}
    (h : tryConsumeKeyword k l = Res.ok none l2) : l.matchKeyword k = false ∧ l2 = l := by
  unfold tryConsumeKeyword at h
  split at h
  · rename_i hm
    simp only [Res.ok.injEq] at h
    have := Lexer.last_of_matchKeyword hm
    rw [this] at h
    cases h.1
  · rename_i hm
    simp only [Res.ok.injEq] at h
    exact ⟨by simpa using hm, h.2.symm⟩

section
variable {α : Type} (S : Scalar α) (E : Ends α)

theorem tryParseWindowFrameExpr_none {n : Nat} {pos : Pos} {l : Lexer}
    (hrows : l.matchKeyword KeywordRows = false) (hrange : l.matchKeyword KeywordRange = false) :
    tryParseWindowFrameExpr S n pos l = Res.ok none l := by
  simp [tryParseWindowFrameExpr, bind_apply, pure_apply, matchKeyword_apply, hrows, hrange]

theorem tryParseSampleRationExpr_none {pos : Pos} {l : Lexer}
    (h : l.matchKeyword KeywordSample = false) :
    tryParseSampleRationExpr S pos l = Res.ok none l := by
  simp [tryParseSampleRationExpr, bind_apply, pure_apply, matchKeyword_apply, h]

theorem tryParseColumnAliases_none {n : Nat} {l : Lexer} (h : l.matchTokenKind "(" = false) :
    tryParseColumnAliases S n l = Res.ok [] l := by
  simp [tryParseColumnAliases, bind_apply, pure_apply, matchTokenKind_apply, h]

/-- When the switch of `parseJoinOp` reports no join operator, the cursor has not moved. -/
theorem parseJoinOpSwitch_false_inv {l l2 : Lexer} (h : parseJoinOpSwitch l = Res.ok false l2) :
    l2 = l := by
  unfold parseJoinOpSwitch at h
  cases hc : l.matchKeyword KeywordCross
  case true =>
    cases hj : l.consumeToken.matchKeyword KeywordJoin <;>
      simp [bind_apply, pure_apply, tryConsumeKeyword_true hc, consumeKeyword_true,
        consumeKeyword_false, hj] at h
  cases hk : l.matchTokenKind ","
  case true =>
    simp [bind_apply, pure_apply, tryConsumeKeyword_false hc, tryConsumeTokenKind_true hk] at h
  simp only [bind_apply, pure_apply, tryConsumeKeyword_false hc, tryConsumeTokenKind_false hk,
    matchKeyword_apply, consumeToken_apply] at h
  iterate 9
    all_goals try split at h
    all_goals try simp only [bind_apply, pure_apply, matchKeyword_apply, consumeToken_apply,
      Res.ok.injEq, Bool.true_eq_false, false_and, true_and, reduceCtorEq] at h
  all_goals exact h.symm

/-- When `parseJoinOp` reports no join operator, the cursor has not moved. -/
theorem parseJoinOp_none_inv {n : Nat} {pos : Pos} {l l2 : Lexer}
    (h : parseJoinOp S E n pos l = Res.ok none l2) : l2 = l := by
  cases n with
  | zero => cases h
  | succ n =>
    rw [parseJoinOp] at h
    obtain ⟨b, l1, hsw, h⟩ := bind_ok_inv h
    cases b with
    | false =>
      simp only [Bool.false_eq_true, if_false, pure_apply, Res.ok.injEq, true_and] at h
      rw [← h]
      exact parseJoinOpSwitch_false_inv hsw
    | true =>
      simp only [if_true] at h
      obtain ⟨_, _, _, h⟩ := bind_ok_inv h
      obtain ⟨_, _, _, h⟩ := bind_ok_inv h
      obtain ⟨_, _, _, h⟩ := bind_ok_inv h
      simp [pure_apply] at h

/-- When `tryParseJoinConstraints` reports no constraint, the cursor has not moved. -/
theorem tryParseJoinConstraints_none_inv {pos : Pos} {l l2 : Lexer}
    (h : tryParseJoinConstraints S pos l = Res.ok none l2) : l2 = l := by
  unfold tryParseJoinConstraints at h
  obtain ⟨o, l1, hon, h1⟩ := bind_ok_inv h
  clear h
  cases o with
  | some t =>
    obtain ⟨_, _, _, h2⟩ := bind_ok_inv h1
    obtain ⟨_, _, _, h3⟩ := bind_ok_inv h2
    simp [pure_apply] at h3
  | none =>
    obtain ⟨_, rfl⟩ := tryConsumeKeyword_none_inv hon
    obtain ⟨o2, l3, hus, h2⟩ := bind_ok_inv h1
    clear h1
    cases o2 with
    | some t =>
      obtain ⟨_, _, _, h3⟩ := bind_ok_inv h2
      obtain ⟨_, _, _, h4⟩ := bind_ok_inv h3
      obtain ⟨_, _, _, h5⟩ := bind_ok_inv h4
      split at h5
      · obtain ⟨_, _, _, h6⟩ := bind_ok_inv h5
        simp [pure_apply] at h6
      · simp [pure_apply] at h5
    | none =>
      obtain ⟨_, rfl⟩ := tryConsumeKeyword_none_inv hus
      simp only [pure_apply, Res.ok.injEq, true_and] at h2
      exact h2.symm

end

/-! ## Termination and progress -/

theorem safe_ok_aux {β : Type} {v0 : β} {l0 l : Lexer} (h : l0.tokens <:+ l.tokens) :
    (Res.ok v0 l0 : Res β) ≠ Res.fuel ∧
      ∀ v l2, (Res.ok v0 l0 : Res β) = Res.ok v l2 → l2.tokens <:+ l.tokens := by
  refine ⟨by simp, ?_⟩
  intro v l2 e
  simp only [Res.ok.injEq] at e
  rw [← e.2]
  exact h

theorem safe_err_aux {β : Type} {e : String} {l : Lexer} :
    (Res.err e : Res β) ≠ Res.fuel ∧
      ∀ v l2, (Res.err e : Res β) = Res.ok v l2 → l2.tokens <:+ l.tokens :=
  ⟨by simp, by intro v l2 h; simp at h⟩

theorem safe_pure {β : Type} (k : Nat) (b : β) : Safe k (pure b : P β) :=
  fun _ _ => safe_ok_aux (List.suffix_refl _)

theorem safe_fail {β : Type} (k : Nat) (msg : String) : Safe k (P.fail msg : P β) :=
  fun _ _ => safe_err_aux

theorem safe_bind {β γ : Type} {k : Nat} {x : P β} {f : β → P γ} (hx : Safe k x)
    (hf : ∀ b, Safe k (f b)) : Safe k (x >>= f) := by
  intro l hl
  obtain ⟨h1, h2⟩ := hx l hl
  rw [bind_apply]
  cases hxl : x l with
  | fuel => exact absurd hxl h1
  | err e => exact safe_err_aux
  | ok b l1 =>
    have hs := h2 b l1 hxl
    obtain ⟨h3, h4⟩ := hf b l1 (Nat.le_trans hs.length_le hl)
    exact ⟨h3, fun v l2 h => (h4 v l2 h).trans hs⟩

theorem safe_ite {β : Type} {k : Nat} {c : Prop} [Decidable c] {a b : P β} (ha : Safe k a)
    (hb : Safe k b) : Safe k (if c then a else b) := by
  split
  · exact ha
  · exact hb

theorem consumeToken_suffix (l : Lexer) : l.consumeToken.tokens <:+ l.tokens :=
  List.tail_suffix _

theorem consumeToken_length_lt {l : Lexer} (h : l.tokens ≠ []) :
    l.consumeToken.tokens.length < l.tokens.length := by
  rcases l with ⟨_ | ⟨t, ts⟩, cur⟩
  · exact absurd rfl h
  · simp [Lexer.consumeToken]

theorem tokens_ne_nil_of_matchKeyword {l : Lexer} {k : String}
    (h : l.matchKeyword k = true) : l.tokens ≠ [] := by
  rcases l with ⟨_ | ⟨t, ts⟩, cur⟩
  · simp [Lexer.matchKeyword, Lexer.last] at h
  · simp

theorem tokens_ne_nil_of_matchTokenKind {l : Lexer} {k : TokenKind}
    (h : l.matchTokenKind k = true) : l.tokens ≠ [] := by
  rcases l with ⟨_ | ⟨t, ts⟩, cur⟩
  · simp [Lexer.matchTokenKind, Lexer.last] at h
  · simp

theorem safe_getPos (k : Nat) : Safe k getPos :=
  fun _ _ => safe_ok_aux (List.suffix_refl _)

theorem safe_lastToken (k : Nat) : Safe k lastToken := by
  intro l _
  unfold lastToken
  split
  · exact safe_err_aux
  · exact safe_ok_aux (List.suffix_refl _)

theorem safe_lastTokenKind (k : Nat) : Safe k lastTokenKind :=
  fun _ _ => safe_ok_aux (List.suffix_refl _)

theorem safe_matchTokenKind (k : Nat) (kind : TokenKind) : Safe k (matchTokenKind kind) :=
  fun _ _ => safe_ok_aux (List.suffix_refl _)

theorem safe_matchKeyword (k : Nat) (kw : String) : Safe k (matchKeyword kw) :=
  fun _ _ => safe_ok_aux (List.suffix_refl _)

theorem safe_consumeToken (k : Nat) : Safe k consumeToken :=
  fun l _ => safe_ok_aux (consumeToken_suffix l)

theorem safe_tryConsumeTokenKind (k : Nat) (kind : TokenKind) :
    Safe k (tryConsumeTokenKind kind) := by
  intro l _
  cases hm : l.matchTokenKind kind
  · rw [tryConsumeTokenKind_false hm]; exact safe_ok_aux (List.suffix_refl _)
  · rw [tryConsumeTokenKind_true hm]; exact safe_ok_aux (consumeToken_suffix l)

theorem safe_tryConsumeKeyword (k : Nat) (kw : String) : Safe k (tryConsumeKeyword kw) := by
  intro l _
  cases hm : l.matchKeyword kw
  · rw [tryConsumeKeyword_false hm]; exact safe_ok_aux (List.suffix_refl _)
  · rw [tryConsumeKeyword_true hm]; exact safe_ok_aux (consumeToken_suffix l)

theorem safe_consumeTokenKind (k : Nat) (kind : TokenKind) :
    Safe k (consumeTokenKind kind) := by
  intro l _
  cases hm : l.matchTokenKind kind
  · rw [consumeTokenKind_false hm]; exact safe_err_aux
  · rw [consumeTokenKind_true hm]; exact safe_ok_aux (consumeToken_suffix l)

theorem safe_consumeKeyword (k : Nat) (kw : String) : Safe k (consumeKeyword kw) := by
  intro l _
  cases hm : l.matchKeyword kw
  · rw [consumeKeyword_false hm]; exact safe_err_aux
  · rw [consumeKeyword_true hm]; exact safe_ok_aux (consumeToken_suffix l)

/-- A step that consumed a token leaves at most `k - 1` tokens of at most `k`. -/
theorem safe_after_consume {γ : Type} {k : Nat} {l : Lexer} {y : P γ}
    (hne : l.tokens ≠ []) (hl : l.tokens.length ≤ k) (hy : 0 < k → Safe (k - 1) y) :
    y l.consumeToken ≠ Res.fuel ∧
      ∀ v l2, y l.consumeToken = Res.ok v l2 → l2.tokens <:+ l.tokens := by
  have hlt := consumeToken_length_lt hne
  obtain ⟨h3, h4⟩ := hy (by omega) l.consumeToken (by omega)
  exact ⟨h3, fun v l2 h => (h4 v l2 h).trans (consumeToken_suffix l)⟩

/-- After a consumed keyword the rest of the parser runs on a shorter input. -/
theorem safe_consumeKeyword_bind {γ : Type} {k : Nat} {kw : String} {f : Unit → P γ}
    (hf : ∀ u, 0 < k → Safe (k - 1) (f u)) : Safe k (consumeKeyword kw >>= f) := by
  intro l hl
  rw [bind_apply]
  cases hm : l.matchKeyword kw
  · rw [consumeKeyword_false hm]; exact safe_err_aux
  · rw [consumeKeyword_true hm]
    exact safe_after_consume (tokens_ne_nil_of_matchKeyword hm) hl (hf ())

/-- After a consumed token the rest of the parser runs on a shorter input. -/
theorem safe_consumeTokenKind_bind {γ : Type} {k : Nat} {kind : TokenKind}
    {f : Option Token → P γ} (hf : ∀ u, 0 < k → Safe (k - 1) (f u)) :
    Safe k (consumeTokenKind kind >>= f) := by
  intro l hl
  rw [bind_apply]
  cases hm : l.matchTokenKind kind
  · rw [consumeTokenKind_false hm]; exact safe_err_aux
  · rw [consumeTokenKind_true hm]
    exact safe_after_consume (tokens_ne_nil_of_matchTokenKind hm) hl (hf _)

/-- An optional keyword: when it is consumed the rest runs on a shorter input. -/
theorem safe_tryConsumeKeyword_bind {γ : Type} {k : Nat} {kw : String}
    {f : Option Token → P γ} (hsome : ∀ t, 0 < k → Safe (k - 1) (f (some t)))
    (hnone : Safe k (f none)) : Safe k (tryConsumeKeyword kw >>= f) := by
  intro l hl
  rw [bind_apply]
  cases hm : l.matchKeyword kw
  · rw [tryConsumeKeyword_false hm]; exact hnone l hl
  · rw [tryConsumeKeyword_true hm]
    exact safe_after_consume (tokens_ne_nil_of_matchKeyword hm) hl (hsome _)

/-- An optional token: when it is consumed the rest runs on a shorter input. -/
theorem safe_tryConsumeTokenKind_bind {γ : Type} {k : Nat} {kind : TokenKind}
    {f : Option Token → P γ} (hsome : ∀ t, 0 < k → Safe (k - 1) (f (some t)))
    (hnone : Safe k (f none)) : Safe k (tryConsumeTokenKind kind >>= f) := by
  intro l hl
  rw [bind_apply]
  cases hm : l.matchTokenKind kind
  · rw [tryConsumeTokenKind_false hm]; exact hnone l hl
  · rw [tryConsumeTokenKind_true hm]
    exact safe_after_consume (tokens_ne_nil_of_matchTokenKind hm) hl (hsome _)

/-- The cursor operations are safe. -/
theorem safe_prim :
    (∀ (β : Type) k (b : β), Safe k (pure b : P β)) ∧
    (∀ (β : Type) k msg, Safe k (P.fail msg : P β)) ∧
    (∀ k, Safe k getPos) ∧ (∀ k, Safe k lastToken) ∧ (∀ k, Safe k lastTokenKind) ∧
    (∀ k kind, Safe k (matchTokenKind kind)) ∧ (∀ k kw, Safe k (matchKeyword kw)) ∧
    (∀ k, Safe k consumeToken) ∧ (∀ k kind, Safe k (tryConsumeTokenKind kind)) ∧
    (∀ k kind, Safe k (consumeTokenKind kind)) ∧ (∀ k kw, Safe k (tryConsumeKeyword kw)) ∧
    (∀ k kw, Safe k (consumeKeyword kw)) :=
  ⟨fun _ => safe_pure, fun _ => safe_fail, safe_getPos, safe_lastToken, safe_lastTokenKind,
   safe_matchTokenKind, safe_matchKeyword, safe_consumeToken, safe_tryConsumeTokenKind,
   safe_consumeTokenKind, safe_tryConsumeKeyword, safe_consumeKeyword⟩

theorem safe_parseGroupByExprWith {α : Type} :
    ∀ (n k : Nat) (g : GroupByExpr α), k + 1 ≤ n → Safe k (parseGroupByExprWith n g) := by
  obtain ⟨p1, p2, p3, p4, p5, p6, p7, p8, p9, p10, p11, p12⟩ := safe_prim
  intro n
  induction n with
  | zero => intro k g h; omega
  | succ n ih =>
    intro k g hk
    rw [parseGroupByExprWith]
    repeat' first
      | with_reducible refine safe_tryConsumeKeyword_bind (fun _ _ => ?_) ?_
      | with_reducible refine safe_bind ?_ (fun _ => ?_)
      | with_reducible apply_assumption
      | omega

/-- The switch of `parseJoinOp` is safe. -/
theorem safe_parseJoinOpSwitch (k : Nat) : Safe k parseJoinOpSwitch := by
  obtain ⟨p1, p2, p3, p4, p5, p6, p7, p8, p9, p10, p11, p12⟩ := safe_prim
  unfold parseJoinOpSwitch
  repeat' first
    | with_reducible refine safe_bind ?_ (fun _ => ?_)
    | with_reducible apply safe_ite
    | with_reducible apply_assumption
    | split

section
variable {α : Type} {S : Scalar α}

theorem safe_tryParseTopExpr (hS : SafeScalar S) (k : Nat) (pos : Pos) :
    Safe k (tryParseTopExpr S pos) := by
  obtain ⟨s1, s2, s3, s4, s5, s6, s7, s8, s9, s10, s11, s12, s13⟩ := hS
  obtain ⟨p1, p2, p3, p4, p5, p6, p7, p8, p9, p10, p11, p12⟩ := safe_prim
  unfold tryParseTopExpr parseTopExpr
  repeat' first
    | with_reducible refine safe_bind ?_ (fun _ => ?_)
    | with_reducible apply safe_ite
    | with_reducible apply_assumption
    | split

theorem safe_tryParseJoinConstraints (hS : SafeScalar S) (k : Nat) (pos : Pos) :
    Safe k (tryParseJoinConstraints S pos) := by
  obtain ⟨s1, s2, s3, s4, s5, s6, s7, s8, s9, s10, s11, s12, s13⟩ := hS
  obtain ⟨p1, p2, p3, p4, p5, p6, p7, p8, p9, p10, p11, p12⟩ := safe_prim
  unfold tryParseJoinConstraints
  repeat' first
    | with_reducible refine safe_bind ?_ (fun _ => ?_)
    | with_reducible apply safe_ite
    | with_reducible apply_assumption
    | split

theorem safe_tryParsePrewhereExpr (hS : SafeScalar S) (k : Nat) (pos : Pos) :
    Safe k (tryParsePrewhereExpr S pos) := by
  obtain ⟨s1, s2, s3, s4, s5, s6, s7, s8, s9, s10, s11, s12, s13⟩ := hS
  obtain ⟨p1, p2, p3, p4, p5, p6, p7, p8, p9, p10, p11, p12⟩ := safe_prim
  unfold tryParsePrewhereExpr parsePrewhereExpr
  repeat' first
    | with_reducible refine safe_bind ?_ (fun _ => ?_)
    | with_reducible apply safe_ite
    | with_reducible apply_assumption

theorem safe_tryParseWhereExpr (hS : SafeScalar S) (k : Nat) (pos : Pos) :
    Safe k (tryParseWhereExpr S pos) := by
  obtain ⟨s1, s2, s3, s4, s5, s6, s7, s8, s9, s10, s11, s12, s13⟩ := hS
  obtain ⟨p1, p2, p3, p4, p5, p6, p7, p8, p9, p10, p11, p12⟩ := safe_prim
  unfold tryParseWhereExpr parseWhereExpr
  repeat' first
    | with_reducible refine safe_bind ?_ (fun _ => ?_)
    | with_reducible apply safe_ite
    | with_reducible apply_assumption

theorem safe_tryParseLimitByExpr (hS : SafeScalar S) (k : Nat) (pos : Pos) :
    Safe k (tryParseLimitByExpr S pos) := by
  obtain ⟨s1, s2, s3, s4, s5, s6, s7, s8, s9, s10, s11, s12, s13⟩ := hS
  obtain ⟨p1, p2, p3, p4, p5, p6, p7, p8, p9, p10, p11, p12⟩ := safe_prim
  unfold tryParseLimitByExpr parseLimitByExpr
  repeat' first
    | with_reducible refine safe_bind ?_ (fun _ => ?_)
    | with_reducible apply safe_ite
    | with_reducible apply_assumption
    | split

theorem safe_tryParseArrayJoin (hS : SafeScalar S) (k : Nat) (pos : Pos) :
    Safe k (tryParseArrayJoin S pos) := by
  obtain ⟨s1, s2, s3, s4, s5, s6, s7, s8, s9, s10, s11, s12, s13⟩ := hS
  obtain ⟨p1, p2, p3, p4, p5, p6, p7, p8, p9, p10, p11, p12⟩ := safe_prim
  unfold tryParseArrayJoin parseArrayJoin
  repeat' first
    | with_reducible refine safe_bind ?_ (fun _ => ?_)
    | with_reducible apply safe_ite
    | with_reducible apply_assumption

theorem safe_tryParseHavingExpr (hS : SafeScalar S) (k : Nat) (pos : Pos) :
    Safe k (tryParseHavingExpr S pos) := by
  obtain ⟨s1, s2, s3, s4, s5, s6, s7, s8, s9, s10, s11, s12, s13⟩ := hS
  obtain ⟨p1, p2, p3, p4, p5, p6, p7, p8, p9, p10, p11, p12⟩ := safe_prim
  unfold tryParseHavingExpr parseHavingExpr
  repeat' first
    | with_reducible refine safe_bind ?_ (fun _ => ?_)
    | with_reducible apply safe_ite
    | with_reducible apply_assumption

theorem safe_tryParseSampleRationExpr (hS : SafeScalar S) (k : Nat) (pos : Pos) :
    Safe k (tryParseSampleRationExpr S pos) := by
  obtain ⟨s1, s2, s3, s4, s5, s6, s7, s8, s9, s10, s11, s12, s13⟩ := hS
  obtain ⟨p1, p2, p3, p4, p5, p6, p7, p8, p9, p10, p11, p12⟩ := safe_prim
  unfold tryParseSampleRationExpr parseSampleRationExpr
  repeat' first
    | with_reducible refine safe_bind ?_ (fun _ => ?_)
    | with_reducible apply safe_ite
    | with_reducible apply_assumption

theorem safe_tryParseGroupByExpr (hS : SafeScalar S) (n k : Nat) (pos : Pos) (hk : k ≤ n) :
    Safe k (tryParseGroupByExpr S n pos) := by
  obtain ⟨s1, s2, s3, s4, s5, s6, s7, s8, s9, s10, s11, s12, s13⟩ := hS
  obtain ⟨p1, p2, p3, p4, p5, p6, p7, p8, p9, p10, p11, p12⟩ := safe_prim
  have q := @safe_parseGroupByExprWith α n
  unfold tryParseGroupByExpr parseGroupByExpr
  repeat' first
    | with_reducible refine safe_consumeKeyword_bind (fun _ _ => ?_)
    | with_reducible refine safe_consumeTokenKind_bind (fun _ _ => ?_)
    | with_reducible refine safe_tryConsumeKeyword_bind (fun _ _ => ?_) ?_
    | with_reducible refine safe_tryConsumeTokenKind_bind (fun _ _ => ?_) ?_
    | with_reducible refine safe_bind ?_ (fun _ => ?_)
    | with_reducible apply safe_ite
    | with_reducible apply_assumption
    | omega

theorem safe_parseWindowFrameExpr (hS : SafeScalar S) :
    ∀ (n k : Nat) (pos : Pos), k + 1 ≤ n → Safe k (parseWindowFrameExpr S n pos) := by
  obtain ⟨s1, s2, s3, s4, s5, s6, s7, s8, s9, s10, s11, s12, s13⟩ := hS
  obtain ⟨p1, p2, p3, p4, p5, p6, p7, p8, p9, p10, p11, p12⟩ := safe_prim
  intro n
  induction n with
  | zero => intro k pos h; omega
  | succ n ih =>
    intro k pos hk
    rw [parseWindowFrameExpr]
    repeat' first
      | with_reducible refine safe_consumeKeyword_bind (fun _ _ => ?_)
      | with_reducible refine safe_consumeTokenKind_bind (fun _ _ => ?_)
      | with_reducible refine safe_tryConsumeKeyword_bind (fun _ _ => ?_) ?_
      | with_reducible refine safe_tryConsumeTokenKind_bind (fun _ _ => ?_) ?_
      | with_reducible refine safe_bind ?_ (fun _ => ?_)
      | with_reducible apply safe_ite
      | with_reducible apply_assumption
      | omega

theorem safe_tryParseWindowExpr (hS : SafeScalar S) (n k : Nat) (pos : Pos) (hk : k ≤ n) :
    Safe k (tryParseWindowExpr S n pos) := by
  have q := safe_parseWindowFrameExpr hS n
  obtain ⟨s1, s2, s3, s4, s5, s6, s7, s8, s9, s10, s11, s12, s13⟩ := hS
  obtain ⟨p1, p2, p3, p4, p5, p6, p7, p8, p9, p10, p11, p12⟩ := safe_prim
  unfold tryParseWindowExpr parseWindowExpr parseWindowCondition tryParseWindowFrameExpr
  repeat' first
    | with_reducible refine safe_consumeKeyword_bind (fun _ _ => ?_)
    | with_reducible refine safe_consumeTokenKind_bind (fun _ _ => ?_)
    | with_reducible refine safe_tryConsumeKeyword_bind (fun _ _ => ?_) ?_
    | with_reducible refine safe_tryConsumeTokenKind_bind (fun _ _ => ?_) ?_
    | with_reducible refine safe_bind ?_ (fun _ => ?_)
    | with_reducible apply safe_ite
    | with_reducible apply_assumption
    | omega

theorem safe_tryParseColumnAliasesLoop (hS : SafeScalar S) :
    ∀ (n k : Nat) (acc : List α), k + 1 ≤ n →
      Safe k (tryParseColumnAliasesLoop S n acc) := by
  obtain ⟨s1, s2, s3, s4, s5, s6, s7, s8, s9, s10, s11, s12, s13⟩ := hS
  obtain ⟨p1, p2, p3, p4, p5, p6, p7, p8, p9, p10, p11, p12⟩ := safe_prim
  intro n
  induction n with
  | zero => intro k acc h; omega
  | succ n ih =>
    intro k acc hk
    rw [tryParseColumnAliasesLoop]
    repeat' first
      | with_reducible refine safe_consumeKeyword_bind (fun _ _ => ?_)
      | with_reducible refine safe_consumeTokenKind_bind (fun _ _ => ?_)
      | with_reducible refine safe_tryConsumeKeyword_bind (fun _ _ => ?_) ?_
      | with_reducible refine safe_tryConsumeTokenKind_bind (fun _ _ => ?_) ?_
      | with_reducible refine safe_bind ?_ (fun _ => ?_)
      | with_reducible apply safe_ite
      | with_reducible apply_assumption
      | omega

theorem safe_tryParseColumnAliases (hS : SafeScalar S) (n k : Nat) (hk : k ≤ n) :
    Safe k (tryParseColumnAliases S n) := by
  have q := safe_tryParseColumnAliasesLoop hS n
  obtain ⟨s1, s2, s3, s4, s5, s6, s7, s8, s9, s10, s11, s12, s13⟩ := hS
  obtain ⟨p1, p2, p3, p4, p5, p6, p7, p8, p9, p10, p11, p12⟩ := safe_prim
  unfold tryParseColumnAliases
  repeat' first
    | with_reducible refine safe_consumeKeyword_bind (fun _ _ => ?_)
    | with_reducible refine safe_consumeTokenKind_bind (fun _ _ => ?_)
    | with_reducible refine safe_tryConsumeKeyword_bind (fun _ _ => ?_) ?_
    | with_reducible refine safe_tryConsumeTokenKind_bind (fun _ _ => ?_) ?_
    | with_reducible refine safe_bind ?_ (fun _ => ?_)
    | with_reducible apply safe_ite
    | with_reducible apply_assumption
    | omega

end

theorem consumeToken_length_le (l : Lexer) :
    l.consumeToken.tokens.length ≤ l.tokens.length := by
  simp [Lexer.consumeToken]

/-- When the switch of `parseJoinOp` reports a join operator, it has consumed at least one
token, unless the cursor is on `LEFT` or `RIGHT`, which it leaves in place. -/
theorem parseJoinOpSwitch_true_inv {l l2 : Lexer} (h : parseJoinOpSwitch l = Res.ok true l2) :
    l2.tokens.length < l.tokens.length ∨
    (l2 = l ∧ (l.matchKeyword KeywordLeft = true ∨ l.matchKeyword KeywordRight = true)) := by
  have hne : ∀ k, l.matchKeyword k = true → 0 < l.tokens.length := by
    intro k hk
    rcases l with ⟨_ | ⟨t, ts⟩, cur⟩
    · simp [Lexer.matchKeyword, Lexer.last] at hk
    · simp
  have hne2 : ∀ k, l.matchTokenKind k = true → 0 < l.tokens.length := by
    intro k hk
    rcases l with ⟨_ | ⟨t, ts⟩, cur⟩
    · simp [Lexer.matchTokenKind, Lexer.last] at hk
    · simp
  have c1 := consumeToken_length_le l
  have c2 := consumeToken_length_le l.consumeToken
  have c3 := consumeToken_length_le l.consumeToken.consumeToken
  have c0 : 0 < l.tokens.length → l.consumeToken.tokens.length < l.tokens.length := by
    intro h0
    rcases l with ⟨_ | ⟨t, ts⟩, cur⟩
    · simp at h0
    · simp [Lexer.consumeToken]
  unfold parseJoinOpSwitch at h
  cases hc : l.matchKeyword KeywordCross
  case true =>
    have h0 := c0 (hne _ hc)
    cases hj : l.consumeToken.matchKeyword KeywordJoin <;>
      simp [bind_apply, pure_apply, tryConsumeKeyword_true hc, consumeKeyword_true,
        consumeKeyword_false, hj] at h
    left; rw [← h]; omega
  cases hk : l.matchTokenKind ","
  case true =>
    have h0 := c0 (hne2 _ hk)
    simp [bind_apply, pure_apply, tryConsumeKeyword_false hc, tryConsumeTokenKind_true hk] at h
    left; rw [← h]; omega
  simp only [bind_apply, pure_apply, tryConsumeKeyword_false hc, tryConsumeTokenKind_false hk,
    matchKeyword_apply, consumeToken_apply] at h
  split at h
  · rename_i hb
    have h0 : 0 < l.tokens.length := by
      simp only [Bool.or_eq_true] at hb
      rcases hb with hb | hb <;> exact hne _ hb
    have h1 := c0 h0
    left
    iterate 4
      all_goals try split at h
      all_goals try simp only [bind_apply, pure_apply, matchKeyword_apply, consumeToken_apply,
        Res.ok.injEq, true_and] at h
    all_goals rw [← h]
    all_goals omega
  simp only [bind_apply, pure_apply, matchKeyword_apply, consumeToken_apply] at h
  split at h
  · rename_i hb
    have h0 : 0 < l.tokens.length := by
      simp only [Bool.or_eq_true] at hb
      rcases hb with hb | hb <;> exact hne _ hb
    have h1 := c0 h0
    left
    iterate 4
      all_goals try split at h
      all_goals try simp only [bind_apply, pure_apply, matchKeyword_apply, consumeToken_apply,
        Res.ok.injEq, true_and] at h
    all_goals rw [← h]
    all_goals omega
  simp only [bind_apply, pure_apply, matchKeyword_apply, consumeToken_apply] at h
  split at h
  · rename_i hb
    have h1 := c0 (hne _ hb)
    left
    iterate 4
      all_goals try split at h
      all_goals try simp only [bind_apply, pure_apply, matchKeyword_apply, consumeToken_apply,
        Res.ok.injEq, true_and] at h
    all_goals rw [← h]
    all_goals omega
  simp only [bind_apply, pure_apply, matchKeyword_apply, consumeToken_apply] at h
  split at h
  · rename_i hb
    have hb2 : l.matchKeyword KeywordLeft = true ∨ l.matchKeyword KeywordRight = true := by
      simpa only [Bool.or_eq_true] using hb
    right
    have hx : ∀ k2, equalFold KeywordLeft k2 = false → equalFold KeywordRight k2 = false →
        l.matchKeyword k2 = false := by
      intro k2 e1 e2
      rcases hb2 with hq | hq
      · exact Lexer.matchKeyword_excl hq e1
      · exact Lexer.matchKeyword_excl hq e2
    simp only [bind_apply, pure_apply, matchKeyword_apply, consumeToken_apply,
      hx KeywordOuter (by decide) (by decide), hx KeywordSemi (by decide) (by decide),
      hx KeywordAnti (by decide) (by decide), hx KeywordAny (by decide) (by decide),
      hx KeywordAll (by decide) (by decide), hx KeywordAsof (by decide) (by decide),
      hx KeywordArray (by decide) (by decide), Bool.or_self, Bool.false_eq_true, if_false,
      Res.ok.injEq, true_and] at h
    exact ⟨h.symm, hb2⟩
  simp only [bind_apply, pure_apply, matchKeyword_apply, consumeToken_apply] at h
  split at h
  · rename_i hb
    have h1 := c0 (hne _ hb)
    left
    iterate 4
      all_goals try split at h
      all_goals try simp only [bind_apply, pure_apply, matchKeyword_apply, consumeToken_apply,
        Res.ok.injEq, true_and] at h
    all_goals rw [← h]
    all_goals omega
  simp [pure_apply] at h


/-- After the switch of `parseJoinOp`: with no operator the rest runs on the same input, with
an operator on a shorter one, except on `LEFT` or `RIGHT`, where the switch consumes
nothing. -/
theorem safe_parseJoinOpSwitch_bind {γ : Type} {k : Nat} {f : Bool → P γ}
    (hfalse : Safe k (f false)) (htrue : 0 < k → Safe (k - 1) (f true))
    (hleft : ∀ l : Lexer, l.tokens.length ≤ k →
      (l.matchKeyword KeywordLeft = true ∨ l.matchKeyword KeywordRight = true) →
      f true l ≠ Res.fuel ∧ ∀ v l2, f true l = Res.ok v l2 → l2.tokens <:+ l.tokens) :
    Safe k (parseJoinOpSwitch >>= f) := by
  intro l hl
  obtain ⟨h1, h2⟩ := safe_parseJoinOpSwitch k l hl
  rw [bind_apply]
  cases hsw : parseJoinOpSwitch l with
  | fuel => exact absurd hsw h1
  | err e => exact safe_err_aux
  | ok b l1 =>
    have hs := h2 b l1 hsw
    cases b with
    | false =>
      obtain ⟨h3, h4⟩ := hfalse l1 (Nat.le_trans hs.length_le hl)
      exact ⟨h3, fun v l2 h => (h4 v l2 h).trans hs⟩
    | true =>
      rcases parseJoinOpSwitch_true_inv hsw with hlt | ⟨rfl, hlr⟩
      · obtain ⟨h3, h4⟩ := htrue (by omega) l1 (by omega)
        exact ⟨h3, fun v l2 h => (h4 v l2 h).trans hs⟩
      · exact hleft l1 hl hlr

section
variable {α : Type} {S : Scalar α} (E : Ends α)

/-- On a keyword `parseJoinExpr` fails at once. -/
theorem parseJoinExpr_on_keyword {m : Nat} {pos : Pos} {l : Lexer} {kw : String}
    (h : l.matchKeyword kw = true) :
    parseJoinExpr S E (m + 1) pos l
      = Res.err ("expected table name or subquery, got " ++ TokenKeyword) := by
  simp [parseJoinExpr, bind_apply, fail_apply, matchTokenKind_apply,
    Lexer.matchTokenKind_of_matchKeyword TokenIdent h (by decide),
    Lexer.matchTokenKind_of_matchKeyword "(" h (by decide), lastTokenKind_apply,
    Lexer.lastTokenKind_of_matchKeyword h]

/-- With fuel `8 * k + d + 1`, where the rank `d` of a parser bounds the calls it can make
before a token is consumed, every parser of the recursive group is safe on inputs of at most
`k` tokens. -/
theorem safe_mutual (hS : SafeScalar S) (n : Nat) :
    (∀ k pos, 8 * k + 1 + 1 ≤ n → Safe k (tryParseWithExpr S E n pos)) ∧
    (∀ k pos, 8 * k + 0 + 1 ≤ n → Safe k (parseWithExpr S E n pos)) ∧
    (∀ k acc, 8 * k + 0 + 1 ≤ n → Safe k (parseWithExprLoop S E n acc)) ∧
    (∀ k pos, 8 * k + 1 + 1 ≤ n → Safe k (tryParseFromExpr S E n pos)) ∧
    (∀ k pos, 8 * k + 0 + 1 ≤ n → Safe k (parseFromExpr S E n pos)) ∧
    (∀ k pos, 8 * k + 0 + 1 ≤ n → Safe k (parseJoinOp S E n pos)) ∧
    (∀ k pos, 8 * k + 7 + 1 ≤ n → Safe k (parseJoinExpr S E n pos)) ∧
    (∀ k pos, 8 * k + 6 + 1 ≤ n → Safe k (parseTableExpr S E n pos)) ∧
    (∀ k pos, 8 * k + 5 + 1 ≤ n → Safe k (parseSelectUnionExprList S E n pos)) ∧
    (∀ k pos acc, 8 * k + 4 + 1 ≤ n → Safe k (parseSelectUnionExprListLoop S E n pos acc)) ∧
    (∀ k pos, 8 * k + 3 + 1 ≤ n → Safe k (parseSelectQuery S E n pos)) ∧
    (∀ k pos, 8 * k + 0 + 1 ≤ n → Safe k (parseSelectStatementWithParen S E n pos)) ∧
    (∀ k pos, 8 * k + 2 + 1 ≤ n → Safe k (parseSelectStatement S E n pos)) ∧
    (∀ k pos, 8 * k + 0 + 1 ≤ n → Safe k (parseCTEExpr S E n pos)) := by
  induction n with
  | zero =>
    refine ⟨?_, ?_, ?_, ?_, ?_, ?_, ?_, ?_, ?_, ?_, ?_, ?_, ?_, ?_⟩ <;> intros <;> omega
  | succ n ih =>
    obtain ⟨h1, h2, h3, h4, h5, h6, h7, h8, h9, h10, h11, h12, h13, h14⟩ := ih
    have c1 := safe_tryParseTopExpr hS
    have c2 := safe_tryParseJoinConstraints hS
    have c3 := safe_tryParsePrewhereExpr hS
    have c4 := safe_tryParseWhereExpr hS
    have c5 := safe_tryParseLimitByExpr hS
    have c6 := safe_tryParseArrayJoin hS
    have c7 := safe_tryParseHavingExpr hS
    have c8 := safe_tryParseSampleRationExpr hS
    have q1 := safe_tryParseGroupByExpr hS n
    have q2 := safe_tryParseWindowExpr hS n
    have q3 := safe_tryParseColumnAliases hS n
    obtain ⟨s1, s2, s3, s4, s5, s6, s7, s8, s9, s10, s11, s12, s13⟩ := hS
    obtain ⟨p1, p2, p3, p4, p5, p6, p7, p8, p9, p10, p11, p12⟩ := safe_prim
    refine ⟨?_, ?_, ?_, ?_, ?_, ?_, ?_, ?_, ?_, ?_, ?_, ?_, ?_, ?_⟩
    · intro k pos hk
      rw [tryParseWithExpr]
      repeat' first
        | with_reducible refine safe_consumeKeyword_bind (fun _ _ => ?_)
        | with_reducible refine safe_consumeTokenKind_bind (fun _ _ => ?_)
        | with_reducible refine safe_tryConsumeKeyword_bind (fun _ _ => ?_) ?_
        | with_reducible refine safe_tryConsumeTokenKind_bind (fun _ _ => ?_) ?_
        | with_reducible refine safe_bind ?_ (fun _ => ?_)
        | with_reducible apply safe_ite
        | with_reducible apply_assumption
        | omega
    · intro k pos hk
      rw [parseWithExpr]
      repeat' first
        | with_reducible refine safe_consumeKeyword_bind (fun _ _ => ?_)
        | with_reducible refine safe_consumeTokenKind_bind (fun _ _ => ?_)
        | with_reducible refine safe_tryConsumeKeyword_bind (fun _ _ => ?_) ?_
        | with_reducible refine safe_tryConsumeTokenKind_bind (fun _ _ => ?_) ?_
        | with_reducible refine safe_bind ?_ (fun _ => ?_)
        | with_reducible apply safe_ite
        | with_reducible apply_assumption
        | omega
    · intro k acc hk
      rw [parseWithExprLoop]
      repeat' first
        | with_reducible refine safe_consumeKeyword_bind (fun _ _ => ?_)
        | with_reducible refine safe_consumeTokenKind_bind (fun _ _ => ?_)
        | with_reducible refine safe_tryConsumeKeyword_bind (fun _ _ => ?_) ?_
        | with_reducible refine safe_tryConsumeTokenKind_bind (fun _ _ => ?_) ?_
        | with_reducible refine safe_bind ?_ (fun _ => ?_)
        | with_reducible apply safe_ite
        | with_reducible apply_assumption
        | omega
    · intro k pos hk
      rw [tryParseFromExpr]
      repeat' first
        | with_reducible refine safe_consumeKeyword_bind (fun _ _ => ?_)
        | with_reducible refine safe_consumeTokenKind_bind (fun _ _ => ?_)
        | with_reducible refine safe_tryConsumeKeyword_bind (fun _ _ => ?_) ?_
        | with_reducible refine safe_tryConsumeTokenKind_bind (fun _ _ => ?_) ?_
        | with_reducible refine safe_bind ?_ (fun _ => ?_)
        | with_reducible apply safe_ite
        | with_reducible apply_assumption
        | omega
    · intro k pos hk
      rw [parseFromExpr]
      repeat' first
        | with_reducible refine safe_consumeKeyword_bind (fun _ _ => ?_)
        | with_reducible refine safe_consumeTokenKind_bind (fun _ _ => ?_)
        | with_reducible refine safe_tryConsumeKeyword_bind (fun _ _ => ?_) ?_
        | with_reducible refine safe_tryConsumeTokenKind_bind (fun _ _ => ?_) ?_
        | with_reducible refine safe_bind ?_ (fun _ => ?_)
        | with_reducible apply safe_ite
        | with_reducible apply_assumption
        | omega
    · intro k pos hk
      rw [parseJoinOp]
      refine safe_parseJoinOpSwitch_bind ?_ (fun _ => ?_) ?_
      · simp only [Bool.false_eq_true, if_false]
        exact p1 _ _ _
      · simp only [if_true]
        repeat' first
          | with_reducible refine safe_consumeKeyword_bind (fun _ _ => ?_)
          | with_reducible refine safe_consumeTokenKind_bind (fun _ _ => ?_)
          | with_reducible refine safe_tryConsumeKeyword_bind (fun _ _ => ?_) ?_
          | with_reducible refine safe_tryConsumeTokenKind_bind (fun _ _ => ?_) ?_
          | with_reducible refine safe_bind ?_ (fun _ => ?_)
          | with_reducible apply safe_ite
          | with_reducible apply_assumption
          | omega
      · intro l hl hlr
        have hne : l.tokens ≠ [] := by
          rcases hlr with h | h <;> exact tokens_ne_nil_of_matchKeyword h
        have hpos : 0 < l.tokens.length := List.length_pos.mpr hne
        obtain ⟨m, rfl⟩ : ∃ m, n = m + 1 := ⟨n - 1, by omega⟩
        have hj : l.matchKeyword KeywordJoin = false := by
          rcases hlr with h | h <;> exact Lexer.matchKeyword_excl h (by decide)
        have he : parseJoinExpr S E (m + 1) l.Pos l
            = Res.err ("expected table name or subquery, got " ++ TokenKeyword) := by
          rcases hlr with h | h <;> exact parseJoinExpr_on_keyword E h
        simp only [if_true, bind_apply, tryConsumeKeyword_false hj, getPos_apply, he]
        exact safe_err_aux
    · intro k pos hk
      rw [parseJoinExpr]
      repeat' first
        | with_reducible refine safe_consumeKeyword_bind (fun _ _ => ?_)
        | with_reducible refine safe_consumeTokenKind_bind (fun _ _ => ?_)
        | with_reducible refine safe_tryConsumeKeyword_bind (fun _ _ => ?_) ?_
        | with_reducible refine safe_tryConsumeTokenKind_bind (fun _ _ => ?_) ?_
        | with_reducible refine safe_bind ?_ (fun _ => ?_)
        | with_reducible apply safe_ite
        | with_reducible apply_assumption
        | omega
        | split
    · intro k pos hk
      rw [parseTableExpr]
      repeat' first
        | with_reducible refine safe_consumeKeyword_bind (fun _ _ => ?_)
        | with_reducible refine safe_consumeTokenKind_bind (fun _ _ => ?_)
        | with_reducible refine safe_tryConsumeKeyword_bind (fun _ _ => ?_) ?_
        | with_reducible refine safe_tryConsumeTokenKind_bind (fun _ _ => ?_) ?_
        | with_reducible refine safe_bind ?_ (fun _ => ?_)
        | with_reducible apply safe_ite
        | with_reducible apply_assumption
        | omega
    · intro k pos hk
      rw [parseSelectUnionExprList]
      repeat' first
        | with_reducible refine safe_consumeKeyword_bind (fun _ _ => ?_)
        | with_reducible refine safe_consumeTokenKind_bind (fun _ _ => ?_)
        | with_reducible refine safe_tryConsumeKeyword_bind (fun _ _ => ?_) ?_
        | with_reducible refine safe_tryConsumeTokenKind_bind (fun _ _ => ?_) ?_
        | with_reducible refine safe_bind ?_ (fun _ => ?_)
        | with_reducible apply safe_ite
        | with_reducible apply_assumption
        | omega
    · intro k pos acc hk
      rw [parseSelectUnionExprListLoop]
      repeat' first
        | with_reducible refine safe_consumeKeyword_bind (fun _ _ => ?_)
        | with_reducible refine safe_consumeTokenKind_bind (fun _ _ => ?_)
        | with_reducible refine safe_tryConsumeKeyword_bind (fun _ _ => ?_) ?_
        | with_reducible refine safe_tryConsumeTokenKind_bind (fun _ _ => ?_) ?_
        | with_reducible refine safe_bind ?_ (fun _ => ?_)
        | with_reducible apply safe_ite
        | with_reducible apply_assumption
        | omega
    · intro k pos hk
      rw [parseSelectQuery]
      repeat' first
        | with_reducible refine safe_consumeKeyword_bind (fun _ _ => ?_)
        | with_reducible refine safe_consumeTokenKind_bind (fun _ _ => ?_)
        | with_reducible refine safe_tryConsumeKeyword_bind (fun _ _ => ?_) ?_
        | with_reducible refine safe_tryConsumeTokenKind_bind (fun _ _ => ?_) ?_
        | with_reducible refine safe_bind ?_ (fun _ => ?_)
        | with_reducible apply safe_ite
        | with_reducible apply_assumption
        | omega
    · intro k pos hk
      rw [parseSelectStatementWithParen]
      repeat' first
        | with_reducible refine safe_consumeKeyword_bind (fun _ _ => ?_)
        | with_reducible refine safe_consumeTokenKind_bind (fun _ _ => ?_)
        | with_reducible refine safe_tryConsumeKeyword_bind (fun _ _ => ?_) ?_
        | with_reducible refine safe_tryConsumeTokenKind_bind (fun _ _ => ?_) ?_
        | with_reducible refine safe_bind ?_ (fun _ => ?_)
        | with_reducible apply safe_ite
        | with_reducible apply_assumption
        | omega
    · intro k pos hk
      rw [parseSelectStatement]
      repeat' first
        | with_reducible refine safe_consumeKeyword_bind (fun _ _ => ?_)
        | with_reducible refine safe_consumeTokenKind_bind (fun _ _ => ?_)
        | with_reducible refine safe_tryConsumeKeyword_bind (fun _ _ => ?_) ?_
        | with_reducible refine safe_tryConsumeTokenKind_bind (fun _ _ => ?_) ?_
        | with_reducible refine safe_bind ?_ (fun _ => ?_)
        | with_reducible apply safe_ite
        | with_reducible apply_assumption
        | omega
    · intro k pos hk
      rw [parseCTEExpr]
      repeat' first
        | with_reducible refine safe_consumeKeyword_bind (fun _ _ => ?_)
        | with_reducible refine safe_consumeTokenKind_bind (fun _ _ => ?_)
        | with_reducible refine safe_tryConsumeKeyword_bind (fun _ _ => ?_) ?_
        | with_reducible refine safe_tryConsumeTokenKind_bind (fun _ _ => ?_) ?_
        | with_reducible refine safe_bind ?_ (fun _ => ?_)
        | with_reducible apply safe_ite
        | with_reducible apply_assumption
        | omega

end

theorem returns_of_safe {β : Type} {f : Nat → P β} (hmono : ∀ n, P.le (f n) (f (n + 1)))
    {b : Nat} {l : Lexer} (hsafe : Safe l.tokens.length (f b)) : Returns f l b := by
  refine ⟨f b l, (hsafe l (Nat.le_refl _)).1, fun m hm => ?_⟩
  rcases fuel_mono hmono hm l with h | h
  · exact absurd h (hsafe l (Nat.le_refl _)).1
  · exact h.symm

theorem forward_of_safe {β : Type} {f : Nat → P β} (hmono : ∀ n, P.le (f n) (f (n + 1)))
    {b : Nat} {l : Lexer} (hsafe : ∀ m, b ≤ m → Safe l.tokens.length (f m)) {n : Nat} {v : β}
    {l2 : Lexer} (h : f n l = Res.ok v l2) : l2.tokens <:+ l.tokens :=
  ((hsafe _ (Nat.le_max_right n b)) l (Nat.le_refl _)).2 v l2
    (fuel_ok hmono (Nat.le_max_left n b) h)

theorem safe_apply {β : Type} {x : P β} {k : Nat} (hx : Safe k x) {l l2 : Lexer} {v : β}
    (hl : l.tokens.length ≤ k) (h : x l = Res.ok v l2) : l2.tokens <:+ l.tokens :=
  (hx l hl).2 v l2 h

section
variable {α : Type} {S : Scalar α} (E : Ends α)

theorem safe_parseSelectUnionExprList (hS : SafeScalar S) {m k : Nat} (pos : Pos)
    (h : 8 * k + 8 ≤ m) :
    Safe k (parseSelectUnionExprList S E m pos) :=
  (safe_mutual E hS m).2.2.2.2.2.2.2.2.1 k pos (by omega)

theorem safe_parseSelectStatement (hS : SafeScalar S) {m k : Nat} (pos : Pos)
    (h : 8 * k + 8 ≤ m) :
    Safe k (parseSelectStatement S E m pos) :=
  (safe_mutual E hS m).2.2.2.2.2.2.2.2.2.2.2.2.1 k pos (by omega)

theorem safe_parseJoinExpr (hS : SafeScalar S) {m k : Nat} (pos : Pos)
    (h : 8 * k + 8 ≤ m) :
    Safe k (parseJoinExpr S E m pos) :=
  (safe_mutual E hS m).2.2.2.2.2.2.1 k pos (by omega)

theorem safe_parseJoinOp (hS : SafeScalar S) {m k : Nat} (pos : Pos)
    (h : 8 * k + 8 ≤ m) :
    Safe k (parseJoinOp S E m pos) :=
  (safe_mutual E hS m).2.2.2.2.2.1 k pos (by omega)

theorem safe_parseTableExpr (hS : SafeScalar S) {m k : Nat} (pos : Pos)
    (h : 8 * k + 8 ≤ m) :
    Safe k (parseTableExpr S E m pos) :=
  (safe_mutual E hS m).2.2.2.2.2.2.2.1 k pos (by omega)

theorem safe_parseWithExpr (hS : SafeScalar S) {m k : Nat} (pos : Pos)
    (h : 8 * k + 8 ≤ m) :
    Safe k (parseWithExpr S E m pos) :=
  (safe_mutual E hS m).2.1 k pos (by omega)

theorem safe_parseCTEExpr (hS : SafeScalar S) {m k : Nat} (pos : Pos)
    (h : 8 * k + 8 ≤ m) :
    Safe k (parseCTEExpr S E m pos) :=
  (safe_mutual E hS m).2.2.2.2.2.2.2.2.2.2.2.2.2 k pos (by omega)

theorem safe_tryParseWithExpr (hS : SafeScalar S) {m k : Nat} (pos : Pos)
    (h : 8 * k + 8 ≤ m) :
    Safe k (tryParseWithExpr S E m pos) :=
  (safe_mutual E hS m).1 k pos (by omega)

theorem safe_tryParseFromExpr (hS : SafeScalar S) {m k : Nat} (pos : Pos)
    (h : 8 * k + 8 ≤ m) :
    Safe k (tryParseFromExpr S E m pos) :=
  (safe_mutual E hS m).2.2.2.1 k pos (by omega)

/-- A successful `parseSelectStatement` has consumed at least one token. -/
theorem parseSelectStatement_consumes (hS : SafeScalar S) {n : Nat} {pos : Pos} {l l2 : Lexer}
    {v : SelectExpr α} (h : parseSelectStatement S E n pos l = Res.ok v l2) :
    l2.tokens.length < l.tokens.length := by
  have hbig := parseSelectStatement_fuel S E
    (Nat.le_max_left n (8 * l.tokens.length + 8 + 1)) h
  obtain ⟨m, hm⟩ : ∃ m, max n (8 * l.tokens.length + 8 + 1) = m + 1 :=
    ⟨max n (8 * l.tokens.length + 8 + 1) - 1, by omega⟩
  have hmb : 8 * l.tokens.length + 8 ≤ m := by omega
  rw [hm, parseSelectStatement] at hbig
  obtain ⟨w, l0, hw, h1⟩ := bind_ok_inv hbig
  obtain ⟨u, l1, hc, h2⟩ := bind_ok_inv h1
  obtain ⟨hsel, rfl⟩ := consumeKeyword_ok_inv hc
  have hs0 : l0.tokens <:+ l.tokens :=
    safe_apply (safe_tryParseWithExpr E hS pos hmb) (Nat.le_refl _) hw
  have hlt := consumeToken_length_lt (tokens_ne_nil_of_matchKeyword hsel)
  have hle := hs0.length_le
  have hs2 : l2.tokens <:+ l0.consumeToken.tokens := by
    refine safe_apply (k := l0.consumeToken.tokens.length) ?_ (Nat.le_refl _) h2
    have h4 : ∀ k pos, 8 * k + 8 ≤ m → Safe k (tryParseFromExpr S E m pos) :=
      fun k pos hk => safe_tryParseFromExpr E hS pos hk
    have c1 := safe_tryParseTopExpr hS
    have c3 := safe_tryParsePrewhereExpr hS
    have c4 := safe_tryParseWhereExpr hS
    have c5 := safe_tryParseLimitByExpr hS
    have c6 := safe_tryParseArrayJoin hS
    have c7 := safe_tryParseHavingExpr hS
    have q1 := safe_tryParseGroupByExpr hS m
    have q2 := safe_tryParseWindowExpr hS m
    obtain ⟨s1, s2, s3, s4, s5, s6, s7, s8, s9, s10, s11, s12, s13⟩ := hS
    obtain ⟨p1, p2, p3, p4, p5, p6, p7, p8, p9, p10, p11, p12⟩ := safe_prim
    repeat' first
      | with_reducible refine safe_consumeKeyword_bind (fun _ _ => ?_)
      | with_reducible refine safe_consumeTokenKind_bind (fun _ _ => ?_)
      | with_reducible refine safe_tryConsumeKeyword_bind (fun _ _ => ?_) ?_
      | with_reducible refine safe_tryConsumeTokenKind_bind (fun _ _ => ?_) ?_
      | with_reducible refine safe_bind ?_ (fun _ => ?_)
      | with_reducible apply safe_ite
      | with_reducible apply_assumption
      | omega
  have := hs2.length_le
  omega

end

/-! ### The small scalar layer is safe -/

theorem safe_toy_one (kinds : List TokenKind) (what : String) (k : Nat) :
    Safe k (Toy.one kinds what) := by
  intro l _
  unfold Toy.one
  split
  · exact safe_err_aux
  · split
    · exact safe_ok_aux (consumeToken_suffix l)
    · exact safe_err_aux

theorem splitAtParen_suffix :
    ∀ (ts a b : List Token), Toy.splitAtParen ts = some (a, b) → b <:+ ts := by
  intro ts
  induction ts with
  | nil => intro a b h; simp [Toy.splitAtParen] at h
  | cons t ts ih =>
    intro a b h
    rw [Toy.splitAtParen] at h
    split at h
    · simp only [Option.some.injEq, Prod.mk.injEq] at h
      rw [← h.2]
      exact List.suffix_cons t ts
    · split at h
      · cases h
      · rename_i a2 b2 he
        simp only [Option.some.injEq, Prod.mk.injEq] at h
        rw [← h.2]
        exact (ih a2 b2 he).trans (List.suffix_cons t ts)

theorem safe_toy_parseTableArgList (k : Nat) : Safe k Toy.parseTableArgList := by
  intro l _
  unfold Toy.parseTableArgList
  split
  · split
    · exact safe_err_aux
    · rename_i a b he
      exact safe_ok_aux (splitAtParen_suffix _ _ _ he)
  · exact safe_err_aux

theorem safe_toy_parseTableIdentifier (k : Nat) : Safe k Toy.parseTableIdentifier := by
  obtain ⟨p1, p2, p3, p4, p5, p6, p7, p8, p9, p10, p11, p12⟩ := safe_prim
  have q := safe_toy_one [TokenIdent] "identifier"
  unfold Toy.parseTableIdentifier Toy.parseIdent
  repeat' first
    | with_reducible refine safe_bind ?_ (fun _ => ?_)
    | with_reducible apply_assumption
    | split

/-- The small scalar layer of the concrete runs is safe. -/
theorem safeScalar_toy : SafeScalar Toy.scalar where
  parseExpr := fun k _ => safe_toy_one _ _ k
  parseColumnExprList := fun k _ => safe_toy_one _ _ k
  parseColumnExprListWithRoundBracket := fun k _ => safe_toy_one _ _ k
  parseColumnsExpr := fun k _ => safe_toy_one _ _ k
  parseFunctionParams := fun k _ => safe_toy_parseTableArgList k
  parseTableArgList := fun k _ => safe_toy_parseTableArgList k
  parseTableIdentifier := fun k _ => safe_toy_parseTableIdentifier k
  parseIdent := fun k => safe_toy_one _ _ k
  parseNumber := fun k _ => safe_toy_one _ _ k
  parseFloat := fun k _ => safe_toy_one _ _ k
  tryParsePartitionByExpr := fun k _ => safe_pure k none
  tryParseOrderByExprList := fun k _ => safe_pure k none
  tryParseSettingsExprList := fun k _ => safe_pure k none

/-! ## Clause order -/

section
variable {α : Type} (S : Scalar α) (E : Ends α)

theorem tryParseFromExpr_fuel {n m : Nat} (hnm : n ≤ m) {pos : Pos} {l l2 : Lexer}
    {f : Option (FromExpr α)} (h : tryParseFromExpr S E n pos l = Res.ok f l2) :
    tryParseFromExpr S E m pos l = Res.ok f l2 :=
  fuel_ok (f := fun k => tryParseFromExpr S E k pos)
    (fun k => (mutual_mono S E k).2.2.2.1 pos) hnm h

theorem tryParseWindowExpr_fuel {n m : Nat} (hnm : n ≤ m) {pos : Pos} {l l2 : Lexer}
    {w : Option (WindowExpr α)} (h : tryParseWindowExpr S n pos l = Res.ok w l2) :
    tryParseWindowExpr S m pos l = Res.ok w l2 :=
  fuel_ok (f := fun k => tryParseWindowExpr S k pos)
    (fun k => tryParseWindowExpr_mono S k pos) hnm h

end

/-! ## Subquery table sources and the union that follows them -/

theorem matchKeyword_of_tokens_nil {l : Lexer} (h : l.tokens = []) (k : String) :
    l.matchKeyword k = false := by
  simp [Lexer.matchKeyword, Lexer.last, h]

theorem parseJoinOpSwitch_of_tokens_nil {l : Lexer} (h : l.tokens = []) :
    parseJoinOpSwitch l = Res.ok false l := by
  rcases l with ⟨ts, c⟩
  cases h
  rfl

section
variable {α : Type} (S : Scalar α) (E : Ends α)

/-- `parseTableExpr` on a subquery without alias: the node of the list that
`parseSelectUnionExprList` returns from the opening parenthesis on. -/
theorem parseTableExpr_subquery {n : Nat} {pos : Pos} {l l1 : Lexer} {sl : SelectExprList α}
    (hparen : l.matchTokenKind "(" = true)
    (hsl : parseSelectUnionExprList S E n l.Pos l = Res.ok sl l1)
    (has : l1.matchKeyword KeywordAs = false) :
    parseTableExpr S E (n + 1) pos l
      = Res.ok (TableExpr.mk pos (E.Expr (Expr.selectList sl)) (Expr.selectList sl)) l1 := by
  simp [parseTableExpr, bind_apply, pure_apply, matchTokenKind_apply, getPos_apply, hparen,
    Lexer.matchTokenKind_excl TokenIdent hparen (by decide), hsl, tryConsumeKeyword_false has]

end

/-! ## Locality -/

theorem local_pure {β : Type} (b : β) : Local (pure b : P β) := by
  refine ⟨fun l v l2 h => ?_, fun A A1 B B2 c c1 v _ h => ?_⟩
  · simp only [pure_apply, Res.ok.injEq] at h
    rw [← h.2]
  · simp only [pure_apply, Res.ok.injEq, Lexer.mk.injEq, List.append_left_inj] at h ⊢
    exact h

theorem local_fail {β : Type} (msg : String) : Local (P.fail msg : P β) :=
  ⟨fun l v l2 h => by simp [fail_apply] at h, fun A A1 B B2 c c1 v _ h => by
    simp [fail_apply] at h⟩

theorem local_outOfFuel {β : Type} : Local (P.outOfFuel : P β) :=
  ⟨fun l v l2 h => by simp [P.outOfFuel] at h, fun A A1 B B2 c c1 v _ h => by
    simp [P.outOfFuel] at h⟩

theorem local_bind {β γ : Type} {x : P β} {f : β → P γ} (hx : Local x)
    (hf : ∀ b, Local (f b)) : Local (x >>= f) := by
  refine ⟨fun l v l2 h => ?_, fun A A1 B B2 c c1 v hne h => ?_⟩
  · obtain ⟨b, l1, h1, h2⟩ := bind_ok_inv h
    exact ((hf b).1 _ _ _ h2).trans (hx.1 _ _ _ h1)
  · obtain ⟨b, l1, h1, h2⟩ := bind_ok_inv h
    obtain ⟨C, hC⟩ := (hf b).1 _ _ _ h2
    rcases l1 with ⟨ts, c0⟩
    simp only at hC
    subst hC
    have e : C ++ (A1 ++ B) = (C ++ A1) ++ B := by simp
    rw [e] at h1 h2
    have m1 := hx.2 A (C ++ A1) B B2 c c0 b (by simp [hne]) h1
    have m2 := (hf b).2 (C ++ A1) A1 B B2 c0 c1 v hne h2
    rw [bind_apply, m1]
    exact m2

theorem local_ite {β : Type} {c : Prop} [Decidable c] {a b : P β} (ha : Local a)
    (hb : Local b) : Local (if c then a else b) := by
  split
  · exact ha
  · exact hb

/-- A prefix that stays non-empty after a step forward was non-empty before it. -/
theorem front_ne_nil {A1 B ts : List Token} (h : A1 ++ B <:+ ts ++ B) (hne : A1 ≠ []) :
    ts ≠ [] := by
  intro e
  subst e
  have := h.length_le
  simp only [List.nil_append, List.length_append] at this
  have : A1.length = 0 := by omega
  exact hne (List.length_eq_zero.mp this)

theorem local_getPos : Local getPos := by
  refine ⟨fun l v l2 h => ?_, fun A A1 B B2 c c1 v hne h => ?_⟩
  · simp only [getPos_apply, Res.ok.injEq] at h
    rw [← h.2]
  · simp only [getPos_apply, Res.ok.injEq, Lexer.mk.injEq, List.append_left_inj] at h ⊢
    obtain ⟨hv, rfl, rfl⟩ := h
    refine ⟨?_, rfl, rfl⟩
    cases A with
    | nil => exact absurd rfl hne
    | cons a A2 => simpa [Lexer.Pos, Lexer.last] using hv

theorem local_lastToken : Local lastToken := by
  refine ⟨fun l v l2 h => (safe_lastToken _ l (Nat.le_refl _)).2 v l2 h,
    fun A A1 B B2 c c1 v hne h => ?_⟩
  cases A with
  | nil => exact absurd rfl (front_ne_nil ((safe_lastToken _ _ (Nat.le_refl _)).2 _ _ h) hne)
  | cons a A2 =>
    simp only [lastToken, Lexer.last, List.cons_append, List.head?_cons, Res.ok.injEq,
      Lexer.mk.injEq] at h ⊢
    obtain ⟨rfl, h2, rfl⟩ := h
    rw [← List.cons_append, List.append_left_inj] at h2
    subst h2
    simp

theorem local_lastTokenKind : Local lastTokenKind := by
  refine ⟨fun l v l2 h => (safe_lastTokenKind _ l (Nat.le_refl _)).2 v l2 h,
    fun A A1 B B2 c c1 v hne h => ?_⟩
  cases A with
  | nil =>
    exact absurd rfl (front_ne_nil ((safe_lastTokenKind _ _ (Nat.le_refl _)).2 _ _ h) hne)
  | cons a A2 =>
    simp only [lastTokenKind_apply, Lexer.lastTokenKind, Lexer.last, List.cons_append,
      List.head?_cons, Res.ok.injEq, Lexer.mk.injEq] at h ⊢
    obtain ⟨rfl, h2, rfl⟩ := h
    rw [← List.cons_append, List.append_left_inj] at h2
    subst h2
    simp

theorem local_matchTokenKind (kind : TokenKind) : Local (matchTokenKind kind) := by
  refine ⟨fun l v l2 h => (safe_matchTokenKind _ kind l (Nat.le_refl _)).2 v l2 h,
    fun A A1 B B2 c c1 v hne h => ?_⟩
  cases A with
  | nil =>
    exact absurd rfl
      (front_ne_nil ((safe_matchTokenKind _ kind _ (Nat.le_refl _)).2 _ _ h) hne)
  | cons a A2 =>
    simp only [matchTokenKind_apply, Lexer.matchTokenKind, Lexer.last, List.cons_append,
      List.head?_cons, Res.ok.injEq, Lexer.mk.injEq] at h ⊢
    obtain ⟨rfl, h2, rfl⟩ := h
    rw [← List.cons_append, List.append_left_inj] at h2
    subst h2
    simp

theorem local_matchKeyword (kw : String) : Local (matchKeyword kw) := by
  refine ⟨fun l v l2 h => (safe_matchKeyword _ kw l (Nat.le_refl _)).2 v l2 h,
    fun A A1 B B2 c c1 v hne h => ?_⟩
  cases A with
  | nil =>
    exact absurd rfl (front_ne_nil ((safe_matchKeyword _ kw _ (Nat.le_refl _)).2 _ _ h) hne)
  | cons a A2 =>
    simp only [matchKeyword_apply, Lexer.matchKeyword, Lexer.last, List.cons_append,
      List.head?_cons, Res.ok.injEq, Lexer.mk.injEq] at h ⊢
    obtain ⟨rfl, h2, rfl⟩ := h
    rw [← List.cons_append, List.append_left_inj] at h2
    subst h2
    simp

theorem local_consumeToken : Local consumeToken := by
  refine ⟨fun l v l2 h => (safe_consumeToken _ l (Nat.le_refl _)).2 v l2 h,
    fun A A1 B B2 c c1 v hne h => ?_⟩
  cases A with
  | nil =>
    exact absurd rfl (front_ne_nil ((safe_consumeToken _ _ (Nat.le_refl _)).2 _ _ h) hne)
  | cons a A2 =>
    simp only [consumeToken_apply, Lexer.consumeToken, List.cons_append, List.tail_cons,
      Res.ok.injEq, Lexer.mk.injEq, List.append_left_inj] at h ⊢
    exact h

theorem local_tryConsumeTokenKind (kind : TokenKind) : Local (tryConsumeTokenKind kind) := by
  refine ⟨fun l v l2 h => (safe_tryConsumeTokenKind _ kind l (Nat.le_refl _)).2 v l2 h,
    fun A A1 B B2 c c1 v hne h => ?_⟩
  cases A with
  | nil =>
    exact absurd rfl
      (front_ne_nil ((safe_tryConsumeTokenKind _ kind _ (Nat.le_refl _)).2 _ _ h) hne)
  | cons a A2 =>
    simp only [tryConsumeTokenKind, Lexer.matchTokenKind, Lexer.last, Lexer.consumeToken,
      List.cons_append, List.head?_cons, List.tail_cons] at h ⊢
    split at h
    · rename_i hc
      simp only [Res.ok.injEq, Lexer.mk.injEq, List.append_left_inj] at h
      simp [hc, h]
    · rename_i hc
      simp only [Res.ok.injEq, Lexer.mk.injEq] at h
      obtain ⟨rfl, h2, rfl⟩ := h
      rw [← List.cons_append, List.append_left_inj] at h2
      subst h2
      simp [hc]

theorem local_consumeTokenKind (kind : TokenKind) : Local (consumeTokenKind kind) := by
  refine ⟨fun l v l2 h => (safe_consumeTokenKind _ kind l (Nat.le_refl _)).2 v l2 h,
    fun A A1 B B2 c c1 v hne h => ?_⟩
  cases A with
  | nil =>
    exact absurd rfl
      (front_ne_nil ((safe_consumeTokenKind _ kind _ (Nat.le_refl _)).2 _ _ h) hne)
  | cons a A2 =>
    simp only [consumeTokenKind, Lexer.matchTokenKind, Lexer.last, Lexer.consumeToken,
      List.cons_append, List.head?_cons, List.tail_cons] at h ⊢
    split at h
    · rename_i hc
      simp only [Res.ok.injEq, Lexer.mk.injEq, List.append_left_inj] at h
      simp [hc, h]
    · cases h

theorem local_tryConsumeKeyword (kw : String) : Local (tryConsumeKeyword kw) := by
  refine ⟨fun l v l2 h => (safe_tryConsumeKeyword _ kw l (Nat.le_refl _)).2 v l2 h,
    fun A A1 B B2 c c1 v hne h => ?_⟩
  cases A with
  | nil =>
    exact absurd rfl
      (front_ne_nil ((safe_tryConsumeKeyword _ kw _ (Nat.le_refl _)).2 _ _ h) hne)
  | cons a A2 =>
    simp only [tryConsumeKeyword, Lexer.matchKeyword, Lexer.last, Lexer.consumeToken,
      List.cons_append, List.head?_cons, List.tail_cons] at h ⊢
    split at h
    · rename_i hc
      simp only [Res.ok.injEq, Lexer.mk.injEq, List.append_left_inj] at h
      simp [hc, h]
    · rename_i hc
      simp only [Res.ok.injEq, Lexer.mk.injEq] at h
      obtain ⟨rfl, h2, rfl⟩ := h
      rw [← List.cons_append, List.append_left_inj] at h2
      subst h2
      simp [hc]

theorem local_consumeKeyword (kw : String) : Local (consumeKeyword kw) := by
  refine ⟨fun l v l2 h => (safe_consumeKeyword _ kw l (Nat.le_refl _)).2 v l2 h,
    fun A A1 B B2 c c1 v hne h => ?_⟩
  cases A with
  | nil =>
    exact absurd rfl
      (front_ne_nil ((safe_consumeKeyword _ kw _ (Nat.le_refl _)).2 _ _ h) hne)
  | cons a A2 =>
    simp only [consumeKeyword, Lexer.matchKeyword, Lexer.last, Lexer.consumeToken,
      List.cons_append, List.head?_cons, List.tail_cons] at h ⊢
    split at h
    · rename_i hc
      simp only [Res.ok.injEq, Lexer.mk.injEq, List.append_left_inj] at h
      simp [hc, h]
    · cases h

theorem local_prim :
    (∀ (β : Type) (b : β), Local (pure b : P β)) ∧
    (∀ (β : Type) msg, Local (P.fail msg : P β)) ∧
    (∀ (β : Type), Local (P.outOfFuel : P β)) ∧
    Local getPos ∧ Local lastToken ∧ Local lastTokenKind ∧
    (∀ kind, Local (matchTokenKind kind)) ∧ (∀ kw, Local (matchKeyword kw)) ∧
    Local consumeToken ∧ (∀ kind, Local (tryConsumeTokenKind kind)) ∧
    (∀ kind, Local (consumeTokenKind kind)) ∧ (∀ kw, Local (tryConsumeKeyword kw)) ∧
    (∀ kw, Local (consumeKeyword kw)) :=
  ⟨fun _ => local_pure, fun _ => local_fail, fun _ => local_outOfFuel, local_getPos,
   local_lastToken, local_lastTokenKind, local_matchTokenKind, local_matchKeyword,
   local_consumeToken, local_tryConsumeTokenKind, local_consumeTokenKind,
   local_tryConsumeKeyword, local_consumeKeyword⟩

/-- The switch of `parseJoinOp` is local. -/
theorem local_parseJoinOpSwitch : Local parseJoinOpSwitch := by
  obtain ⟨p1, p2, p3, p4, p5, p6, p7, p8, p9, p10, p11, p12, p13⟩ := local_prim
  unfold parseJoinOpSwitch
  repeat' first
    | with_reducible refine local_bind ?_ (fun _ => ?_)
    | with_reducible apply local_ite
    | with_reducible apply_assumption
    | split

theorem local_parseGroupByExprWith {α : Type} :
    ∀ (n : Nat) (g : GroupByExpr α), Local (parseGroupByExprWith n g) := by
  obtain ⟨p1, p2, p3, p4, p5, p6, p7, p8, p9, p10, p11, p12, p13⟩ := local_prim
  intro n
  induction n with
  | zero => intro g; exact local_outOfFuel
  | succ n ih =>
    intro g
    rw [parseGroupByExprWith]
    repeat' first
      | with_reducible refine local_bind ?_ (fun _ => ?_)
      | with_reducible apply local_ite
      | with_reducible apply_assumption
      | split

section
variable {α : Type} {S : Scalar α}
theorem local_tryParseTopExpr (hS : LocalScalar S) (pos : Pos) :
    Local (tryParseTopExpr S pos) := by
  obtain ⟨s1, s2, s3, s4, s5, s6, s7, s8, s9, s10, s11, s12, s13⟩ := hS
  obtain ⟨p1, p2, p3, p4, p5, p6, p7, p8, p9, p10, p11, p12, p13⟩ := local_prim
  unfold tryParseTopExpr parseTopExpr
  repeat' first
    | with_reducible refine local_bind ?_ (fun _ => ?_)
    | with_reducible apply local_ite
    | with_reducible apply_assumption
    | split
theorem local_tryParseJoinConstraints (hS : LocalScalar S) (pos : Pos) :
    Local (tryParseJoinConstraints S pos) := by
  obtain ⟨s1, s2, s3, s4, s5, s6, s7, s8, s9, s10, s11, s12, s13⟩ := hS
  obtain ⟨p1, p2, p3, p4, p5, p6, p7, p8, p9, p10, p11, p12, p13⟩ := local_prim
  unfold tryParseJoinConstraints
  repeat' first
    | with_reducible refine local_bind ?_ (fun _ => ?_)
    | with_reducible apply local_ite
    | with_reducible apply_assumption
    | split
theorem local_tryParsePrewhereExpr (hS : LocalScalar S) (pos : Pos) :
    Local (tryParsePrewhereExpr S pos) := by
  obtain ⟨s1, s2, s3, s4, s5, s6, s7, s8, s9, s10, s11, s12, s13⟩ := hS
  obtain ⟨p1, p2, p3, p4, p5, p6, p7, p8, p9, p10, p11, p12, p13⟩ := local_prim
  unfold tryParsePrewhereExpr parsePrewhereExpr
  repeat' first
    | with_reducible refine local_bind ?_ (fun _ => ?_)
    | with_reducible apply local_ite
    | with_reducible apply_assumption
theorem local_tryParseWhereExpr (hS : LocalScalar S) (pos : Pos) :
    Local (tryParseWhereExpr S pos) := by
  obtain ⟨s1, s2, s3, s4, s5, s6, s7, s8, s9, s10, s11, s12, s13⟩ := hS
  obtain ⟨p1, p2, p3, p4, p5, p6, p7, p8, p9, p10, p11, p12, p13⟩ := local_prim
  unfold tryParseWhereExpr parseWhereExpr
  repeat' first
    | with_reducible refine local_bind ?_ (fun _ => ?_)
    | with_reducible apply local_ite
    | with_reducible apply_assumption
theorem local_tryParseLimitByExpr (hS : LocalScalar S) (pos : Pos) :
    Local (tryParseLimitByExpr S pos) := by
  obtain ⟨s1, s2, s3, s4, s5, s6, s7, s8, s9, s10, s11, s12, s13⟩ := hS
  obtain ⟨p1, p2, p3, p4, p5, p6, p7, p8, p9, p10, p11, p12, p13⟩ := local_prim
  unfold tryParseLimitByExpr parseLimitByExpr
  repeat' first
    | with_reducible refine local_bind ?_ (fun _ => ?_)
    | with_reducible apply local_ite
    | with_reducible apply_assumption
    | split
theorem local_tryParseArrayJoin (hS : LocalScalar S) (pos : Pos) :
    Local (tryParseArrayJoin S pos) := by
  obtain ⟨s1, s2, s3, s4, s5, s6, s7, s8, s9, s10, s11, s12, s13⟩ := hS
  obtain ⟨p1, p2, p3, p4, p5, p6, p7, p8, p9, p10, p11, p12, p13⟩ := local_prim
  unfold tryParseArrayJoin parseArrayJoin
  repeat' first
    | with_reducible refine local_bind ?_ (fun _ => ?_)
    | with_reducible apply local_ite
    | with_reducible apply_assumption
theorem local_tryParseHavingExpr (hS : LocalScalar S) (pos : Pos) :
    Local (tryParseHavingExpr S pos) := by
  obtain ⟨s1, s2, s3, s4, s5, s6, s7, s8, s9, s10, s11, s12, s13⟩ := hS
  obtain ⟨p1, p2, p3, p4, p5, p6, p7, p8, p9, p10, p11, p12, p13⟩ := local_prim
  unfold tryParseHavingExpr parseHavingExpr
  repeat' first
    | with_reducible refine local_bind ?_ (fun _ => ?_)
    | with_reducible apply local_ite
    | with_reducible apply_assumption
theorem local_tryParseSampleRationExpr (hS : LocalScalar S) (pos : Pos) :
    Local (tryParseSampleRationExpr S pos) := by
  obtain ⟨s1, s2, s3, s4, s5, s6, s7, s8, s9, s10, s11, s12, s13⟩ := hS
  obtain ⟨p1, p2, p3, p4, p5, p6, p7, p8, p9, p10, p11, p12, p13⟩ := local_prim
  unfold tryParseSampleRationExpr parseSampleRationExpr
  repeat' first
    | with_reducible refine local_bind ?_ (fun _ => ?_)
    | with_reducible apply local_ite
    | with_reducible apply_assumption
theorem local_tryParseGroupByExpr (hS : LocalScalar S) (n : Nat) (pos : Pos) :
    Local (tryParseGroupByExpr S n pos) := by
  obtain ⟨s1, s2, s3, s4, s5, s6, s7, s8, s9, s10, s11, s12, s13⟩ := hS
  obtain ⟨p1, p2, p3, p4, p5, p6, p7, p8, p9, p10, p11, p12, p13⟩ := local_prim
  have q := @local_parseGroupByExprWith α n
  unfold tryParseGroupByExpr parseGroupByExpr
  repeat' first
    | with_reducible refine local_bind ?_ (fun _ => ?_)
    | with_reducible apply local_ite
    | with_reducible apply_assumption

theorem local_parseWindowFrameExpr (hS : LocalScalar S) :
    ∀ (n : Nat) (pos : Pos), Local (parseWindowFrameExpr S n pos) := by
  obtain ⟨s1, s2, s3, s4, s5, s6, s7, s8, s9, s10, s11, s12, s13⟩ := hS
  obtain ⟨p1, p2, p3, p4, p5, p6, p7, p8, p9, p10, p11, p12, p13⟩ := local_prim
  intro n
  induction n with
  | zero => intro pos; exact local_outOfFuel
  | succ n ih =>
    intro pos
    rw [parseWindowFrameExpr]
    repeat' first
      | with_reducible refine local_bind ?_ (fun _ => ?_)
      | with_reducible apply local_ite
      | with_reducible apply_assumption
      | split

theorem local_tryParseWindowExpr (hS : LocalScalar S) (n : Nat) (pos : Pos) :
    Local (tryParseWindowExpr S n pos) := by
  have q := local_parseWindowFrameExpr hS n
  obtain ⟨s1, s2, s3, s4, s5, s6, s7, s8, s9, s10, s11, s12, s13⟩ := hS
  obtain ⟨p1, p2, p3, p4, p5, p6, p7, p8, p9, p10, p11, p12, p13⟩ := local_prim
  unfold tryParseWindowExpr parseWindowExpr parseWindowCondition tryParseWindowFrameExpr
  repeat' first
    | with_reducible refine local_bind ?_ (fun _ => ?_)
    | with_reducible apply local_ite
    | with_reducible apply_assumption

theorem local_tryParseColumnAliasesLoop (hS : LocalScalar S) :
    ∀ (n : Nat) (acc : List α), Local (tryParseColumnAliasesLoop S n acc) := by
  obtain ⟨s1, s2, s3, s4, s5, s6, s7, s8, s9, s10, s11, s12, s13⟩ := hS
  obtain ⟨p1, p2, p3, p4, p5, p6, p7, p8, p9, p10, p11, p12, p13⟩ := local_prim
  intro n
  induction n with
  | zero => intro acc; exact local_outOfFuel
  | succ n ih =>
    intro acc
    rw [tryParseColumnAliasesLoop]
    repeat' first
      | with_reducible refine local_bind ?_ (fun _ => ?_)
      | with_reducible apply local_ite
      | with_reducible apply_assumption

theorem local_tryParseColumnAliases (hS : LocalScalar S) (n : Nat) :
    Local (tryParseColumnAliases S n) := by
  have q := local_tryParseColumnAliasesLoop hS n
  obtain ⟨s1, s2, s3, s4, s5, s6, s7, s8, s9, s10, s11, s12, s13⟩ := hS
  obtain ⟨p1, p2, p3, p4, p5, p6, p7, p8, p9, p10, p11, p12, p13⟩ := local_prim
  unfold tryParseColumnAliases
  repeat' first
    | with_reducible refine local_bind ?_ (fun _ => ?_)
    | with_reducible apply local_ite
    | with_reducible apply_assumption

end

section
variable {α : Type} {S : Scalar α} (E : Ends α)

/-- Every parser of the recursive group is local, with any fuel. -/
theorem local_mutual (hS : LocalScalar S) (n : Nat) :
    (∀ pos, Local (tryParseWithExpr S E n pos)) ∧
    (∀ pos, Local (parseWithExpr S E n pos)) ∧
    (∀ acc, Local (parseWithExprLoop S E n acc)) ∧
    (∀ pos, Local (tryParseFromExpr S E n pos)) ∧
    (∀ pos, Local (parseFromExpr S E n pos)) ∧
    (∀ pos, Local (parseJoinOp S E n pos)) ∧
    (∀ pos, Local (parseJoinExpr S E n pos)) ∧
    (∀ pos, Local (parseTableExpr S E n pos)) ∧
    (∀ pos, Local (parseSelectUnionExprList S E n pos)) ∧
    (∀ pos acc, Local (parseSelectUnionExprListLoop S E n pos acc)) ∧
    (∀ pos, Local (parseSelectQuery S E n pos)) ∧
    (∀ pos, Local (parseSelectStatementWithParen S E n pos)) ∧
    (∀ pos, Local (parseSelectStatement S E n pos)) ∧
    (∀ pos, Local (parseCTEExpr S E n pos)) := by
  induction n with
  | zero =>
    refine ⟨?_, ?_, ?_, ?_, ?_, ?_, ?_, ?_, ?_, ?_, ?_, ?_, ?_, ?_⟩ <;> intros <;>
      exact local_outOfFuel
  | succ n ih =>
    obtain ⟨h1, h2, h3, h4, h5, h6, h7, h8, h9, h10, h11, h12, h13, h14⟩ := ih
    have c0 := local_parseJoinOpSwitch
    have c1 := local_tryParseTopExpr hS
    have c2 := local_tryParseJoinConstraints hS
    have c3 := local_tryParsePrewhereExpr hS
    have c4 := local_tryParseWhereExpr hS
    have c5 := local_tryParseLimitByExpr hS
    have c6 := local_tryParseArrayJoin hS
    have c7 := local_tryParseHavingExpr hS
    have c8 := local_tryParseSampleRationExpr hS
    have q1 := local_tryParseGroupByExpr hS n
    have q2 := local_tryParseWindowExpr hS n
    have q3 := local_tryParseColumnAliases hS n
    obtain ⟨s1, s2, s3, s4, s5, s6, s7, s8, s9, s10, s11, s12, s13⟩ := hS
    obtain ⟨p1, p2, p3, p4, p5, p6, p7, p8, p9, p10, p11, p12, p13⟩ := local_prim
    refine ⟨?_, ?_, ?_, ?_, ?_, ?_, ?_, ?_, ?_, ?_, ?_, ?_, ?_, ?_⟩
    · intro pos
      rw [tryParseWithExpr]
      repeat' first
        | with_reducible refine local_bind ?_ (fun _ => ?_)
        | with_reducible apply local_ite
        | with_reducible apply_assumption
    · intro pos
      rw [parseWithExpr]
      repeat' first
        | with_reducible refine local_bind ?_ (fun _ => ?_)
        | with_reducible apply local_ite
        | with_reducible apply_assumption
    · intro acc
      rw [parseWithExprLoop]
      repeat' first
        | with_reducible refine local_bind ?_ (fun _ => ?_)
        | with_reducible apply local_ite
        | with_reducible apply_assumption
        | split
    · intro pos
      rw [tryParseFromExpr]
      repeat' first
        | with_reducible refine local_bind ?_ (fun _ => ?_)
        | with_reducible apply local_ite
        | with_reducible apply_assumption
    · intro pos
      rw [parseFromExpr]
      repeat' first
        | with_reducible refine local_bind ?_ (fun _ => ?_)
        | with_reducible apply local_ite
        | with_reducible apply_assumption
    · intro pos
      rw [parseJoinOp]
      repeat' first
        | with_reducible refine local_bind ?_ (fun _ => ?_)
        | with_reducible apply local_ite
        | with_reducible apply_assumption
    · intro pos
      rw [parseJoinExpr]
      repeat' first
        | with_reducible refine local_bind ?_ (fun _ => ?_)
        | with_reducible apply local_ite
        | with_reducible apply_assumption
        | split
    · intro pos
      rw [parseTableExpr]
      repeat' first
        | with_reducible refine local_bind ?_ (fun _ => ?_)
        | with_reducible apply local_ite
        | with_reducible apply_assumption
        | split
    · intro pos
      rw [parseSelectUnionExprList]
      repeat' first
        | with_reducible refine local_bind ?_ (fun _ => ?_)
        | with_reducible apply local_ite
        | with_reducible apply_assumption
    · intro pos acc
      rw [parseSelectUnionExprListLoop]
      repeat' first
        | with_reducible refine local_bind ?_ (fun _ => ?_)
        | with_reducible apply local_ite
        | with_reducible apply_assumption
        | split
    · intro pos
      rw [parseSelectQuery]
      repeat' first
        | with_reducible refine local_bind ?_ (fun _ => ?_)
        | with_reducible apply local_ite
        | with_reducible apply_assumption
    · intro pos
      rw [parseSelectStatementWithParen]
      repeat' first
        | with_reducible refine local_bind ?_ (fun _ => ?_)
        | with_reducible apply local_ite
        | with_reducible apply_assumption
    · intro pos
      rw [parseSelectStatement]
      repeat' first
        | with_reducible refine local_bind ?_ (fun _ => ?_)
        | with_reducible apply local_ite
        | with_reducible apply_assumption
    · intro pos
      rw [parseCTEExpr]
      repeat' first
        | with_reducible refine local_bind ?_ (fun _ => ?_)
        | with_reducible apply local_ite
        | with_reducible apply_assumption

end

/-! ## Inserting a token behind the cursor -/

theorem pos_of_tokens {l m : Lexer} {A B B2 : List Token} (hne : A ≠ [])
    (hl : l.tokens = A ++ B) (hm : m.tokens = A ++ B2) : m.Pos = l.Pos := by
  rcases l with ⟨ts, c⟩
  rcases m with ⟨ts2, c2⟩
  simp only at hl hm
  subst hl hm
  cases A with
  | nil => exact absurd rfl hne
  | cons a A2 => rfl

theorem matchTokenKind_of_tokens {l m : Lexer} {A B B2 : List Token} (hne : A ≠ [])
    (hl : l.tokens = A ++ B) (hm : m.tokens = A ++ B2) (k : TokenKind) :
    m.matchTokenKind k = l.matchTokenKind k := by
  rcases l with ⟨ts, c⟩
  rcases m with ⟨ts2, c2⟩
  simp only at hl hm
  subst hl hm
  cases A with
  | nil => exact absurd rfl hne
  | cons a A2 => rfl

theorem matchKeyword_of_tokens {l m : Lexer} {A B B2 : List Token} (hne : A ≠ [])
    (hl : l.tokens = A ++ B) (hm : m.tokens = A ++ B2) (k : String) :
    m.matchKeyword k = l.matchKeyword k := by
  rcases l with ⟨ts, c⟩
  rcases m with ⟨ts2, c2⟩
  simp only at hl hm
  subst hl hm
  cases A with
  | nil => exact absurd rfl hne
  | cons a A2 => rfl

/-- A local parser that returns strictly before the tokens `B` returns the same when `B` is
replaced by `B2`. -/
theorem local_step {β : Type} {x : P β} (hx : Local x) {l l1 : Lexer} {v : β}
    (h : x l = Res.ok v l1) {A1 B : List Token} (h1 : l1.tokens = A1 ++ B) (hne : A1 ≠ [])
    (B2 : List Token) :
    ∃ A, A ≠ [] ∧ l.tokens = A ++ B ∧
      x { tokens := A ++ B2, current := l.current }
        = Res.ok v { tokens := A1 ++ B2, current := l1.current } := by
  obtain ⟨C, hC⟩ := hx.1 _ _ _ h
  rcases l with ⟨ts, c⟩
  rcases l1 with ⟨ts1, c1⟩
  simp only at hC h1
  subst h1
  subst hC
  have e : C ++ (A1 ++ B) = (C ++ A1) ++ B := by simp
  refine ⟨C ++ A1, by simp [hne], e, ?_⟩
  rw [e] at h
  exact hx.2 _ _ _ B2 _ _ _ hne h

theorem skipKeyword_suffix (l : Lexer) (k : String) : (l.skipKeyword k).tokens <:+ l.tokens := by
  unfold Lexer.skipKeyword
  split
  · exact consumeToken_suffix l
  · exact List.suffix_refl _

theorem skipGlobalLocal_suffix (l : Lexer) : l.skipGlobalLocal.tokens <:+ l.tokens := by
  unfold Lexer.skipGlobalLocal
  split
  · exact consumeToken_suffix l
  · exact List.suffix_refl _

theorem local_skipKeyword (k : String) :
    Local (fun l => Res.ok () (l.skipKeyword k) : P Unit) := by
  refine ⟨fun l v l2 h => ?_, fun A A1 B B2 c c1 v hne h => ?_⟩
  · simp only [Res.ok.injEq, true_and] at h
    rw [← h]
    exact skipKeyword_suffix l k
  · have hs : A1 ++ B <:+ A ++ B := by
      simp only [Res.ok.injEq, true_and] at h
      have := skipKeyword_suffix { tokens := A ++ B, current := c } k
      rw [h] at this
      exact this
    cases A with
    | nil => exact absurd rfl (front_ne_nil hs hne)
    | cons a A2 =>
      simp only [Lexer.skipKeyword, Lexer.matchKeyword, Lexer.last, Lexer.consumeToken,
        List.cons_append, List.head?_cons, List.tail_cons, Res.ok.injEq, true_and] at h ⊢
      split at h
      · rename_i hc
        simp only [Lexer.mk.injEq, List.append_left_inj] at h
        simp [hc, h]
      · rename_i hc
        simp only [Lexer.mk.injEq] at h
        obtain ⟨h2, rfl⟩ := h
        rw [← List.cons_append, List.append_left_inj] at h2
        subst h2
        simp [hc]

theorem local_skipGlobalLocal : Local (fun l => Res.ok () l.skipGlobalLocal : P Unit) := by
  refine ⟨fun l v l2 h => ?_, fun A A1 B B2 c c1 v hne h => ?_⟩
  · simp only [Res.ok.injEq, true_and] at h
    rw [← h]
    exact skipGlobalLocal_suffix l
  · have hs : A1 ++ B <:+ A ++ B := by
      simp only [Res.ok.injEq, true_and] at h
      have := skipGlobalLocal_suffix { tokens := A ++ B, current := c }
      rw [h] at this
      exact this
    cases A with
    | nil => exact absurd rfl (front_ne_nil hs hne)
    | cons a A2 =>
      simp only [Lexer.skipGlobalLocal, Lexer.matchKeyword, Lexer.last, Lexer.consumeToken,
        List.cons_append, List.head?_cons, List.tail_cons, Res.ok.injEq, true_and] at h ⊢
      split at h
      · rename_i hc
        simp only [Lexer.mk.injEq, List.append_left_inj] at h
        simp [hc, h]
      · rename_i hc
        simp only [Lexer.mk.injEq] at h
        obtain ⟨h2, rfl⟩ := h
        rw [← List.cons_append, List.append_left_inj] at h2
        subst h2
        simp [hc]

theorem skipKeyword_step (k : String) {l : Lexer} {A1 B : List Token}
    (h1 : (l.skipKeyword k).tokens = A1 ++ B) (hne : A1 ≠ []) (B2 : List Token) :
    ∃ A, A ≠ [] ∧ l.tokens = A ++ B ∧
      ({ tokens := A ++ B2, current := l.current } : Lexer).skipKeyword k
        = { tokens := A1 ++ B2, current := (l.skipKeyword k).current } := by
  obtain ⟨A, hA, hl, hm⟩ := local_step (local_skipKeyword k)
    (rfl : (fun l => Res.ok () (l.skipKeyword k) : P Unit) l = Res.ok () (l.skipKeyword k))
    h1 hne B2
  simp only [Res.ok.injEq, true_and] at hm
  exact ⟨A, hA, hl, hm⟩

theorem skipGlobalLocal_step {l : Lexer} {A1 B : List Token}
    (h1 : l.skipGlobalLocal.tokens = A1 ++ B) (hne : A1 ≠ []) (B2 : List Token) :
    ∃ A, A ≠ [] ∧ l.tokens = A ++ B ∧
      ({ tokens := A ++ B2, current := l.current } : Lexer).skipGlobalLocal
        = { tokens := A1 ++ B2, current := l.skipGlobalLocal.current } := by
  obtain ⟨A, hA, hl, hm⟩ := local_step local_skipGlobalLocal
    (rfl : (fun l => Res.ok () l.skipGlobalLocal : P Unit) l = Res.ok () l.skipGlobalLocal)
    h1 hne B2
  simp only [Res.ok.injEq, true_and] at hm
  exact ⟨A, hA, hl, hm⟩

section
variable {α : Type} {S : Scalar α} (E : Ends α)

theorem local_parseTableExpr (hS : LocalScalar S) (n : Nat) (pos : Pos) :
    Local (parseTableExpr S E n pos) :=
  (local_mutual E hS n).2.2.2.2.2.2.2.1 pos

/-- A table source that ends strictly before the tokens `B` is read the same when `B` is
replaced by `B2`. -/
theorem tableSource_step (hS : LocalScalar S) {n : Nat} {l l1 : Lexer} {t : TableExpr α}
    {sr : Option (SampleRatioExpr α)} (hs : TableSource S E n l t sr l1)
    {A1 B : List Token} (h1 : l1.tokens = A1 ++ B) (hne : A1 ≠ []) (B2 : List Token) :
    ∃ A, A ≠ [] ∧ l.tokens = A ++ B ∧
      TableSource S E n { tokens := A ++ B2, current := l.current } t sr
        { tokens := A1 ++ B2, current := l1.current } := by
  obtain ⟨hstart, la, ls, hta, hsr, rfl⟩ := hs
  obtain ⟨As, hAs, hls, hg⟩ := skipGlobalLocal_step h1 hne B2
  obtain ⟨Af, hAf, hlaf, hsm⟩ := local_step (local_tryParseSampleRationExpr hS _) hsr hls hAs B2
  obtain ⟨Aa, hAa, hla, hf⟩ := skipKeyword_step KeywordFinal hlaf hAf B2
  obtain ⟨A, hA, hl, htm⟩ := local_step (local_parseTableExpr E hS n _) hta hla hAa B2
  refine ⟨A, hA, hl, ?_, { tokens := Aa ++ B2, current := la.current },
    { tokens := As ++ B2, current := ls.current }, ?_, ?_, hg.symm⟩
  · rw [matchTokenKind_of_tokens hA hl rfl TokenIdent, matchTokenKind_of_tokens hA hl rfl "("]
    exact hstart
  · rw [pos_of_tokens hA hl rfl]
    exact htm
  · rw [hf, pos_of_tokens hAf hlaf rfl]
    exact hsm

end

/-! ## Congruence of the join parsers -/

section
variable {α : Type} (S : Scalar α) (E : Ends α)

theorem parseJoinExpr_fuel {n m : Nat} (hnm : n ≤ m) {pos : Pos} {l l2 : Lexer}
    {e : Expr α} (h : parseJoinExpr S E n pos l = Res.ok e l2) :
    parseJoinExpr S E m pos l = Res.ok e l2 :=
  fuel_ok (f := fun k => parseJoinExpr S E k pos)
    (fun k => (mutual_mono S E k).2.2.2.2.2.2.1 pos) hnm h

/-- Two runs of `parseJoinExpr` that read the same table source and continue alike return the
same. -/
theorem parseJoinExpr_congr {n k : Nat} (hk : n ≤ k) {pos : Pos} {x y x1 y1 : Lexer}
    {t : TableExpr α} {sr : Option (SampleRatioExpr α)}
    (hx : TableSource S E n x t sr x1) (hy : TableSource S E n y t sr y1)
    (hop : parseJoinOp S E k x1.Pos x1 = parseJoinOp S E k y1.Pos y1) :
    parseJoinExpr S E (k + 1) pos x = parseJoinExpr S E (k + 1) pos y := by
  obtain ⟨hxs, xa, xs, hxt, hxr, rfl⟩ := hx
  obtain ⟨hys, ya, ys, hyt, hyr, rfl⟩ := hy
  have hxt2 := parseTableExpr_fuel S E hk hxt
  have hyt2 := parseTableExpr_fuel S E hk hyt
  cases hf : xa.matchKeyword KeywordFinal <;>
    cases hg : (xs.matchKeyword KeywordGlobal || xs.matchKeyword KeywordLocal) <;>
    cases hf2 : ya.matchKeyword KeywordFinal <;>
    cases hg2 : (ys.matchKeyword KeywordGlobal || ys.matchKeyword KeywordLocal) <;>
    simp only [Lexer.skipKeyword, Lexer.skipGlobalLocal, hf, hg, hf2, hg2, if_true, if_false,
      Bool.false_eq_true] at hxr hyr hop <;>
    simp only [Bool.or_eq_true, Bool.or_eq_false_iff] at hg hg2 <;>
    simp [parseJoinExpr, bind_apply, pure_apply, getPos_apply, matchTokenKind_apply, hxs, hys,
      hxt2, hyt2, tryConsumeKeyword_false, tryConsumeKeyword_true, hf, hf2, hxr, hyr,
      matchKeyword_apply, hg, hg2, consumeToken_apply, hop]

/-- Two runs of `parseJoinOp` on the same join operator whose right operands are read alike
return the same. -/
theorem parseJoinOp_congr {k : Nat} {p q : Pos} {x y x2 y2 : Lexer}
    (hx : parseJoinOpSwitch x = Res.ok true x2) (hy : parseJoinOpSwitch y = Res.ok true y2)
    (hr : parseJoinExpr S E k (x2.skipKeyword KeywordJoin).Pos (x2.skipKeyword KeywordJoin)
      = parseJoinExpr S E k (y2.skipKeyword KeywordJoin).Pos (y2.skipKeyword KeywordJoin)) :
    parseJoinOp S E (k + 1) p x = parseJoinOp S E (k + 1) q y := by
  cases hj : x2.matchKeyword KeywordJoin <;> cases hj2 : y2.matchKeyword KeywordJoin <;>
    simp only [Lexer.skipKeyword, hj, hj2, if_true, if_false, Bool.false_eq_true] at hr <;>
    simp [parseJoinOp, bind_apply, pure_apply, hx, hy, tryConsumeKeyword_false,
      tryConsumeKeyword_true, hj, hj2, getPos_apply, hr]

end

/-- Where the switch of `parseJoinOp` recognises a join operator, the cursor is on neither
`GLOBAL` nor `LOCAL`. -/
theorem not_global_local_of_switch {l l2 : Lexer} (h : parseJoinOpSwitch l = Res.ok true l2) :
    l.matchKeyword KeywordGlobal = false ∧ l.matchKeyword KeywordLocal = false := by
  constructor
  · cases hg : l.matchKeyword KeywordGlobal
    · rfl
    · rw [parseJoinOpSwitch_default hg (by decide)] at h
      simp at h
  · cases hg : l.matchKeyword KeywordLocal
    · rfl
    · rw [parseJoinOpSwitch_default hg (by decide)] at h
      simp at h

/-- On an identifier or an opening parenthesis the switch of `parseJoinOp` finds no join
operator. -/
theorem parseJoinOpSwitch_of_start {l : Lexer}
    (h : l.matchTokenKind TokenIdent = true ∨ l.matchTokenKind "(" = true) :
    parseJoinOpSwitch l = Res.ok false l := by
  have e : ∀ kw, l.matchKeyword kw = false := by
    intro kw
    rcases h with h | h
    · exact Lexer.matchKeyword_of_matchTokenKind kw h (by decide)
    · exact Lexer.matchKeyword_of_matchTokenKind kw h (by decide)
  have c : l.matchTokenKind "," = false := by
    rcases h with h | h
    · exact Lexer.matchTokenKind_excl "," h (by decide)
    · exact Lexer.matchTokenKind_excl "," h (by decide)
  simp [parseJoinOpSwitch, bind_apply, pure_apply, matchKeyword_apply,
    tryConsumeKeyword_false (e KeywordCross), tryConsumeTokenKind_false c, e]

section
variable {α : Type} {S : Scalar α} (E : Ends α)

/-- With `g`, a `GLOBAL` or `LOCAL` keyword, inserted at an insertion point of the chain read
from `l`, `parseJoinExpr` returns what it returns on `l`, for every sufficient fuel. -/
theorem insertion_parseJoinExpr (hS : LocalScalar S) {n : Nat} {g : Token} {B : List Token}
    (hg : isKeyword g KeywordGlobal = true ∨ isKeyword g KeywordLocal = true) {l : Lexer}
    (h : InsertionPoint S E n g B l) :
    ∃ A b, A ≠ [] ∧ l.tokens = A ++ B ∧ ∀ m, b ≤ m → ∀ pos,
      parseJoinExpr S E m pos { tokens := A ++ g :: B, current := l.current }
        = parseJoinExpr S E m pos l := by
  induction h with
  | here l la ls l2 ma A t sr hstart ht hsr hB hop hl ht2 hsr2 =>
    have hA : A ≠ [] := by
      intro e
      subst e
      have hs : parseJoinOpSwitch l = Res.ok false l := parseJoinOpSwitch_of_start hstart
      have e2 : ls = { tokens := l.tokens, current := ls.current } := by
        rw [hl, List.nil_append, ← hB]
      have hm : ∀ k, ls.matchTokenKind k = l.matchTokenKind k := by
        intro k
        rw [e2]
        rfl
      have hs2 : parseJoinOpSwitch ls = Res.ok false ls :=
        parseJoinOpSwitch_of_start (by rw [hm, hm]; exact hstart)
      rw [hs2] at hop
      simp at hop
    refine ⟨A, n + 1, hA, hl, ?_⟩
    intro m hm pos
    obtain ⟨k, rfl⟩ : ∃ k, m = k + 1 := ⟨m - 1, by omega⟩
    obtain ⟨hp1, hp2⟩ := not_global_local_of_switch hop
    have hy : TableSource S E n l t sr ls :=
      ⟨hstart, la, ls, ht, hsr, by simp [Lexer.skipGlobalLocal, hp1, hp2]⟩
    have hx : TableSource S E n { tokens := A ++ g :: B, current := l.current } t sr ls := by
      refine ⟨?_, ma, { tokens := g :: B, current := ls.current }, ?_, hsr2, ?_⟩
      · rw [matchTokenKind_of_tokens hA hl rfl TokenIdent, matchTokenKind_of_tokens hA hl rfl "("]
        exact hstart
      · rw [pos_of_tokens hA hl rfl]
        exact ht2
      · have hgl : (({ tokens := g :: B, current := ls.current } : Lexer).matchKeyword
            KeywordGlobal || ({ tokens := g :: B, current := ls.current } : Lexer).matchKeyword
            KeywordLocal) = true := by
          simpa [Lexer.matchKeyword, Lexer.last, isKeyword] using hg
        simp only [Lexer.skipGlobalLocal, hgl, if_true, Lexer.consumeToken, List.tail_cons]
        rw [← hB]
    exact parseJoinExpr_congr S E (by omega) hx hy rfl
  | deeper l l1 l2 t sr hs hop _ ih =>
    obtain ⟨A2, b2, hA2, hl2, ih⟩ := ih
    obtain ⟨As, hAs, hls, hj⟩ := skipKeyword_step KeywordJoin hl2 hA2 (g :: B)
    obtain ⟨A1, hA1, hl1, hsw⟩ := local_step local_parseJoinOpSwitch hop hls hAs (g :: B)
    obtain ⟨A, hA, hl, hx⟩ := tableSource_step E hS hs hl1 hA1 (g :: B)
    refine ⟨A, max (n + 1) (b2 + 2), hA, hl, ?_⟩
    intro m hm pos
    obtain ⟨k, rfl⟩ : ∃ k, m = k + 2 := ⟨m - 2, by omega⟩
    refine parseJoinExpr_congr S E (by omega) hx hs (parseJoinOp_congr S E hsw hop ?_)
    rw [hj, pos_of_tokens hA2 hl2 rfl]
    exact ih k (by omega) _

end
section
variable {α : Type} (S : Scalar α) (E : Ends α)

/-- An insertion point right after a plain table identifier.  When the table source before the
join operator is an identifier read by the scalar layer, with no alias, `FINAL` or sample
ratio, the premise of `InsertionPoint.here` on the input with `g` inserted comes down to the
scalar layer alone: `parseTableIdentifier` returns the same identifier when `g` follows it. -/
theorem insertionPoint_of_identifier (n : Nat) (g : Token) (A B : List Token)
    (l ls l2 : Lexer) (T : TableIdentifier α)
    (hg : isKeyword g KeywordGlobal = true ∨ isKeyword g KeywordLocal = true)
    (hstart : l.matchTokenKind TokenIdent = true) (hl : l.tokens = A ++ B)
    (hT : S.parseTableIdentifier l.Pos l = Res.ok T ls) (hB : ls.tokens = B)
    (hT2 : S.parseTableIdentifier l.Pos { tokens := A ++ g :: B, current := l.current }
      = Res.ok T { tokens := g :: B, current := ls.current })
    (hop : parseJoinOpSwitch ls = Res.ok true l2) :
    InsertionPoint S E (n + 1) g B l := by
  have hA : A ≠ [] := by
    intro e
    subst e
    have e2 : ls = { tokens := l.tokens, current := ls.current } := by
      rw [hl, List.nil_append, ← hB]
    have hm : ls.matchTokenKind TokenIdent = l.matchTokenKind TokenIdent := by
      rw [e2]
      rfl
    rw [parseJoinOpSwitch_of_start (Or.inl (hm.trans hstart))] at hop
    simp at hop
  have hk : ∀ k, (∀ k2 ∈ [KeywordCross, KeywordAny, KeywordAll, KeywordSemi, KeywordAsof,
      KeywordInner, KeywordLeft, KeywordRight, KeywordFull], equalFold k k2 = false) →
      ls.matchKeyword k = false := by
    intro k hk
    cases hc : ls.matchKeyword k
    · rfl
    · rw [parseJoinOpSwitch_default hc hk] at hop
      simp at hop
  have hp : ls.matchTokenKind "(" = false := by
    cases hc : ls.matchTokenKind "("
    · rfl
    · rw [parseJoinOpSwitch_of_start (Or.inr hc)] at hop
      simp at hop
  have hgk : ({ tokens := g :: B, current := ls.current } : Lexer).matchKeyword KeywordGlobal
      = true ∨ ({ tokens := g :: B, current := ls.current } : Lexer).matchKeyword KeywordLocal
      = true := by
    simpa [Lexer.matchKeyword, Lexer.last, isKeyword] using hg
  have hk2 : ∀ k, equalFold KeywordGlobal k = false → equalFold KeywordLocal k = false →
      ({ tokens := g :: B, current := ls.current } : Lexer).matchKeyword k = false := by
    intro k e1 e2
    rcases hgk with h | h
    · exact Lexer.matchKeyword_excl h e1
    · exact Lexer.matchKeyword_excl h e2
  have hp2 : ({ tokens := g :: B, current := ls.current } : Lexer).matchTokenKind "("
      = false := by
    rcases hgk with h | h
    · exact Lexer.matchTokenKind_of_matchKeyword "(" h (by decide)
    · exact Lexer.matchTokenKind_of_matchKeyword "(" h (by decide)
  have hstart2 : ({ tokens := A ++ g :: B, current := l.current } : Lexer).matchTokenKind
      TokenIdent = true := by
    rw [matchTokenKind_of_tokens hA hl rfl TokenIdent]
    exact hstart
  have hpos : ({ tokens := A ++ g :: B, current := l.current } : Lexer).Pos = l.Pos :=
    pos_of_tokens hA hl rfl
  refine InsertionPoint.here l ls ls l2 { tokens := g :: B, current := ls.current } A
    (TableExpr.mk l.Pos (E.Expr (Expr.tableIdentifier T)) (Expr.tableIdentifier T)) none
    (Or.inl hstart) ?_ ?_ hB hop hl ?_ ?_
  · simp [parseTableExpr, bind_apply, pure_apply, matchTokenKind_apply, getPos_apply, hstart,
      hT, hp, tryConsumeKeyword_false (hk KeywordAs (by decide))]
  · simp only [Lexer.skipKeyword, hk KeywordFinal (by decide), Bool.false_eq_true, if_false]
    exact tryParseSampleRationExpr_none S (hk KeywordSample (by decide))
  · simp [parseTableExpr, bind_apply, pure_apply, matchTokenKind_apply, getPos_apply,
      hstart2, hpos, hT2, hp2,
      tryConsumeKeyword_false (hk2 KeywordAs (by decide) (by decide))]
  · simp only [Lexer.skipKeyword, hk2 KeywordFinal (by decide) (by decide),
      Bool.false_eq_true, if_false]
    exact tryParseSampleRationExpr_none S (hk2 KeywordSample (by decide) (by decide))

end

/-! ### The small scalar layer is local -/

theorem local_toy_one (kinds : List TokenKind) (what : String) :
    Local (Toy.one kinds what) := by
  refine ⟨fun l v l2 h => (safe_toy_one kinds what _ l (Nat.le_refl _)).2 v l2 h,
    fun A A1 B B2 c c1 v hne h => ?_⟩
  cases A with
  | nil =>
    exact absurd rfl
      (front_ne_nil ((safe_toy_one kinds what _ _ (Nat.le_refl _)).2 _ _ h) hne)
  | cons a A2 =>
    simp only [Toy.one, Lexer.last, Lexer.consumeToken, List.cons_append, List.head?_cons,
      List.tail_cons] at h ⊢
    split at h
    · rename_i hc
      simp only [Res.ok.injEq, Lexer.mk.injEq, List.append_left_inj] at h
      have hc2 : a.Kind ∈ kinds := by simpa using hc
      simp [hc2, h]
    · cases h

theorem splitAtParen_append :
    ∀ (A A1 B B2 a : List Token), A1 ≠ [] →
      Toy.splitAtParen (A ++ B) = some (a, A1 ++ B) →
      Toy.splitAtParen (A ++ B2) = some (a, A1 ++ B2) := by
  intro A
  induction A with
  | nil =>
    intro A1 B B2 a hne h
    have hs := splitAtParen_suffix _ _ _ h
    exact absurd rfl (front_ne_nil hs hne)
  | cons t A ih =>
    intro A1 B B2 a hne h
    rw [List.cons_append, Toy.splitAtParen] at h ⊢
    split at h
    · rename_i hc
      simp only [Option.some.injEq, Prod.mk.injEq, List.append_left_inj] at h
      simp [hc, h]
    · rename_i hc
      split at h
      · cases h
      · rename_i a2 b2 he
        simp only [Option.some.injEq, Prod.mk.injEq] at h
        obtain ⟨rfl, rfl⟩ := h
        rw [if_neg hc, ih A1 B B2 a2 hne he]

theorem local_toy_parseTableArgList : Local Toy.parseTableArgList := by
  refine ⟨fun l v l2 h => (safe_toy_parseTableArgList _ l (Nat.le_refl _)).2 v l2 h,
    fun A A1 B B2 c c1 v hne h => ?_⟩
  have hs := (safe_toy_parseTableArgList _ _ (Nat.le_refl _)).2 _ _ h
  cases A with
  | nil => exact absurd rfl (front_ne_nil hs hne)
  | cons a A2 =>
    unfold Toy.parseTableArgList at h ⊢
    simp only [Lexer.matchTokenKind, Lexer.last, List.cons_append, List.head?_cons] at h ⊢
    split at h
    · rename_i hc
      split at h
      · cases h
      · rename_i x y he
        simp only [Res.ok.injEq, Lexer.mk.injEq] at h
        obtain ⟨rfl, rfl, rfl⟩ := h
        rw [if_pos hc, ← List.cons_append, splitAtParen_append (a :: A2) A1 B B2 x hne he]
    · cases h

theorem local_toy_parseTableIdentifier : Local Toy.parseTableIdentifier := by
  obtain ⟨p1, p2, p3, p4, p5, p6, p7, p8, p9, p10, p11, p12, p13⟩ := local_prim
  have q := local_toy_one [TokenIdent] "identifier"
  unfold Toy.parseTableIdentifier Toy.parseIdent
  repeat' first
    | with_reducible refine local_bind ?_ (fun _ => ?_)
    | with_reducible apply_assumption
    | split

/-- The small scalar layer of the concrete runs is local. -/
theorem localScalar_toy : LocalScalar Toy.scalar where
  parseExpr := fun _ => local_toy_one _ _
  parseColumnExprList := fun _ => local_toy_one _ _
  parseColumnExprListWithRoundBracket := fun _ => local_toy_one _ _
  parseColumnsExpr := fun _ => local_toy_one _ _
  parseFunctionParams := fun _ => local_toy_parseTableArgList
  parseTableArgList := fun _ => local_toy_parseTableArgList
  parseTableIdentifier := fun _ => local_toy_parseTableIdentifier
  parseIdent := local_toy_one _ _
  parseNumber := fun _ => local_toy_one _ _
  parseFloat := fun _ => local_toy_one _ _
  tryParsePartitionByExpr := fun _ => local_pure none
  tryParseOrderByExprList := fun _ => local_pure none
  tryParseSettingsExprList := fun _ => local_pure none
/-! ## C1: LIMIT clause -/

/-- C1. After `LIMIT` and a first expression `x`: with a comma and a second expression `y` the
result has `Limit = y` and `Offset = x` (the swap); with `OFFSET y` it has `Limit = x` and
`Offset = y`, so `LIMIT a, b` and `LIMIT b OFFSET a` give the same pair; with neither, `Offset`
is absent and `Limit = x`.  The optional `BY` list is carried along in each case. -/
theorem parseLimitByExpr_swap {α : Type} (S : Scalar α) (pos : Pos) (l l1 : Lexer) (x : α)
    (hlimit : l.matchKeyword KeywordLimit = true)
    (hx : S.parseExpr l.consumeToken.Pos l.consumeToken = Res.ok x l1) :
    (∀ y l2 by_ l3, l1.matchKeyword KeywordOffset = false → l1.matchTokenKind "," = true →
      S.parseExpr l1.consumeToken.Pos l1.consumeToken = Res.ok y l2 → LimitByTail S l2 by_ l3 →
      parseLimitByExpr S pos l
        = Res.ok { LimitPos := pos, Limit := y, Offset := some x, ByExpr := by_ } l3) ∧
    (∀ y l2 by_ l3, l1.matchKeyword KeywordOffset = true →
      S.parseExpr l1.consumeToken.Pos l1.consumeToken = Res.ok y l2 → LimitByTail S l2 by_ l3 →
      parseLimitByExpr S pos l
        = Res.ok { LimitPos := pos, Limit := x, Offset := some y, ByExpr := by_ } l3) ∧
    (∀ by_ l3, l1.matchKeyword KeywordOffset = false → l1.matchTokenKind "," = false →
      LimitByTail S l1 by_ l3 →
      parseLimitByExpr S pos l
        = Res.ok { LimitPos := pos, Limit := x, Offset := none, ByExpr := by_ } l3) := by
  refine ⟨?_, ?_, ?_⟩
  · intro y l2 by_ l3 hoff hcomma hy hby
    rcases hby with ⟨hb, rfl, rfl⟩ | ⟨hb, c, rfl, hc⟩
    · simp [parseLimitByExpr, bind_apply, pure_apply, consumeKeyword_true hlimit,
        tryConsumeKeyword_false hoff, tryConsumeTokenKind_true hcomma,
        tryConsumeKeyword_false hb, getPos_apply, hx, hy]
    · simp [parseLimitByExpr, bind_apply, pure_apply, consumeKeyword_true hlimit,
        tryConsumeKeyword_false hoff, tryConsumeTokenKind_true hcomma,
        tryConsumeKeyword_true hb, getPos_apply, hx, hy, hc]
  · intro y l2 by_ l3 hoff hy hby
    rcases hby with ⟨hb, rfl, rfl⟩ | ⟨hb, c, rfl, hc⟩
    · simp [parseLimitByExpr, bind_apply, pure_apply, consumeKeyword_true hlimit,
        tryConsumeKeyword_true hoff, tryConsumeKeyword_false hb, getPos_apply, hx, hy]
    · simp [parseLimitByExpr, bind_apply, pure_apply, consumeKeyword_true hlimit,
        tryConsumeKeyword_true hoff, tryConsumeKeyword_true hb, getPos_apply, hx, hy, hc]
  · intro by_ l3 hoff hcomma hby
    rcases hby with ⟨hb, rfl, rfl⟩ | ⟨hb, c, rfl, hc⟩
    · simp [parseLimitByExpr, bind_apply, pure_apply, consumeKeyword_true hlimit,
        tryConsumeKeyword_false hoff, tryConsumeTokenKind_false hcomma,
        tryConsumeKeyword_false hb, getPos_apply, hx]
    · simp [parseLimitByExpr, bind_apply, pure_apply, consumeKeyword_true hlimit,
        tryConsumeKeyword_false hoff, tryConsumeTokenKind_false hcomma,
        tryConsumeKeyword_true hb, getPos_apply, hx, hc]

/-- Witness of C1 on `LIMIT 5, 10` and `LIMIT 10 OFFSET 5`: both give `Limit = 10` and
`Offset = 5`. -/
theorem parseLimitByExpr_swap_witness :
    parseLimitByExpr Toy.scalar 0 (Toy.lexer [Toy.kw "LIMIT" 0, Toy.int "5" 6, Toy.sym "," 7, Toy.int "10" 9])
      = Res.ok { LimitPos := 0, Limit := [Toy.int "10" 9], Offset := some [Toy.int "5" 6],
                 ByExpr := none } { tokens := [], current := 11 } ∧
    parseLimitByExpr Toy.scalar 0 (Toy.lexer [Toy.kw "LIMIT" 0, Toy.int "10" 6, Toy.kw "OFFSET" 9, Toy.int "5" 16])
      = Res.ok { LimitPos := 0, Limit := [Toy.int "10" 6], Offset := some [Toy.int "5" 16],
                 ByExpr := none } { tokens := [], current := 17 } :=
  ⟨(parseLimitByExpr_swap Toy.scalar 0
      (Toy.lexer [Toy.kw "LIMIT" 0, Toy.int "5" 6, Toy.sym "," 7, Toy.int "10" 9])
      { tokens := [Toy.sym "," 7, Toy.int "10" 9], current := 11 } [Toy.int "5" 6] (by decide) rfl).1
      [Toy.int "10" 9] { tokens := [], current := 11 } none { tokens := [], current := 11 }
      (by decide) (by decide) rfl (Or.inl ⟨by decide, rfl, rfl⟩),
   (parseLimitByExpr_swap Toy.scalar 0
      (Toy.lexer [Toy.kw "LIMIT" 0, Toy.int "10" 6, Toy.kw "OFFSET" 9, Toy.int "5" 16])
      { tokens := [Toy.kw "OFFSET" 9, Toy.int "5" 16], current := 17 } [Toy.int "10" 6] (by decide) rfl).2.1
      [Toy.int "5" 16] { tokens := [], current := 17 } none { tokens := [], current := 17 }
      (by decide) rfl (Or.inl ⟨by decide, rfl, rfl⟩)⟩

/-! ## C2: UNION ALL lists -/

section

variable {α : Type} (S : Scalar α) (E : Ends α)

/-- The union loop runs through a prefix of `UNION ALL`-terminated queries. -/
theorem parseSelectUnionExprListLoop_run {n : Nat} {pos : Pos} {l l2 : Lexer}
    {qs : List (SelectExpr α)} (h : UnionPrefix S E n pos l qs l2) :
    ∀ (m : Nat) (acc : List (SelectExpr α)), n ≤ m →
      parseSelectUnionExprListLoop S E (m + qs.length) pos acc l
        = parseSelectUnionExprListLoop S E m pos (acc ++ qs) l2 := by
  induction h with
  | nil l => intro m acc _; simp
  | cons l l1 l2 q qs hq hunion hall _ ih =>
    intro m acc hm
    have hq2 : parseSelectQuery S E (m + qs.length) pos l = Res.ok q l1 :=
      parseSelectQuery_fuel S E (by omega) hq
    have e : m + (q :: qs).length = (m + qs.length) + 1 := by simp; omega
    rw [e, parseSelectUnionExprListLoop]
    simp only [bind_apply, hq2, tryConsumeKeyword_true hunion, consumeKeyword_true hall]
    rw [ih m (acc ++ [q]) hm]
    simp

/-- Where every query stops right before its `UNION` (`UnionPrefix`): when the input is the
select queries `qs`, each followed by `UNION ALL`, and then one more select query `q`, then,
if no `UNION` follows `q`, `parseSelectUnionExprList` returns the list `qs ++ [q]`
(`qs.length + 1` items, in source order) for every sufficient fuel; if a `UNION` follows that
is not followed by `ALL`, it returns an error and no list. -/
theorem parseSelectUnionExprList_union_all (n : Nat) (pos : Pos) (l l1 l2 : Lexer)
    (qs : List (SelectExpr α)) (q : SelectExpr α)
    (hpre : UnionPrefix S E n pos l qs l1)
    (hq : parseSelectQuery S E n pos l1 = Res.ok q l2) :
    (l2.matchKeyword KeywordUnion = false →
      ∀ m, n + qs.length + 2 ≤ m →
        parseSelectUnionExprList S E m pos l = Res.ok (SelectExprList.mk (qs ++ [q])) l2) ∧
    (l2.matchKeyword KeywordUnion = true → l2.consumeToken.matchKeyword KeywordAll = false →
      ∀ m, n + qs.length + 2 ≤ m →
        parseSelectUnionExprList S E m pos l
          = Res.err ("expected keyword: " ++ KeywordAll ++ ", but got "
              ++ l2.consumeToken.lastTokenKind)) := by
  refine ⟨?_, ?_⟩
  · intro hu m hm
    obtain ⟨k, rfl⟩ : ∃ k, m = ((k + 1) + qs.length) + 1 := ⟨m - qs.length - 2, by omega⟩
    rw [parseSelectUnionExprList]
    simp only [bind_apply]
    rw [parseSelectUnionExprListLoop_run S E hpre (k + 1) [] (by omega),
      parseSelectUnionExprListLoop]
    simp only [bind_apply, pure_apply, List.nil_append,
      parseSelectQuery_fuel S E (by omega : n ≤ k) hq, tryConsumeKeyword_false hu]
  · intro hu ha m hm
    obtain ⟨k, rfl⟩ : ∃ k, m = ((k + 1) + qs.length) + 1 := ⟨m - qs.length - 2, by omega⟩
    rw [parseSelectUnionExprList]
    simp only [bind_apply]
    rw [parseSelectUnionExprListLoop_run S E hpre (k + 1) [] (by omega),
      parseSelectUnionExprListLoop]
    simp only [bind_apply, pure_apply, List.nil_append,
      parseSelectQuery_fuel S E (by omega : n ≤ k) hq, tryConsumeKeyword_true hu,
      consumeKeyword_false ha]

end

/-- On `SELECT 1 UNION ALL SELECT 2` the list has two items, and `SELECT 1 UNION SELECT 2` is
an error. -/
theorem parseSelectUnionExprList_union_all_witness :
    parseSelectUnionExprList Toy.scalar Toy.ends 6 0
        (Toy.lexer [Toy.kw "SELECT" 0, Toy.int "1" 7, Toy.kw "UNION" 9, Toy.kw "ALL" 15,
          Toy.kw "SELECT" 19, Toy.int "2" 26])
      = Res.ok (SelectExprList.mk
          [SelectExpr.mk none 0 8 none [Toy.int "1" 7] none none none none none none none none
             none none,
           SelectExpr.mk none 0 27 none [Toy.int "2" 26] none none none none none none none none
             none none])
          { tokens := [], current := 27 } ∧
    parseSelectUnionExprList Toy.scalar Toy.ends 5 0
        (Toy.lexer [Toy.kw "SELECT" 0, Toy.int "1" 7, Toy.kw "UNION" 9, Toy.kw "SELECT" 15,
          Toy.int "2" 22])
      = Res.err "expected keyword: ALL, but got <keyword>" :=
  ⟨(parseSelectUnionExprList_union_all Toy.scalar Toy.ends 3 0
      (Toy.lexer [Toy.kw "SELECT" 0, Toy.int "1" 7, Toy.kw "UNION" 9, Toy.kw "ALL" 15,
        Toy.kw "SELECT" 19, Toy.int "2" 26])
      { tokens := [Toy.kw "SELECT" 19, Toy.int "2" 26], current := 27 }
      { tokens := [], current := 27 }
      [SelectExpr.mk none 0 8 none [Toy.int "1" 7] none none none none none none none none
        none none]
      (SelectExpr.mk none 0 27 none [Toy.int "2" 26] none none none none none none none none
        none none)
      (UnionPrefix.cons _
        { tokens := [Toy.kw "UNION" 9, Toy.kw "ALL" 15, Toy.kw "SELECT" 19, Toy.int "2" 26],
          current := 27 } _ _ _ rfl (by decide) (by decide) (UnionPrefix.nil _))
      rfl).1 (by decide) 6 (by decide),
   (parseSelectUnionExprList_union_all Toy.scalar Toy.ends 3 0
      (Toy.lexer [Toy.kw "SELECT" 0, Toy.int "1" 7, Toy.kw "UNION" 9, Toy.kw "SELECT" 15,
        Toy.int "2" 22])
      (Toy.lexer [Toy.kw "SELECT" 0, Toy.int "1" 7, Toy.kw "UNION" 9, Toy.kw "SELECT" 15,
        Toy.int "2" 22])
      { tokens := [Toy.kw "UNION" 9, Toy.kw "SELECT" 15, Toy.int "2" 22], current := 23 }
      []
      (SelectExpr.mk none 0 8 none [Toy.int "1" 7] none none none none none none none none
        none none)
      (UnionPrefix.nil _) rfl).2 (by decide) (by decide) 5 (by decide)⟩

section

variable {α : Type} (S : Scalar α) (E : Ends α)

/-- C2.  On `SELECT cols FROM ( s1 ) UNION ALL q2`, two select queries separated by one
`UNION ALL`, `parseSelectUnionExprList` returns a list of one item, not two.  The table source
of the first query starts with `(`, and `parseTableExpr` hands it to `parseSelectUnionExprList`
itself: that inner call reads the parenthesised query `( s1 )` (`q1`), finds `UNION ALL` after
the closing parenthesis and reads the second query `q2` too, so both end up in the FROM clause
of the first query, and the outer list, which finds no `UNION` left, holds that query alone. -/
theorem parseSelectUnionExprList_subquery_union (n : Nat) (pos : Pos) (l l2 l3 l4 : Lexer)
    (w : Option (WithExpr α)) (top : Option (TopExpr α)) (cols : α) (q1 q2 : SelectExpr α)
    (hsel : l.matchKeyword KeywordSelect = true ∨ l.matchKeyword KeywordWith = true)
    (hhead : SelectHead S E n pos l w top cols l2)
    (hfrom : l2.matchKeyword KeywordFrom = true)
    (hparen : l2.consumeToken.matchTokenKind "(" = true)
    (hq1 : parseSelectQuery S E n l2.consumeToken.Pos l2.consumeToken = Res.ok q1 l3)
    (hunion : l3.matchKeyword KeywordUnion = true)
    (hall : l3.consumeToken.matchKeyword KeywordAll = true)
    (hq2 : parseSelectQuery S E n l2.consumeToken.Pos l3.consumeToken.consumeToken
      = Res.ok q2 l4)
    (hend : l4.tokens = []) (htail : NoOrderBySettings S l4) :
    ∀ m, n + 12 ≤ m →
      parseSelectUnionExprList S E m pos l
        = Res.ok (SelectExprList.mk
            [SelectExpr.mk w pos
              (E.FromExpr (FromExpr.mk l2.Pos (Expr.table (TableExpr.mk l2.consumeToken.Pos
                (E.Expr (Expr.selectList (SelectExprList.mk [q1, q2])))
                (Expr.selectList (SelectExprList.mk [q1, q2]))))))
              top cols
              (some (FromExpr.mk l2.Pos (Expr.table (TableExpr.mk l2.consumeToken.Pos
                (E.Expr (Expr.selectList (SelectExprList.mk [q1, q2])))
                (Expr.selectList (SelectExprList.mk [q1, q2]))))))
              none none none none none none none none none]) l4 := by
  intro m hm
  have hk := matchKeyword_of_tokens_nil hend
  obtain ⟨hob, hst⟩ := htail
  have hinner : parseSelectUnionExprList S E (n + 3) l2.consumeToken.Pos l2.consumeToken
      = Res.ok (SelectExprList.mk [q1, q2]) l4 := by
    have e : parseSelectUnionExprListLoop S E (n + 2) l2.consumeToken.Pos [] l2.consumeToken
        = parseSelectUnionExprListLoop S E (n + 1) l2.consumeToken.Pos [q1]
            l3.consumeToken.consumeToken :=
      parseSelectUnionExprListLoop_run S E
        (UnionPrefix.cons _ _ _ _ _ hq1 hunion hall (UnionPrefix.nil _)) (n + 1) []
        (Nat.le_succ n)
    rw [parseSelectUnionExprList]
    simp only [bind_apply]
    rw [e, parseSelectUnionExprListLoop]
    simp [bind_apply, pure_apply, hq2, tryConsumeKeyword_false (hk KeywordUnion)]
  obtain ⟨t, ht0⟩ : ∃ t, t = TableExpr.mk l2.consumeToken.Pos
      (E.Expr (Expr.selectList (SelectExprList.mk [q1, q2])))
      (Expr.selectList (SelectExprList.mk [q1, q2])) := ⟨_, rfl⟩
  rw [← ht0]
  have ht : TableSource S E (n + 4) l2.consumeToken t none l4 :=
    ⟨Or.inr hparen, l4, l4, ht0 ▸ parseTableExpr_subquery S E hparen hinner (hk KeywordAs), by
      simp only [Lexer.skipKeyword, hk KeywordFinal, Bool.false_eq_true, if_false]
      exact tryParseSampleRationExpr_none S (hk KeywordSample), by
      simp [Lexer.skipGlobalLocal, hk KeywordGlobal, hk KeywordLocal]⟩
  have hj : parseJoinExpr S E (n + 6) l2.consumeToken.Pos l2.consumeToken
      = Res.ok (Expr.table t) l4 :=
    parseJoinExpr_no_op S E (Nat.le_succ (n + 4)) ht
      (parseJoinOp_none S E (parseJoinOpSwitch_of_tokens_nil hend))
  have hf : tryParseFromExpr S E (n + 8) l2.Pos l2
      = Res.ok (some (FromExpr.mk l2.Pos (Expr.table t))) l4 := by
    simp [tryParseFromExpr, parseFromExpr, bind_apply, pure_apply, matchKeyword_apply, hfrom,
      consumeKeyword_true hfrom, getPos_apply, hj]
  have hs := parseSelectStatement_run S E (by omega : n ≤ n + 8) hhead hf
    (tryParseArrayJoin_none S (hk _) (hk _) (hk _)) (tryParseWindowExpr_none S (hk _))
    (tryParsePrewhereExpr_none S (hk _)) (tryParseWhereExpr_none S (hk _))
    (tryParseGroupByExpr_none S (hk _)) (tryParseHavingExpr_none S (hk _)) hob
    (tryParseLimitByExpr_none S (hk _)) hst
  have hq : parseSelectQuery S E (n + 10) pos l
      = Res.ok (SelectExpr.mk w pos (E.FromExpr (FromExpr.mk l2.Pos (Expr.table t))) top cols
          (some (FromExpr.mk l2.Pos (Expr.table t))) none none none none none none none none
          none) l4 := by
    rw [parseSelectQuery]
    simp only [bind_apply, pure_apply, matchKeyword_apply, Bool.or_eq_true, hsel, if_true]
    simpa using hs
  obtain ⟨k, rfl⟩ : ∃ k, m = k + 2 := ⟨m - 2, by omega⟩
  rw [parseSelectUnionExprList, bind_apply, parseSelectUnionExprListLoop]
  simp [bind_apply, pure_apply, parseSelectQuery_fuel S E (by omega : n + 10 ≤ k) hq,
    tryConsumeKeyword_false (hk KeywordUnion)]

end

/-- Witness of C2 on `SELECT a FROM ( SELECT 1 ) UNION ALL SELECT 2`: the list has one item,
the statement that starts at offset 0, and `SELECT 1` and `SELECT 2` are the two items of
the list in its FROM clause; no token is left. -/
theorem parseSelectUnionExprList_subquery_union_witness :
    parseSelectUnionExprList Toy.scalar Toy.ends 16 0
        (Toy.lexer [Toy.kw "SELECT" 0, Toy.ident "a" 7, Toy.kw "FROM" 9, Toy.sym "(" 14,
          Toy.kw "SELECT" 16, Toy.int "1" 23, Toy.sym ")" 25, Toy.kw "UNION" 27,
          Toy.kw "ALL" 33, Toy.kw "SELECT" 37, Toy.int "2" 44])
      = Res.ok (SelectExprList.mk
          [SelectExpr.mk none 0 45 none [Toy.ident "a" 7]
            (some (FromExpr.mk 9 (Expr.table (TableExpr.mk 14 45
              (Expr.selectList (SelectExprList.mk
                [SelectExpr.mk none 16 24 none [Toy.int "1" 23] none none none none none none
                   none none none none,
                 SelectExpr.mk none 14 45 none [Toy.int "2" 44] none none none none none none
                   none none none none]))))))
            none none none none none none none none none])
          { tokens := [], current := 45 } :=
  parseSelectUnionExprList_subquery_union Toy.scalar Toy.ends 4 0
    (Toy.lexer [Toy.kw "SELECT" 0, Toy.ident "a" 7, Toy.kw "FROM" 9, Toy.sym "(" 14,
          Toy.kw "SELECT" 16, Toy.int "1" 23, Toy.sym ")" 25, Toy.kw "UNION" 27,
          Toy.kw "ALL" 33, Toy.kw "SELECT" 37, Toy.int "2" 44])
    { tokens := [Toy.kw "FROM" 9, Toy.sym "(" 14, Toy.kw "SELECT" 16, Toy.int "1" 23,
        Toy.sym ")" 25, Toy.kw "UNION" 27, Toy.kw "ALL" 33, Toy.kw "SELECT" 37,
        Toy.int "2" 44], current := 45 }
    { tokens := [Toy.kw "UNION" 27, Toy.kw "ALL" 33, Toy.kw "SELECT" 37, Toy.int "2" 44],
      current := 45 }
    { tokens := [], current := 45 } none none [Toy.ident "a" 7]
    (SelectExpr.mk none 16 24 none [Toy.int "1" 23] none none none none none none none none
      none none)
    (SelectExpr.mk none 14 45 none [Toy.int "2" 44] none none none none none none none none
      none none)
    (Or.inl (by decide)) ⟨_, _, rfl, by decide, rfl, rfl⟩ (by decide) (by decide) rfl
    (by decide) (by decide) rfl rfl ⟨rfl, rfl⟩ 16 (by decide)

/-! ## C3: bare JOIN -/

section

variable {α : Type} (S : Scalar α) (E : Ends α)

/-- C3. With the bare keyword `JOIN` after the first table, `parseFromExpr` returns that table
alone and leaves the cursor on `JOIN`: no `JoinExpr` is built and the rest of the chain is not
consumed. -/
theorem parseFromExpr_bare_join (n : Nat) (pos : Pos) (l l1 : Lexer) (t : TableExpr α)
    (hfrom : l.matchKeyword KeywordFrom = true)
    (hstart : l.consumeToken.matchTokenKind TokenIdent = true
      ∨ l.consumeToken.matchTokenKind "(" = true)
    (ht : parseTableExpr S E n l.consumeToken.Pos l.consumeToken = Res.ok t l1)
    (hjoin : l1.matchKeyword KeywordJoin = true) :
    ∀ m, n + 3 ≤ m →
      parseFromExpr S E m pos l = Res.ok (FromExpr.mk pos (Expr.table t)) l1 := by
  intro m hm
  obtain ⟨k, rfl⟩ : ∃ k, m = k + 3 := ⟨m - 3, by omega⟩
  have e : ∀ k, equalFold KeywordJoin k = false → l1.matchKeyword k = false :=
    fun k hk => Lexer.matchKeyword_excl hjoin hk
  simp [parseFromExpr, parseJoinExpr, parseJoinOp, bind_apply, pure_apply,
    consumeKeyword_true hfrom, getPos_apply, matchTokenKind_apply, hstart,
    parseTableExpr_fuel S E (by omega : n ≤ k + 1) ht,
    tryConsumeKeyword_false (e KeywordFinal (by decide)), tryParseSampleRationExpr,
    matchKeyword_apply, e KeywordSample (by decide), e KeywordGlobal (by decide),
    e KeywordLocal (by decide), parseJoinOpSwitch_join hjoin]

end

/-- Witness of C3 on `FROM a JOIN b JOIN c`: the result is the table `a` alone and
`JOIN b JOIN c` is left unconsumed. -/
theorem parseFromExpr_bare_join_witness :
    parseFromExpr Toy.scalar Toy.ends 5 0
        (Toy.lexer [Toy.kw "FROM" 0, Toy.ident "a" 5, Toy.kw "JOIN" 7, Toy.ident "b" 12,
          Toy.kw "JOIN" 14, Toy.ident "c" 19])
      = Res.ok (FromExpr.mk 0 (Expr.table (TableExpr.mk 5 6
          (Expr.tableIdentifier { Database := none, Table := [Toy.ident "a" 5] }))))
          { tokens := [Toy.kw "JOIN" 7, Toy.ident "b" 12, Toy.kw "JOIN" 14, Toy.ident "c" 19],
            current := 20 } :=
  parseFromExpr_bare_join Toy.scalar Toy.ends 1 0
    (Toy.lexer [Toy.kw "FROM" 0, Toy.ident "a" 5, Toy.kw "JOIN" 7, Toy.ident "b" 12,
      Toy.kw "JOIN" 14, Toy.ident "c" 19])
    { tokens := [Toy.kw "JOIN" 7, Toy.ident "b" 12, Toy.kw "JOIN" 14, Toy.ident "c" 19],
      current := 20 }
    (TableExpr.mk 5 6 (Expr.tableIdentifier { Database := none, Table := [Toy.ident "a" 5] }))
    (by decide) (Or.inl (by decide)) rfl (by decide) 5 (by decide)

/-! ## C4: LEFT and RIGHT joins -/

section

variable {α : Type} (S : Scalar α) (E : Ends α)

/-- C4. When the table source `t` is followed by `LEFT` or `RIGHT`, whatever comes after,
`parseJoinExpr` fails: `parseJoinOp` does not consume the keyword, and the right-hand
`parseJoinExpr` rejects it as "expected table name or subquery". -/
theorem parseJoinExpr_left_right (n : Nat) (pos : Pos) (l l1 : Lexer) (t : TableExpr α)
    (hstart : l.matchTokenKind TokenIdent = true ∨ l.matchTokenKind "(" = true)
    (ht : parseTableExpr S E n l.Pos l = Res.ok t l1)
    (hlr : l1.matchKeyword KeywordLeft = true ∨ l1.matchKeyword KeywordRight = true) :
    ∀ m, n + 3 ≤ m →
      parseJoinExpr S E m pos l
        = Res.err ("expected table name or subquery, got " ++ TokenKeyword) := by
  intro m hm
  obtain ⟨k, rfl⟩ : ∃ k, m = k + 3 := ⟨m - 3, by omega⟩
  have hsw := parseJoinOpSwitch_left_right hlr
  have hex : ∀ k2, equalFold KeywordLeft k2 = false → equalFold KeywordRight k2 = false →
      l1.matchKeyword k2 = false := by
    intro k2 h1 h2
    rcases hlr with h | h
    · exact Lexer.matchKeyword_excl h h1
    · exact Lexer.matchKeyword_excl h h2
  have hkind : ∀ kind, (TokenKeyword == kind) = false → l1.matchTokenKind kind = false := by
    intro kind hk
    rcases hlr with h | h <;> exact Lexer.matchTokenKind_of_matchKeyword kind h hk
  have hlast : l1.lastTokenKind = TokenKeyword := by
    rcases hlr with h | h <;> exact Lexer.lastTokenKind_of_matchKeyword h
  simp [parseJoinExpr, parseJoinOp, bind_apply, pure_apply, fail_apply, getPos_apply,
    matchTokenKind_apply, hstart, parseTableExpr_fuel S E (by omega : n ≤ k + 2) ht,
    tryConsumeKeyword_false (hex KeywordFinal (by decide) (by decide)),
    tryParseSampleRationExpr, matchKeyword_apply,
    hex KeywordSample (by decide) (by decide), hex KeywordGlobal (by decide) (by decide),
    hex KeywordLocal (by decide) (by decide), hsw,
    tryConsumeKeyword_false (hex KeywordJoin (by decide) (by decide)),
    hkind TokenIdent (by decide), hkind "(" (by decide), lastTokenKind_apply, hlast]

end

/-- Witness of C4 on `a LEFT JOIN b`. -/
theorem parseJoinExpr_left_right_witness :
    parseJoinExpr Toy.scalar Toy.ends 4 0
        (Toy.lexer [Toy.ident "a" 0, Toy.kw "LEFT" 2, Toy.kw "JOIN" 7, Toy.ident "b" 12])
      = Res.err "expected table name or subquery, got <keyword>" :=
  parseJoinExpr_left_right Toy.scalar Toy.ends 1 0
    (Toy.lexer [Toy.ident "a" 0, Toy.kw "LEFT" 2, Toy.kw "JOIN" 7, Toy.ident "b" 12])
    { tokens := [Toy.kw "LEFT" 2, Toy.kw "JOIN" 7, Toy.ident "b" 12], current := 13 }
    (TableExpr.mk 0 1 (Expr.tableIdentifier { Database := none, Table := [Toy.ident "a" 0] }))
    (Or.inl (by decide)) rfl (Or.inl (by decide)) 4 (by decide)

/-! ## C5: chains of joins without constraints -/

section

variable {α : Type} (S : Scalar α) (E : Ends α)

/-- The first table of a chain starts where the chain starts. -/
theorem JoinChain.head_pos {n : Nat} {l l2 : Lexer}
    {t : TableExpr α × Option (SampleRatioExpr α)}
    {rest : List (TableExpr α × Option (SampleRatioExpr α))}
    (h : JoinChain S E n l (t :: rest) l2) : t.1.TablePos = l.Pos := by
  cases h with
  | single _ _ _ _ ht _ =>
    obtain ⟨_, _, _, hta, _⟩ := ht
    exact parseTableExpr_TablePos S E hta
  | cons _ _ _ _ _ _ _ ht _ _ =>
    obtain ⟨_, _, _, hta, _⟩ := ht
    exact parseTableExpr_TablePos S E hta

theorem parseJoinExpr_chain_aux (n : Nat) (l l2 : Lexer)
    (ts : List (TableExpr α × Option (SampleRatioExpr α)))
    (hchain : JoinChain S E n l ts l2)
    (hon : l2.matchKeyword KeywordOn = false) (husing : l2.matchKeyword KeywordUsing = false) :
    ∃ t rest, ts = t :: rest ∧ (joinTree l.Pos t rest).joinCount + 1 = ts.length ∧
      ∀ pos m, n + 2 * ts.length ≤ m →
        parseJoinExpr S E m pos l = Res.ok (joinTree pos t rest) l2 := by
  induction hchain with
  | single l l1 t sr ht hop =>
    refine ⟨(t, sr), [], rfl, by simp [joinCount_joinTree], ?_⟩
    intro pos m hm
    obtain ⟨k, rfl⟩ : ∃ k, m = (k + 1) + 1 := ⟨m - 2, by simp at hm; omega⟩
    simp only [List.length_singleton] at hm
    exact parseJoinExpr_no_op S E (by omega) ht (parseJoinOp_none S E hop)
  | cons l l1 la l3 t sr ts ht hop hrest ih =>
    obtain ⟨t2, rest, rfl, _, ih⟩ := ih hon husing
    refine ⟨(t, sr), t2 :: rest, rfl, by simp [joinCount_joinTree], ?_⟩
    intro pos m hm
    simp only [List.length_cons] at hm
    obtain ⟨k, rfl⟩ : ∃ k, m = (k + 1) + 1 := ⟨m - 2, by omega⟩
    have hr := ih (la.skipKeyword KeywordJoin).Pos k (by simp only [List.length_cons]; omega)
    have hpos : t2.1.TablePos = (la.skipKeyword KeywordJoin).Pos :=
      JoinChain.head_pos S E hrest
    rw [joinTree, hpos]
    exact parseJoinExpr_op S E (by omega) ht (parseJoinOp_some S E hop hr)
      (tryParseJoinConstraints_none S hon husing)

/-- C5. A chain of `N` table sources separated by join operators that `parseJoinOp`
recognises, with no ON or USING after the last one, parses to the right-nested join tree: the
first table alone when `N = 1`, and otherwise `JoinExpr{Left = t1, Right = R}` with `R` the
tree of `t2..tN`; the tree has `N - 1` `JoinExpr` nodes along `Right`. -/
theorem parseJoinExpr_chain (n : Nat) (l l2 : Lexer)
    (t : TableExpr α × Option (SampleRatioExpr α))
    (rest : List (TableExpr α × Option (SampleRatioExpr α)))
    (hchain : JoinChain S E n l (t :: rest) l2)
    (hon : l2.matchKeyword KeywordOn = false) (husing : l2.matchKeyword KeywordUsing = false) :
    ∀ pos m, n + 2 * (rest.length + 1) ≤ m →
      parseJoinExpr S E m pos l = Res.ok (joinTree pos t rest) l2 ∧
      (joinTree pos t rest).joinCount = rest.length := by
  obtain ⟨t2, rest2, h, _, hp⟩ := parseJoinExpr_chain_aux S E n l l2 _ hchain hon husing
  cases h
  intro pos m hm
  exact ⟨hp pos m (by simpa using hm), joinCount_joinTree pos t rest⟩

end

/-- Witness of C5 on `a INNER JOIN b CROSS JOIN c`: two nested `JoinExpr` nodes. -/
theorem parseJoinExpr_chain_witness :
    parseJoinExpr Toy.scalar Toy.ends 7 0
        (Toy.lexer [Toy.ident "a" 0, Toy.kw "INNER" 2, Toy.kw "JOIN" 8, Toy.ident "b" 13,
          Toy.kw "CROSS" 15, Toy.kw "JOIN" 21, Toy.ident "c" 26])
      = Res.ok
          (Expr.join 0
            (Expr.table (TableExpr.mk 0 1
              (Expr.tableIdentifier { Database := none, Table := [Toy.ident "a" 0] })))
            (Expr.join 13
              (Expr.table (TableExpr.mk 13 14
                (Expr.tableIdentifier { Database := none, Table := [Toy.ident "b" 13] })))
              (Expr.table (TableExpr.mk 26 27
                (Expr.tableIdentifier { Database := none, Table := [Toy.ident "c" 26] })))
              none none)
            none none)
          { tokens := [], current := 27 } ∧
    Expr.joinCount
        (Expr.join 0
          (Expr.table (TableExpr.mk 0 1
            (Expr.tableIdentifier { Database := none, Table := [Toy.ident "a" 0] })))
          (Expr.join 13
            (Expr.table (TableExpr.mk 13 14
              (Expr.tableIdentifier { Database := none, Table := [Toy.ident "b" 13] })))
            (Expr.table (TableExpr.mk 26 27
              (Expr.tableIdentifier { Database := none, Table := [Toy.ident "c" 26] })))
            none none)
          none none) = 2 :=
  parseJoinExpr_chain Toy.scalar Toy.ends 1
    (Toy.lexer [Toy.ident "a" 0, Toy.kw "INNER" 2, Toy.kw "JOIN" 8, Toy.ident "b" 13,
      Toy.kw "CROSS" 15, Toy.kw "JOIN" 21, Toy.ident "c" 26])
    { tokens := [], current := 27 }
    (TableExpr.mk 0 1 (Expr.tableIdentifier { Database := none, Table := [Toy.ident "a" 0] }),
      none)
    [(TableExpr.mk 13 14
        (Expr.tableIdentifier { Database := none, Table := [Toy.ident "b" 13] }), none),
     (TableExpr.mk 26 27
        (Expr.tableIdentifier { Database := none, Table := [Toy.ident "c" 26] }), none)]
    (JoinChain.cons _
      { tokens := [Toy.kw "INNER" 2, Toy.kw "JOIN" 8, Toy.ident "b" 13, Toy.kw "CROSS" 15,
          Toy.kw "JOIN" 21, Toy.ident "c" 26], current := 27 }
      { tokens := [Toy.kw "JOIN" 8, Toy.ident "b" 13, Toy.kw "CROSS" 15, Toy.kw "JOIN" 21,
          Toy.ident "c" 26], current := 27 }
      _ _ _ _ ⟨Or.inl (by decide), _, _, rfl, rfl, rfl⟩ rfl
      (JoinChain.cons _
        { tokens := [Toy.kw "CROSS" 15, Toy.kw "JOIN" 21, Toy.ident "c" 26], current := 27 }
        { tokens := [Toy.ident "c" 26], current := 27 }
        _ _ _ _ ⟨Or.inl (by decide), _, _, rfl, rfl, rfl⟩ rfl
        (JoinChain.single _ { tokens := [], current := 27 } _ _
          ⟨Or.inl (by decide), _, _, rfl, rfl, rfl⟩ rfl)))
    (by decide) (by decide) 0 7 (by decide)

/-! ## C6: chains of joins with constraints -/

section

variable {α : Type} (S : Scalar α) (E : Ends α)

/-- C6. In `FROM t1 <op> t2 ON c1 ...` the join of `t1` and `t2` takes the constraint `c1` and
`parseFromExpr` returns there: the result is the single `JoinExpr{Left = t1, Right = t2,
Constraints = ON c1}` and the cursor is left right after `c1`, whatever follows (a further
`INNER JOIN t3 ON c2` is not consumed). -/
theorem parseFromExpr_constrained_chain (n : Nat) (pos : Pos) (l l1 la l2 l3 : Lexer)
    (t1 t2 : TableExpr α) (sr1 sr2 : Option (SampleRatioExpr α)) (c1 : α)
    (hfrom : l.matchKeyword KeywordFrom = true)
    (ht1 : TableSource S E n l.consumeToken t1 sr1 l1)
    (hop : parseJoinOpSwitch l1 = Res.ok true la)
    (ht2 : TableSource S E n (la.skipKeyword KeywordJoin) t2 sr2 l2)
    (hon : l2.matchKeyword KeywordOn = true)
    (hc1 : S.parseColumnExprListWithRoundBracket l2.consumeToken.Pos l2.consumeToken
      = Res.ok c1 l3) :
    ∀ m, n + 5 ≤ m →
      parseFromExpr S E m pos l
        = Res.ok (FromExpr.mk pos (Expr.join l.consumeToken.Pos (Expr.table t1) (Expr.table t2)
            sr1 (some (JoinConstraints.OnExpr l2.Pos c1)))) l3 := by
  intro m hm
  obtain ⟨k, rfl⟩ : ∃ k, m = k + 5 := ⟨m - 5, by omega⟩
  have h2 : parseJoinExpr S E (k + 2) (la.skipKeyword KeywordJoin).Pos
      (la.skipKeyword KeywordJoin) = Res.ok (Expr.table t2) l2 :=
    parseJoinExpr_no_op S E (by omega) ht2
      (parseJoinOp_none S E (parseJoinOpSwitch_default hon (by decide)))
  have h1 : parseJoinExpr S E (k + 4) l.consumeToken.Pos l.consumeToken
      = Res.ok (Expr.join l.consumeToken.Pos (Expr.table t1) (Expr.table t2) sr1
          (some (JoinConstraints.OnExpr l2.Pos c1))) l3 :=
    parseJoinExpr_op S E (by omega) ht1 (parseJoinOp_some S E hop h2)
      (tryParseJoinConstraints_on S hon hc1)
  simp [parseFromExpr, bind_apply, pure_apply, consumeKeyword_true hfrom, getPos_apply, h1]

end

/-- Witness of C6 on `FROM t1 INNER JOIN t2 ON c1 INNER JOIN t3 ON c2`: one `JoinExpr`, and
`INNER JOIN t3 ON c2` is left unconsumed. -/
theorem parseFromExpr_constrained_chain_witness :
    parseFromExpr Toy.scalar Toy.ends 6 0
        (Toy.lexer [Toy.kw "FROM" 0, Toy.ident "t1" 5, Toy.kw "INNER" 8, Toy.kw "JOIN" 14,
          Toy.ident "t2" 19, Toy.kw "ON" 22, Toy.ident "c1" 25, Toy.kw "INNER" 28,
          Toy.kw "JOIN" 34, Toy.ident "t3" 39, Toy.kw "ON" 42, Toy.ident "c2" 45])
      = Res.ok (FromExpr.mk 0 (Expr.join 5
          (Expr.table (TableExpr.mk 5 7
            (Expr.tableIdentifier { Database := none, Table := [Toy.ident "t1" 5] })))
          (Expr.table (TableExpr.mk 19 21
            (Expr.tableIdentifier { Database := none, Table := [Toy.ident "t2" 19] })))
          none (some (JoinConstraints.OnExpr 22 [Toy.ident "c1" 25]))))
          { tokens := [Toy.kw "INNER" 28, Toy.kw "JOIN" 34, Toy.ident "t3" 39, Toy.kw "ON" 42,
              Toy.ident "c2" 45], current := 47 } :=
  parseFromExpr_constrained_chain Toy.scalar Toy.ends 1 0
    (Toy.lexer [Toy.kw "FROM" 0, Toy.ident "t1" 5, Toy.kw "INNER" 8, Toy.kw "JOIN" 14,
      Toy.ident "t2" 19, Toy.kw "ON" 22, Toy.ident "c1" 25, Toy.kw "INNER" 28,
      Toy.kw "JOIN" 34, Toy.ident "t3" 39, Toy.kw "ON" 42, Toy.ident "c2" 45])
    { tokens := [Toy.kw "INNER" 8, Toy.kw "JOIN" 14, Toy.ident "t2" 19, Toy.kw "ON" 22,
        Toy.ident "c1" 25, Toy.kw "INNER" 28, Toy.kw "JOIN" 34, Toy.ident "t3" 39,
        Toy.kw "ON" 42, Toy.ident "c2" 45], current := 47 }
    { tokens := [Toy.kw "JOIN" 14, Toy.ident "t2" 19, Toy.kw "ON" 22, Toy.ident "c1" 25,
        Toy.kw "INNER" 28, Toy.kw "JOIN" 34, Toy.ident "t3" 39, Toy.kw "ON" 42,
        Toy.ident "c2" 45], current := 47 }
    { tokens := [Toy.kw "ON" 22, Toy.ident "c1" 25, Toy.kw "INNER" 28, Toy.kw "JOIN" 34,
        Toy.ident "t3" 39, Toy.kw "ON" 42, Toy.ident "c2" 45], current := 47 }
    { tokens := [Toy.kw "INNER" 28, Toy.kw "JOIN" 34, Toy.ident "t3" 39, Toy.kw "ON" 42,
        Toy.ident "c2" 45], current := 47 }
    (TableExpr.mk 5 7 (Expr.tableIdentifier { Database := none, Table := [Toy.ident "t1" 5] }))
    (TableExpr.mk 19 21
      (Expr.tableIdentifier { Database := none, Table := [Toy.ident "t2" 19] }))
    none none [Toy.ident "c1" 25]
    (by decide) ⟨Or.inl (by decide), _, _, rfl, rfl, rfl⟩ rfl
    ⟨Or.inl (by decide), _, _, rfl, rfl, rfl⟩ (by decide) rfl 6 (by decide)

/-! ## C7: table references and table functions -/

section

variable {α : Type} (S : Scalar α) (E : Ends α)

/-- C7. When the cursor is on an identifier and `parseTableIdentifier` returns `T`: if `T` has
a database qualifier or the next token is not `(`, the table source is `T` itself; otherwise
it is the `TableFunctionExpr` with `Name = T.Table` and `Args` the result of
`parseTableArgList`.  The `TableExpr` holds that node, inside an `AliasExpr` when `AS <ident>`
follows. -/
theorem parseTableExpr_ident (n : Nat) (pos : Pos) (l l1 : Lexer) (T : TableIdentifier α)
    (hident : l.matchTokenKind TokenIdent = true)
    (hT : S.parseTableIdentifier l.Pos l = Res.ok T l1) :
    (∀ e2 l3, (T.Database.isSome = true ∨ l1.matchTokenKind "(" = false) →
      AliasTail S l1 (Expr.tableIdentifier T) e2 l3 →
      parseTableExpr S E (n + 1) pos l = Res.ok (TableExpr.mk pos (E.Expr e2) e2) l3) ∧
    (∀ args l2 e2 l3, T.Database = none → l1.matchTokenKind "(" = true →
      S.parseTableArgList l1.Pos l1 = Res.ok args l2 →
      AliasTail S l2 (Expr.tableFunction { Name := T.Table, Args := args }) e2 l3 →
      parseTableExpr S E (n + 1) pos l = Res.ok (TableExpr.mk pos (E.Expr e2) e2) l3) := by
  refine ⟨?_, ?_⟩
  · intro e2 l3 hplain htail
    rcases htail with ⟨has, rfl, rfl⟩ | ⟨has, a, ha, rfl⟩
    · simp [parseTableExpr, bind_apply, pure_apply, matchTokenKind_apply, hident, getPos_apply,
        hT, hplain, tryConsumeKeyword_false has]
    · simp [parseTableExpr, bind_apply, pure_apply, matchTokenKind_apply, hident, getPos_apply,
        hT, hplain, tryConsumeKeyword_true has, ha]
  · intro args l2 e2 l3 hdb hparen hargs htail
    rcases htail with ⟨has, rfl, rfl⟩ | ⟨has, a, ha, rfl⟩
    · simp [parseTableExpr, bind_apply, pure_apply, matchTokenKind_apply, hident, getPos_apply,
        hT, hdb, hparen, hargs, tryConsumeKeyword_false has]
    · simp [parseTableExpr, bind_apply, pure_apply, matchTokenKind_apply, hident, getPos_apply,
        hT, hdb, hparen, hargs, tryConsumeKeyword_true has, ha]

end

/-- Witness of C7: `db.t` and `t` are table references, `t(1,2)` is a table function named
`t` whose arguments are the parsed argument list. -/
theorem parseTableExpr_ident_witness :
    parseTableExpr Toy.scalar Toy.ends 1 0
        (Toy.lexer [Toy.ident "db" 0, Toy.sym "." 2, Toy.ident "t" 3])
      = Res.ok (TableExpr.mk 0 4 (Expr.tableIdentifier
          { Database := some [Toy.ident "db" 0], Table := [Toy.ident "t" 3] }))
          { tokens := [], current := 4 } ∧
    parseTableExpr Toy.scalar Toy.ends 1 0 (Toy.lexer [Toy.ident "t" 0])
      = Res.ok (TableExpr.mk 0 1 (Expr.tableIdentifier
          { Database := none, Table := [Toy.ident "t" 0] }))
          { tokens := [], current := 1 } ∧
    parseTableExpr Toy.scalar Toy.ends 1 0
        (Toy.lexer [Toy.ident "t" 0, Toy.sym "(" 1, Toy.int "1" 2, Toy.sym "," 3, Toy.int "2" 4,
          Toy.sym ")" 5])
      = Res.ok (TableExpr.mk 0 6 (Expr.tableFunction
          { Name := [Toy.ident "t" 0],
            Args := [Toy.sym "(" 1, Toy.int "1" 2, Toy.sym "," 3, Toy.int "2" 4,
              Toy.sym ")" 5] }))
          { tokens := [], current := 6 } :=
  ⟨(parseTableExpr_ident Toy.scalar Toy.ends 0 0
      (Toy.lexer [Toy.ident "db" 0, Toy.sym "." 2, Toy.ident "t" 3])
      { tokens := [], current := 4 }
      { Database := some [Toy.ident "db" 0], Table := [Toy.ident "t" 3] }
      (by decide) rfl).1 _ _ (Or.inl rfl) (Or.inl ⟨by decide, rfl, rfl⟩),
   (parseTableExpr_ident Toy.scalar Toy.ends 0 0 (Toy.lexer [Toy.ident "t" 0])
      { tokens := [], current := 1 } { Database := none, Table := [Toy.ident "t" 0] }
      (by decide) rfl).1 _ _ (Or.inr (by decide)) (Or.inl ⟨by decide, rfl, rfl⟩),
   (parseTableExpr_ident Toy.scalar Toy.ends 0 0
      (Toy.lexer [Toy.ident "t" 0, Toy.sym "(" 1, Toy.int "1" 2, Toy.sym "," 3, Toy.int "2" 4,
        Toy.sym ")" 5])
      { tokens := [Toy.sym "(" 1, Toy.int "1" 2, Toy.sym "," 3, Toy.int "2" 4, Toy.sym ")" 5],
        current := 6 }
      { Database := none, Table := [Toy.ident "t" 0] }
      (by decide) rfl).2
      [Toy.sym "(" 1, Toy.int "1" 2, Toy.sym "," 3, Toy.int "2" 4, Toy.sym ")" 5]
      { tokens := [], current := 6 } _ _ rfl (by decide) rfl (Or.inl ⟨by decide, rfl, rfl⟩)⟩

/-! ## C8: subquery table sources -/

section

variable {α : Type} (S : Scalar α) (E : Ends α)

/-- C8. On `( s1 UNION ...` as a table source, `parseTableExpr` hands the opening parenthesis
to `parseSelectStatementWithParen`, which reads one statement `s1` and then requires `)`: the
`UNION` that follows is an error, so a union list inside the parentheses is rejected. -/
theorem parseTableExpr_paren_union (n : Nat) (pos : Pos) (l l1 : Lexer) (s1 : SelectExpr α)
    (hparen : l.matchTokenKind "(" = true)
    (hs1 : parseSelectStatement S E n l.consumeToken.Pos l.consumeToken = Res.ok s1 l1)
    (hunion : l1.matchKeyword KeywordUnion = true) :
    ∀ m, n + 5 ≤ m →
      parseTableExpr S E m pos l
        = Res.err ("expected token kind: " ++ ")" ++ ", but got " ++ TokenKeyword) := by
  intro m hm
  obtain ⟨k, rfl⟩ : ∃ k, m = k + 5 := ⟨m - 5, by omega⟩
  simp [parseTableExpr, parseSelectUnionExprList, parseSelectUnionExprListLoop,
    parseSelectQuery, parseSelectStatementWithParen, bind_apply, pure_apply,
    matchTokenKind_apply, matchKeyword_apply, getPos_apply, hparen,
    Lexer.matchTokenKind_excl TokenIdent hparen (by decide),
    Lexer.matchKeyword_of_matchTokenKind KeywordSelect hparen (by decide),
    Lexer.matchKeyword_of_matchTokenKind KeywordWith hparen (by decide),
    consumeTokenKind_true hparen, parseSelectStatement_fuel S E (by omega : n ≤ k) hs1,
    consumeTokenKind_false (Lexer.matchTokenKind_of_matchKeyword ")" hunion (by decide)),
    Lexer.lastTokenKind_of_matchKeyword hunion]

end

/-- Witness of C8 on `( SELECT 1 UNION ALL SELECT 2 )`. -/
theorem parseTableExpr_paren_union_witness :
    parseTableExpr Toy.scalar Toy.ends 7 0
        (Toy.lexer [Toy.sym "(" 0, Toy.kw "SELECT" 1, Toy.int "1" 8, Toy.kw "UNION" 10,
          Toy.kw "ALL" 16, Toy.kw "SELECT" 20, Toy.int "2" 27, Toy.sym ")" 28])
      = Res.err "expected token kind: ), but got <keyword>" :=
  parseTableExpr_paren_union Toy.scalar Toy.ends 2 0
    (Toy.lexer [Toy.sym "(" 0, Toy.kw "SELECT" 1, Toy.int "1" 8, Toy.kw "UNION" 10,
      Toy.kw "ALL" 16, Toy.kw "SELECT" 20, Toy.int "2" 27, Toy.sym ")" 28])
    { tokens := [Toy.kw "UNION" 10, Toy.kw "ALL" 16, Toy.kw "SELECT" 20, Toy.int "2" 27,
        Toy.sym ")" 28], current := 29 }
    (SelectExpr.mk none 1 9 none [Toy.int "1" 8] none none none none none none none none none
      none)
    (by decide) rfl (by decide) 7 (by decide)

/-! ## C9: GROUP BY modifiers -/

section

variable {α : Type} (S : Scalar α)

/-- C9. After `GROUP BY` and its expression, for every sequence `mods` of `WITH <modifier>`
pairs with each modifier among `CUBE`, `ROLLUP`, `TOTALS`: if no `WITH` follows the sequence,
`parseGroupByExpr` succeeds and `WithCube` (`WithRollup`, `WithTotals`) is true exactly when
`CUBE` (`ROLLUP`, `TOTALS`) occurs in the sequence, whatever the order and the repetitions; if
a `WITH` follows that is not followed by one of the three keywords, `parseGroupByExpr`
fails. -/
theorem parseGroupByExpr_modifiers (pos : Pos) (l : Lexer) (agg : String) (e : α)
    (mods : List (Token × Token)) (toks : List Token) (cur : Pos)
    (hgroup : l.matchKeyword KeywordGroup = true)
    (hby : l.consumeToken.matchKeyword KeywordBy = true)
    (hhead : GroupByHead S l.consumeToken.consumeToken agg e
      (Lexer.mk (modifierTokens mods ++ toks) cur))
    (hmods : ∀ p ∈ mods, isModifier p = true) :
    ((Lexer.mk toks cur).matchKeyword KeywordWith = false →
      ∀ fuel, mods.length + 1 ≤ fuel →
        parseGroupByExpr S fuel pos l
          = Res.ok { GroupByPos := pos, AggregateType := agg, Expr := e,
                     WithCube := mods.any (fun p => isKeyword p.2 KeywordCube),
                     WithRollup := mods.any (fun p => isKeyword p.2 KeywordRollup),
                     WithTotals := mods.any (fun p => isKeyword p.2 KeywordTotals) }
              (Lexer.mk toks cur)) ∧
    ((Lexer.mk toks cur).matchKeyword KeywordWith = true →
      (Lexer.mk toks cur).consumeToken.matchKeyword KeywordCube = false →
      (Lexer.mk toks cur).consumeToken.matchKeyword KeywordRollup = false →
      (Lexer.mk toks cur).consumeToken.matchKeyword KeywordTotals = false →
      ∀ fuel, mods.length + 1 ≤ fuel →
        parseGroupByExpr S fuel pos l
          = Res.err ("expected CUBE, ROLLUP or TOTALS, got "
              ++ (Lexer.mk toks cur).consumeToken.lastTokenKind)) := by
  refine ⟨?_, ?_⟩
  · intro hw fuel hfuel
    obtain ⟨k, rfl⟩ : ∃ k, fuel = (k + 1) + mods.length := ⟨fuel - mods.length - 1, by omega⟩
    rw [parseGroupByExpr_head S hgroup hby hhead,
      parseGroupByExprWith_modifiers mods hmods toks cur, parseGroupByExprWith]
    simp [bind_apply, pure_apply, tryConsumeKeyword_false hw]
  · intro hw hc hr ht fuel hfuel
    obtain ⟨k, rfl⟩ : ∃ k, fuel = (k + 1) + mods.length := ⟨fuel - mods.length - 1, by omega⟩
    rw [parseGroupByExpr_head S hgroup hby hhead,
      parseGroupByExprWith_modifiers mods hmods toks cur, parseGroupByExprWith]
    simp [bind_apply, fail_apply, tryConsumeKeyword_true hw, tryConsumeKeyword_false hc,
      tryConsumeKeyword_false hr, tryConsumeKeyword_false ht, lastTokenKind_apply]

end

/-- Witness of C9: `GROUP BY a WITH ROLLUP WITH TOTALS` sets `WithRollup` and `WithTotals`
and leaves `WithCube` false; `GROUP BY a WITH b` fails. -/
theorem parseGroupByExpr_modifiers_witness :
    parseGroupByExpr Toy.scalar 3 0
        (Toy.lexer [Toy.kw "GROUP" 0, Toy.kw "BY" 6, Toy.ident "a" 9, Toy.kw "WITH" 11,
          Toy.kw "ROLLUP" 16, Toy.kw "WITH" 23, Toy.kw "TOTALS" 28])
      = Res.ok { GroupByPos := 0, AggregateType := "", Expr := [Toy.ident "a" 9],
                 WithCube := false, WithRollup := true, WithTotals := true }
          { tokens := [], current := 34 } ∧
    parseGroupByExpr Toy.scalar 1 0
        (Toy.lexer [Toy.kw "GROUP" 0, Toy.kw "BY" 6, Toy.ident "a" 9, Toy.kw "WITH" 11,
          Toy.ident "b" 16])
      = Res.err "expected CUBE, ROLLUP or TOTALS, got <ident>" :=
  ⟨(parseGroupByExpr_modifiers Toy.scalar 0
      (Toy.lexer [Toy.kw "GROUP" 0, Toy.kw "BY" 6, Toy.ident "a" 9, Toy.kw "WITH" 11,
        Toy.kw "ROLLUP" 16, Toy.kw "WITH" 23, Toy.kw "TOTALS" 28])
      "" [Toy.ident "a" 9]
      [(Toy.kw "WITH" 11, Toy.kw "ROLLUP" 16), (Toy.kw "WITH" 23, Toy.kw "TOTALS" 28)] [] 34
      (by decide) (by decide) (Or.inl ⟨by decide, by decide, rfl, rfl⟩)
      (by decide)).1 (by decide) 3 (by decide),
   (parseGroupByExpr_modifiers Toy.scalar 0
      (Toy.lexer [Toy.kw "GROUP" 0, Toy.kw "BY" 6, Toy.ident "a" 9, Toy.kw "WITH" 11,
        Toy.ident "b" 16])
      "" [Toy.ident "a" 9] [] [Toy.kw "WITH" 11, Toy.ident "b" 16] 17
      (by decide) (by decide) (Or.inl ⟨by decide, by decide, rfl, rfl⟩)
      (by decide)).2 (by decide) (by decide) (by decide) (by decide) 1 (by decide)⟩

/-! ## C10: window frames -/

section

variable {α : Type} (S : Scalar α)

/-- C10. For `(ROWS|RANGE) BETWEEN x AND y`, where the bounds `x` and `y` are parsed by the
recursive calls: `parseWindowFrameExpr` returns a `WindowFrameExpr` whose `Type` is the
upper-cased prefix keyword (`"ROWS"` or `"RANGE"`) and whose `Extend` is the
`WindowFrameRangeExpr` with `BetweenExpr = x` and `AndExpr = y`. -/
theorem parseWindowFrameExpr_between (n : Nat) (pos : Pos) (l l3 l5 : Lexer)
    (x y : WindowFrameExpr α)
    (htype : l.matchKeyword KeywordRows = true ∨ l.matchKeyword KeywordRange = true)
    (hbetween : l.consumeToken.matchKeyword KeywordBetween = true)
    (hx : parseWindowFrameExpr S n l.consumeToken.consumeToken.Pos l.consumeToken.consumeToken
      = Res.ok x l3)
    (hand : l3.matchKeyword KeywordAnd = true)
    (hy : parseWindowFrameExpr S n l3.consumeToken.Pos l3.consumeToken = Res.ok y l5) :
    (∀ m, n + 1 ≤ m →
      parseWindowFrameExpr S m pos l
        = Res.ok (WindowFrameExpr.mk pos (toUpper l.token.String)
            (WindowFrameExtend.WindowFrameRangeExpr pos x l3.Pos y)) l5) ∧
    (l.matchKeyword KeywordRows = true → toUpper l.token.String = "ROWS") ∧
    (l.matchKeyword KeywordRange = true → toUpper l.token.String = "RANGE") := by
  refine ⟨?_, fun h => toUpper_of_matchKeyword h, fun h => toUpper_of_matchKeyword h⟩
  intro m hm
  obtain ⟨k, rfl⟩ : ∃ k, m = k + 1 := ⟨m - 1, by omega⟩
  have hl : lastToken l = Res.ok l.token l := by
    rcases htype with h | h <;> exact lastToken_of_matchKeyword h
  simp [parseWindowFrameExpr, bind_apply, pure_apply, matchKeyword_apply, htype, hl,
    consumeToken_apply, tryConsumeKeyword_true hbetween, getPos_apply,
    parseWindowFrameExpr_fuel S (by omega : n ≤ k) hx, consumeKeyword_true hand,
    parseWindowFrameExpr_fuel S (by omega : n ≤ k) hy]

end

/-- Witness of C10 on `ROWS BETWEEN UNBOUNDED PRECEDING AND CURRENT ROW`. -/
theorem parseWindowFrameExpr_between_witness :
    parseWindowFrameExpr Toy.scalar 2 0
        (Toy.lexer [Toy.kw "ROWS" 0, Toy.kw "BETWEEN" 5, Toy.kw "UNBOUNDED" 13,
          Toy.kw "PRECEDING" 23, Toy.kw "AND" 33, Toy.kw "CURRENT" 37, Toy.kw "ROW" 45])
      = Res.ok (WindowFrameExpr.mk 0 "ROWS"
          (WindowFrameExtend.WindowFrameRangeExpr 0
            (WindowFrameExpr.mk 13 "" (WindowFrameExtend.WindowFrameUnbounded 13 "PRECEDING"))
            33
            (WindowFrameExpr.mk 37 "" (WindowFrameExtend.WindowFrameCurrentRow 37 48))))
          { tokens := [], current := 48 } :=
  (parseWindowFrameExpr_between Toy.scalar 1 0
    (Toy.lexer [Toy.kw "ROWS" 0, Toy.kw "BETWEEN" 5, Toy.kw "UNBOUNDED" 13,
      Toy.kw "PRECEDING" 23, Toy.kw "AND" 33, Toy.kw "CURRENT" 37, Toy.kw "ROW" 45])
    { tokens := [Toy.kw "AND" 33, Toy.kw "CURRENT" 37, Toy.kw "ROW" 45], current := 48 }
    { tokens := [], current := 48 }
    (WindowFrameExpr.mk 13 "" (WindowFrameExtend.WindowFrameUnbounded 13 "PRECEDING"))
    (WindowFrameExpr.mk 37 "" (WindowFrameExtend.WindowFrameCurrentRow 37 48))
    (Or.inl (by decide)) (by decide) rfl (by decide) rfl).1 2 (by decide)

/-! ## C11: StatementEnd and the last clause -/

section
variable {α : Type} (S : Scalar α) (E : Ends α)

/-- C11. For every successful `parseSelectStatement`, `StatementEnd` is `End()` of the last
node present among From, ArrayJoin, Window, Prewhere, Where, GroupBy, Having, OrderBy, LimitBy
and Settings, in that order, and `SelectColumns.End()` when all ten are absent; `With` and
`Top` take no part in it. -/
theorem parseSelectStatement_statementEnd (n : Nat) (pos : Pos) (l l2 : Lexer)
    (s : SelectExpr α) (h : parseSelectStatement S E n pos l = Res.ok s l2) :
    s.StatementEnd = lastClauseEnd S E s :=
  (parseSelectStatement_inv S E h).2

end

/-- Witness of C11 on `SELECT a FROM t WHERE x`: the statement ends with its WHERE clause,
at offset 23. -/
theorem parseSelectStatement_statementEnd_witness :
    parseSelectStatement Toy.scalar Toy.ends 6 0
        (Toy.lexer [Toy.kw "SELECT" 0, Toy.ident "a" 7, Toy.kw "FROM" 9, Toy.ident "t" 14,
          Toy.kw "WHERE" 16, Toy.ident "x" 22])
      = Res.ok (SelectExpr.mk none 0 23 none [Toy.ident "a" 7]
          (some (FromExpr.mk 9 (Expr.table (TableExpr.mk 14 15
            (Expr.tableIdentifier { Database := none, Table := [Toy.ident "t" 14] })))))
          none none none (some { WherePos := 16, Expr := [Toy.ident "x" 22] })
          none none none none none) { tokens := [], current := 23 } ∧
    lastClauseEnd Toy.scalar Toy.ends (SelectExpr.mk none 0 23 none [Toy.ident "a" 7]
          (some (FromExpr.mk 9 (Expr.table (TableExpr.mk 14 15
            (Expr.tableIdentifier { Database := none, Table := [Toy.ident "t" 14] })))))
          none none none (some { WherePos := 16, Expr := [Toy.ident "x" 22] })
          none none none none none) = 23 :=
  ⟨rfl, (parseSelectStatement_statementEnd Toy.scalar Toy.ends 6 0
      (Toy.lexer [Toy.kw "SELECT" 0, Toy.ident "a" 7, Toy.kw "FROM" 9, Toy.ident "t" 14,
        Toy.kw "WHERE" 16, Toy.ident "x" 22]) { tokens := [], current := 23 }
      (SelectExpr.mk none 0 23 none [Toy.ident "a" 7]
        (some (FromExpr.mk 9 (Expr.table (TableExpr.mk 14 15
          (Expr.tableIdentifier { Database := none, Table := [Toy.ident "t" 14] })))))
        none none none (some { WherePos := 16, Expr := [Toy.ident "x" 22] })
        none none none none none) rfl).symm⟩

/-! ## C12: StatementEnd and the last token consumed -/

/-- C12, counterexample.  Whatever the `End()` methods of the nodes are, `StatementEnd` is
not the end of the last token consumed on both `SELECT a FROM t` and `SELECT a FROM t FINAL`:
the two statements give the same `FromExpr` node, hence the same `StatementEnd`, and their
last tokens end at offsets 15 and 21. -/
theorem parseSelectStatement_last_token_counterexample :
    ¬ ∃ E : Ends (List Token),
      (∀ s l2, parseSelectStatement Toy.scalar E 6 0
          (Toy.lexer [Toy.kw "SELECT" 0, Toy.ident "a" 7, Toy.kw "FROM" 9, Toy.ident "t" 14])
          = Res.ok s l2 →
        some s.StatementEnd = lastConsumedEnd
          (Toy.lexer [Toy.kw "SELECT" 0, Toy.ident "a" 7, Toy.kw "FROM" 9, Toy.ident "t" 14])
          l2) ∧
      (∀ s l2, parseSelectStatement Toy.scalar E 6 0
          (Toy.lexer [Toy.kw "SELECT" 0, Toy.ident "a" 7, Toy.kw "FROM" 9, Toy.ident "t" 14,
            Toy.kw "FINAL" 16])
          = Res.ok s l2 →
        some s.StatementEnd = lastConsumedEnd
          (Toy.lexer [Toy.kw "SELECT" 0, Toy.ident "a" 7, Toy.kw "FROM" 9, Toy.ident "t" 14,
            Toy.kw "FINAL" 16])
          l2) := by
  rintro ⟨E, hA, hB⟩
  have a : some (E.FromExpr (FromExpr.mk 9 (Expr.table (TableExpr.mk 14
      (E.Expr (Expr.tableIdentifier { Database := none, Table := [Toy.ident "t" 14] }))
      (Expr.tableIdentifier { Database := none, Table := [Toy.ident "t" 14] }))))) = some 15 :=
    hA (SelectExpr.mk none 0 _ none [Toy.ident "a" 7] (some _) none none none none none none
      none none none) { tokens := [], current := 15 } rfl
  have b : some (E.FromExpr (FromExpr.mk 9 (Expr.table (TableExpr.mk 14
      (E.Expr (Expr.tableIdentifier { Database := none, Table := [Toy.ident "t" 14] }))
      (Expr.tableIdentifier { Database := none, Table := [Toy.ident "t" 14] }))))) = some 21 :=
    hB (SelectExpr.mk none 0 _ none [Toy.ident "a" 7] (some _) none none none none none none
      none none none) { tokens := [], current := 21 } rfl
  rw [a] at b
  exact absurd b (by decide)

section
variable {α : Type} (S : Scalar α) (E : Ends α)

/-- C12, amended.  When the FROM clause is the last clause of the statement and holds the
single table source `t`, `StatementEnd` is `End()` of the `FromExpr` built from `t`, the node
returned by `parseTableExpr`.  A `FINAL` or a `GLOBAL`/`LOCAL` that follows `t` is consumed
(the cursor `l3` is after it) and leaves `StatementEnd` where it was: it is then not the end
of the last token consumed. -/
theorem parseSelectStatement_from_last (n : Nat) (pos : Pos) (l l2 l3 : Lexer)
    (w : Option (WithExpr α)) (top : Option (TopExpr α)) (cols : α) (t : TableExpr α)
    (hhead : SelectHead S E n pos l w top cols l2)
    (hfrom : l2.matchKeyword KeywordFrom = true)
    (ht : TableSource S E n l2.consumeToken t none l3)
    (hop : parseJoinOpSwitch l3 = Res.ok false l3)
    (hlast : NoLaterClause S l3) :
    parseSelectStatement S E (n + 5) pos l
      = Res.ok (SelectExpr.mk w pos (E.FromExpr (FromExpr.mk l2.Pos (Expr.table t))) top cols
          (some (FromExpr.mk l2.Pos (Expr.table t))) none none none none none none none none
          none) l3 := by
  obtain ⟨hk, hob, hst⟩ := hlast
  have hj : parseJoinExpr S E (n + 2) l2.consumeToken.Pos l2.consumeToken
      = Res.ok (Expr.table t) l3 :=
    parseJoinExpr_no_op S E (Nat.le_succ n) ht (parseJoinOp_none S E hop)
  have hf : tryParseFromExpr S E (n + 4) l2.Pos l2
      = Res.ok (some (FromExpr.mk l2.Pos (Expr.table t))) l3 := by
    simp [tryParseFromExpr, parseFromExpr, bind_apply, pure_apply, matchKeyword_apply, hfrom,
      consumeKeyword_true hfrom, getPos_apply, hj]
  have e := parseSelectStatement_run S E (by omega : n ≤ n + 4) hhead hf
    (tryParseArrayJoin_none S (hk _ (by simp)) (hk _ (by simp)) (hk _ (by simp)))
    (tryParseWindowExpr_none S (hk _ (by simp)))
    (tryParsePrewhereExpr_none S (hk _ (by simp)))
    (tryParseWhereExpr_none S (hk _ (by simp)))
    (tryParseGroupByExpr_none S (hk _ (by simp)))
    (tryParseHavingExpr_none S (hk _ (by simp))) hob
    (tryParseLimitByExpr_none S (hk _ (by simp))) hst
  simpa using e

end

/-- Witness of the amended C12 on `SELECT a FROM t FINAL`: `StatementEnd` is 15, the end of
`t`, and the last token consumed, `FINAL`, ends at 21. -/
theorem parseSelectStatement_from_last_witness :
    parseSelectStatement Toy.scalar Toy.ends 6 0
        (Toy.lexer [Toy.kw "SELECT" 0, Toy.ident "a" 7, Toy.kw "FROM" 9, Toy.ident "t" 14,
          Toy.kw "FINAL" 16])
      = Res.ok (SelectExpr.mk none 0 15 none [Toy.ident "a" 7]
          (some (FromExpr.mk 9 (Expr.table (TableExpr.mk 14 15
            (Expr.tableIdentifier { Database := none, Table := [Toy.ident "t" 14] })))))
          none none none none none none none none none) { tokens := [], current := 21 } ∧
    lastConsumedEnd
        (Toy.lexer [Toy.kw "SELECT" 0, Toy.ident "a" 7, Toy.kw "FROM" 9, Toy.ident "t" 14,
          Toy.kw "FINAL" 16]) { tokens := [], current := 21 } = some 21 :=
  ⟨parseSelectStatement_from_last Toy.scalar Toy.ends 1 0
    (Toy.lexer [Toy.kw "SELECT" 0, Toy.ident "a" 7, Toy.kw "FROM" 9, Toy.ident "t" 14,
      Toy.kw "FINAL" 16])
    { tokens := [Toy.kw "FROM" 9, Toy.ident "t" 14, Toy.kw "FINAL" 16], current := 21 }
    { tokens := [], current := 21 } none none [Toy.ident "a" 7]
    (TableExpr.mk 14 15 (Expr.tableIdentifier { Database := none, Table := [Toy.ident "t" 14] }))
    ⟨_, _, rfl, by decide, rfl, rfl⟩ (by decide)
    ⟨Or.inl (by decide), _, _, rfl, rfl, rfl⟩ rfl ⟨by decide, rfl, rfl⟩,
   by decide⟩

/-! ## C13: clause order -/

/-- C13, counterexample.  On `SELECT a WHERE x PREWHERE y`, `SELECT a GROUP BY b WHERE c` and
`SELECT a LIMIT 1 HAVING h`, `parseSelectStatement` returns a `SelectExpr`, not an error: the
statement up to the out-of-order keyword, with the cursor left on that keyword. -/
theorem parseSelectStatement_order_counterexample :
    parseSelectStatement Toy.scalar Toy.ends 3 0
        (Toy.lexer [Toy.kw "SELECT" 0, Toy.ident "a" 7, Toy.kw "WHERE" 9, Toy.ident "x" 15,
          Toy.kw "PREWHERE" 17, Toy.ident "y" 26])
      = Res.ok (SelectExpr.mk none 0 16 none [Toy.ident "a" 7] none none none none
          (some { WherePos := 9, Expr := [Toy.ident "x" 15] }) none none none none none)
          { tokens := [Toy.kw "PREWHERE" 17, Toy.ident "y" 26], current := 27 } ∧
    parseSelectStatement Toy.scalar Toy.ends 3 0
        (Toy.lexer [Toy.kw "SELECT" 0, Toy.ident "a" 7, Toy.kw "GROUP" 9, Toy.kw "BY" 15,
          Toy.ident "b" 18, Toy.kw "WHERE" 20, Toy.ident "c" 26])
      = Res.ok (SelectExpr.mk none 0 19 none [Toy.ident "a" 7] none none none none none
          (some { GroupByPos := 9, AggregateType := "", Expr := [Toy.ident "b" 18],
                  WithCube := false, WithRollup := false, WithTotals := false })
          none none none none)
          { tokens := [Toy.kw "WHERE" 20, Toy.ident "c" 26], current := 27 } ∧
    parseSelectStatement Toy.scalar Toy.ends 3 0
        (Toy.lexer [Toy.kw "SELECT" 0, Toy.ident "a" 7, Toy.kw "LIMIT" 9, Toy.int "1" 15,
          Toy.kw "HAVING" 17, Toy.ident "h" 24])
      = Res.ok (SelectExpr.mk none 0 16 none [Toy.ident "a" 7] none none none none none none
          none none
          (some { LimitPos := 9, Limit := [Toy.int "1" 15], Offset := none, ByExpr := none })
          none)
          { tokens := [Toy.kw "HAVING" 17, Toy.ident "h" 24], current := 25 } :=
  ⟨rfl, rfl, rfl⟩

section
variable {α : Type} (S : Scalar α) (E : Ends α)

/-- C13, amended.  `parseSelectStatement` tries each of the ten optional clauses once, in the
fixed order, and does not look at the token it stops on.  Let the parsers of the first `i`
clauses have run without error (each clause present or absent, `ClausesUpTo`), and let the
cursor then be on an out-of-order keyword `K`: `WITH`, `TOP`, or the introducing keyword of
one of these `i` clauses (the scalar layer finding no ORDER BY and no SETTINGS there, as far
as these are still to be tried).  Then `parseSelectStatement` returns the `SelectExpr` of the
clauses parsed so far, its end the end of the last clause present, and leaves the cursor on
`K`: the out-of-order clause is not consumed, and no error is raised. -/
theorem parseSelectStatement_out_of_order (n i : Nat) (pos : Pos) (l l2 l3 : Lexer)
    (w : Option (WithExpr α)) (top : Option (TopExpr α)) (cols : α)
    (f : Option (FromExpr α)) (aj : Option (ArrayJoinExpr α)) (win : Option (WindowExpr α))
    (pw : Option (PrewhereExpr α)) (wh : Option (WhereExpr α)) (gb : Option (GroupByExpr α))
    (hv : Option (HavingExpr α)) (ob : Option α) (lb : Option (LimitByExpr α))
    (st : Option α) (K : String)
    (hhead : SelectHead S E n pos l w top cols l2)
    (hrun : ClausesUpTo S E n i l2 f aj win pw wh gb hv ob lb st l3)
    (hmem : K ∈ earlierKeywords i) (hK : l3.matchKeyword K = true)
    (hob : i < 8 → S.tryParseOrderByExprList l3.Pos l3 = Res.ok none l3)
    (hst : i < 10 → S.tryParseSettingsExprList l3.Pos l3 = Res.ok none l3) :
    parseSelectStatement S E (n + 2) pos l
      = Res.ok (SelectExpr.mk w pos
          ((([f.map E.FromExpr, aj.map E.ArrayJoinExpr, win.map E.WindowExpr,
              pw.map E.PrewhereExpr, wh.map E.WhereExpr, gb.map E.GroupByExpr,
              hv.map E.HavingExpr, ob.map S.End, lb.map E.LimitByExpr,
              st.map S.End] : List (Option Pos)).reduceOption.getLast?).getD (S.End cols))
          top cols f aj win pw wh gb hv ob lb st) l3 := by
  obtain ⟨k1, k2, k3, k4, k5, k6, k7, k8, k9, h1, h2, h3, h4, h5, h6, h7, h8, h9, h10⟩ := hrun
  have hx : ∀ k2 : String, (∀ k ∈ earlierKeywords i, equalFold k k2 = false) →
      l3.matchKeyword k2 = false := fun k2 h => matchKeyword_excl_mem _ k2 hK hmem h
  have hi : i = 0 ∨ i = 1 ∨ i = 2 ∨ i = 3 ∨ i = 4 ∨ i = 5 ∨ i = 6 ∨ i = 7 ∨ i = 8 ∨ i = 9 ∨
      10 ≤ i := by omega
  rcases hi with rfl | rfl | rfl | rfl | rfl | rfl | rfl | rfl | rfl | rfl | hi
  · obtain ⟨rfl, rfl⟩ := h10.2 (by decide)
    obtain ⟨rfl, rfl⟩ := h9.2 (by decide)
    obtain ⟨rfl, rfl⟩ := h8.2 (by decide)
    obtain ⟨rfl, rfl⟩ := h7.2 (by decide)
    obtain ⟨rfl, rfl⟩ := h6.2 (by decide)
    obtain ⟨rfl, rfl⟩ := h5.2 (by decide)
    obtain ⟨rfl, rfl⟩ := h4.2 (by decide)
    obtain ⟨rfl, rfl⟩ := h3.2 (by decide)
    obtain ⟨rfl, rfl⟩ := h2.2 (by decide)
    obtain ⟨rfl, rfl⟩ := h1.2 (by decide)
    exact parseSelectStatement_run S E (Nat.le_succ n) hhead
      (tryParseFromExpr_none S E (hx _ (by decide)))
      (tryParseArrayJoin_none S (hx _ (by decide)) (hx _ (by decide)) (hx _ (by decide)))
      (tryParseWindowExpr_none S (hx _ (by decide)))
      (tryParsePrewhereExpr_none S (hx _ (by decide)))
      (tryParseWhereExpr_none S (hx _ (by decide)))
      (tryParseGroupByExpr_none S (hx _ (by decide)))
      (tryParseHavingExpr_none S (hx _ (by decide)))
      (hob (by decide))
      (tryParseLimitByExpr_none S (hx _ (by decide)))
      (hst (by decide))
  · obtain ⟨rfl, rfl⟩ := h10.2 (by decide)
    obtain ⟨rfl, rfl⟩ := h9.2 (by decide)
    obtain ⟨rfl, rfl⟩ := h8.2 (by decide)
    obtain ⟨rfl, rfl⟩ := h7.2 (by decide)
    obtain ⟨rfl, rfl⟩ := h6.2 (by decide)
    obtain ⟨rfl, rfl⟩ := h5.2 (by decide)
    obtain ⟨rfl, rfl⟩ := h4.2 (by decide)
    obtain ⟨rfl, rfl⟩ := h3.2 (by decide)
    obtain ⟨rfl, rfl⟩ := h2.2 (by decide)
    exact parseSelectStatement_run S E (Nat.le_succ n) hhead
      (tryParseFromExpr_fuel S E (Nat.le_succ n) (h1.1 (by decide)))
      (tryParseArrayJoin_none S (hx _ (by decide)) (hx _ (by decide)) (hx _ (by decide)))
      (tryParseWindowExpr_none S (hx _ (by decide)))
      (tryParsePrewhereExpr_none S (hx _ (by decide)))
      (tryParseWhereExpr_none S (hx _ (by decide)))
      (tryParseGroupByExpr_none S (hx _ (by decide)))
      (tryParseHavingExpr_none S (hx _ (by decide)))
      (hob (by decide))
      (tryParseLimitByExpr_none S (hx _ (by decide)))
      (hst (by decide))
  · obtain ⟨rfl, rfl⟩ := h10.2 (by decide)
    obtain ⟨rfl, rfl⟩ := h9.2 (by decide)
    obtain ⟨rfl, rfl⟩ := h8.2 (by decide)
    obtain ⟨rfl, rfl⟩ := h7.2 (by decide)
    obtain ⟨rfl, rfl⟩ := h6.2 (by decide)
    obtain ⟨rfl, rfl⟩ := h5.2 (by decide)
    obtain ⟨rfl, rfl⟩ := h4.2 (by decide)
    obtain ⟨rfl, rfl⟩ := h3.2 (by decide)
    exact parseSelectStatement_run S E (Nat.le_succ n) hhead
      (tryParseFromExpr_fuel S E (Nat.le_succ n) (h1.1 (by decide)))
      (h2.1 (by decide))
      (tryParseWindowExpr_none S (hx _ (by decide)))
      (tryParsePrewhereExpr_none S (hx _ (by decide)))
      (tryParseWhereExpr_none S (hx _ (by decide)))
      (tryParseGroupByExpr_none S (hx _ (by decide)))
      (tryParseHavingExpr_none S (hx _ (by decide)))
      (hob (by decide))
      (tryParseLimitByExpr_none S (hx _ (by decide)))
      (hst (by decide))
  · obtain ⟨rfl, rfl⟩ := h10.2 (by decide)
    obtain ⟨rfl, rfl⟩ := h9.2 (by decide)
    obtain ⟨rfl, rfl⟩ := h8.2 (by decide)
    obtain ⟨rfl, rfl⟩ := h7.2 (by decide)
    obtain ⟨rfl, rfl⟩ := h6.2 (by decide)
    obtain ⟨rfl, rfl⟩ := h5.2 (by decide)
    obtain ⟨rfl, rfl⟩ := h4.2 (by decide)
    exact parseSelectStatement_run S E (Nat.le_succ n) hhead
      (tryParseFromExpr_fuel S E (Nat.le_succ n) (h1.1 (by decide)))
      (h2.1 (by decide))
      (tryParseWindowExpr_fuel S (Nat.le_succ n) (h3.1 (by decide)))
      (tryParsePrewhereExpr_none S (hx _ (by decide)))
      (tryParseWhereExpr_none S (hx _ (by decide)))
      (tryParseGroupByExpr_none S (hx _ (by decide)))
      (tryParseHavingExpr_none S (hx _ (by decide)))
      (hob (by decide))
      (tryParseLimitByExpr_none S (hx _ (by decide)))
      (hst (by decide))
  · obtain ⟨rfl, rfl⟩ := h10.2 (by decide)
    obtain ⟨rfl, rfl⟩ := h9.2 (by decide)
    obtain ⟨rfl, rfl⟩ := h8.2 (by decide)
    obtain ⟨rfl, rfl⟩ := h7.2 (by decide)
    obtain ⟨rfl, rfl⟩ := h6.2 (by decide)
    obtain ⟨rfl, rfl⟩ := h5.2 (by decide)
    exact parseSelectStatement_run S E (Nat.le_succ n) hhead
      (tryParseFromExpr_fuel S E (Nat.le_succ n) (h1.1 (by decide)))
      (h2.1 (by decide))
      (tryParseWindowExpr_fuel S (Nat.le_succ n) (h3.1 (by decide)))
      (h4.1 (by decide))
      (tryParseWhereExpr_none S (hx _ (by decide)))
      (tryParseGroupByExpr_none S (hx _ (by decide)))
      (tryParseHavingExpr_none S (hx _ (by decide)))
      (hob (by decide))
      (tryParseLimitByExpr_none S (hx _ (by decide)))
      (hst (by decide))
  · obtain ⟨rfl, rfl⟩ := h10.2 (by decide)
    obtain ⟨rfl, rfl⟩ := h9.2 (by decide)
    obtain ⟨rfl, rfl⟩ := h8.2 (by decide)
    obtain ⟨rfl, rfl⟩ := h7.2 (by decide)
    obtain ⟨rfl, rfl⟩ := h6.2 (by decide)
    exact parseSelectStatement_run S E (Nat.le_succ n) hhead
      (tryParseFromExpr_fuel S E (Nat.le_succ n) (h1.1 (by decide)))
      (h2.1 (by decide))
      (tryParseWindowExpr_fuel S (Nat.le_succ n) (h3.1 (by decide)))
      (h4.1 (by decide))
      (h5.1 (by decide))
      (tryParseGroupByExpr_none S (hx _ (by decide)))
      (tryParseHavingExpr_none S (hx _ (by decide)))
      (hob (by decide))
      (tryParseLimitByExpr_none S (hx _ (by decide)))
      (hst (by decide))
  · obtain ⟨rfl, rfl⟩ := h10.2 (by decide)
    obtain ⟨rfl, rfl⟩ := h9.2 (by decide)
    obtain ⟨rfl, rfl⟩ := h8.2 (by decide)
    obtain ⟨rfl, rfl⟩ := h7.2 (by decide)
    exact parseSelectStatement_run S E (Nat.le_succ n) hhead
      (tryParseFromExpr_fuel S E (Nat.le_succ n) (h1.1 (by decide)))
      (h2.1 (by decide))
      (tryParseWindowExpr_fuel S (Nat.le_succ n) (h3.1 (by decide)))
      (h4.1 (by decide))
      (h5.1 (by decide))
      (tryParseGroupByExpr_fuel S (Nat.le_succ n) (h6.1 (by decide)))
      (tryParseHavingExpr_none S (hx _ (by decide)))
      (hob (by decide))
      (tryParseLimitByExpr_none S (hx _ (by decide)))
      (hst (by decide))
  · obtain ⟨rfl, rfl⟩ := h10.2 (by decide)
    obtain ⟨rfl, rfl⟩ := h9.2 (by decide)
    obtain ⟨rfl, rfl⟩ := h8.2 (by decide)
    exact parseSelectStatement_run S E (Nat.le_succ n) hhead
      (tryParseFromExpr_fuel S E (Nat.le_succ n) (h1.1 (by decide)))
      (h2.1 (by decide))
      (tryParseWindowExpr_fuel S (Nat.le_succ n) (h3.1 (by decide)))
      (h4.1 (by decide))
      (h5.1 (by decide))
      (tryParseGroupByExpr_fuel S (Nat.le_succ n) (h6.1 (by decide)))
      (h7.1 (by decide))
      (hob (by decide))
      (tryParseLimitByExpr_none S (hx _ (by decide)))
      (hst (by decide))
  · obtain ⟨rfl, rfl⟩ := h10.2 (by decide)
    obtain ⟨rfl, rfl⟩ := h9.2 (by decide)
    exact parseSelectStatement_run S E (Nat.le_succ n) hhead
      (tryParseFromExpr_fuel S E (Nat.le_succ n) (h1.1 (by decide)))
      (h2.1 (by decide))
      (tryParseWindowExpr_fuel S (Nat.le_succ n) (h3.1 (by decide)))
      (h4.1 (by decide))
      (h5.1 (by decide))
      (tryParseGroupByExpr_fuel S (Nat.le_succ n) (h6.1 (by decide)))
      (h7.1 (by decide))
      (h8.1 (by decide))
      (tryParseLimitByExpr_none S (hx _ (by decide)))
      (hst (by decide))
  · obtain ⟨rfl, rfl⟩ := h10.2 (by decide)
    exact parseSelectStatement_run S E (Nat.le_succ n) hhead
      (tryParseFromExpr_fuel S E (Nat.le_succ n) (h1.1 (by decide)))
      (h2.1 (by decide))
      (tryParseWindowExpr_fuel S (Nat.le_succ n) (h3.1 (by decide)))
      (h4.1 (by decide))
      (h5.1 (by decide))
      (tryParseGroupByExpr_fuel S (Nat.le_succ n) (h6.1 (by decide)))
      (h7.1 (by decide))
      (h8.1 (by decide))
      (h9.1 (by decide))
      (hst (by decide))
  · exact parseSelectStatement_run S E (Nat.le_succ n) hhead
      (tryParseFromExpr_fuel S E (Nat.le_succ n) (h1.1 (by omega)))
      (h2.1 (by omega))
      (tryParseWindowExpr_fuel S (Nat.le_succ n) (h3.1 (by omega)))
      (h4.1 (by omega))
      (h5.1 (by omega))
      (tryParseGroupByExpr_fuel S (Nat.le_succ n) (h6.1 (by omega)))
      (h7.1 (by omega))
      (h8.1 (by omega))
      (h9.1 (by omega))
      (h10.1 (by omega))

end

/-- Witness of the amended C13 on `SELECT a FROM t WHERE x PREWHERE y`: the clauses up to
WHERE have run, FROM and WHERE are present, and `PREWHERE`, the keyword of the fourth clause,
is under the cursor; the statement `SELECT a FROM t WHERE x` is returned and the cursor is
left on `PREWHERE`. -/
theorem parseSelectStatement_out_of_order_witness :
    parseSelectStatement Toy.scalar Toy.ends 6 0
        (Toy.lexer [Toy.kw "SELECT" 0, Toy.ident "a" 7, Toy.kw "FROM" 9, Toy.ident "t" 14,
          Toy.kw "WHERE" 16, Toy.ident "x" 22, Toy.kw "PREWHERE" 24, Toy.ident "y" 33])
      = Res.ok (SelectExpr.mk none 0 23 none [Toy.ident "a" 7]
          (some (FromExpr.mk 9 (Expr.table (TableExpr.mk 14 15
            (Expr.tableIdentifier { Database := none, Table := [Toy.ident "t" 14] })))))
          none none none
          (some { WherePos := 16, Expr := [Toy.ident "x" 22] }) none none none none none)
          { tokens := [Toy.kw "PREWHERE" 24, Toy.ident "y" 33], current := 34 } :=
  parseSelectStatement_out_of_order Toy.scalar Toy.ends 4 5 0
    (Toy.lexer [Toy.kw "SELECT" 0, Toy.ident "a" 7, Toy.kw "FROM" 9, Toy.ident "t" 14,
      Toy.kw "WHERE" 16, Toy.ident "x" 22, Toy.kw "PREWHERE" 24, Toy.ident "y" 33])
    { tokens := [Toy.kw "FROM" 9, Toy.ident "t" 14, Toy.kw "WHERE" 16, Toy.ident "x" 22,
        Toy.kw "PREWHERE" 24, Toy.ident "y" 33], current := 34 }
    { tokens := [Toy.kw "PREWHERE" 24, Toy.ident "y" 33], current := 34 }
    none none [Toy.ident "a" 7]
    (some (FromExpr.mk 9 (Expr.table (TableExpr.mk 14 15
      (Expr.tableIdentifier { Database := none, Table := [Toy.ident "t" 14] })))))
    none none none (some { WherePos := 16, Expr := [Toy.ident "x" 22] }) none none none none
    none KeywordPrewhere
    ⟨_, _, rfl, by decide, rfl, rfl⟩
    ⟨{ tokens := [Toy.kw "WHERE" 16, Toy.ident "x" 22, Toy.kw "PREWHERE" 24,
        Toy.ident "y" 33], current := 34 }, _, _, _, _, _, _, _, _,
      ⟨fun _ => rfl, fun h => absurd (by decide) h⟩,
      ⟨fun _ => rfl, fun h => absurd (by decide) h⟩,
      ⟨fun _ => rfl, fun h => absurd (by decide) h⟩,
      ⟨fun _ => rfl, fun h => absurd (by decide) h⟩,
      ⟨fun _ => rfl, fun h => absurd (by decide) h⟩,
      ⟨fun h => absurd h (by decide), fun _ => ⟨rfl, rfl⟩⟩,
      ⟨fun h => absurd h (by decide), fun _ => ⟨rfl, rfl⟩⟩,
      ⟨fun h => absurd h (by decide), fun _ => ⟨rfl, rfl⟩⟩,
      ⟨fun h => absurd h (by decide), fun _ => ⟨rfl, rfl⟩⟩,
      ⟨fun h => absurd h (by decide), fun _ => ⟨rfl, rfl⟩⟩⟩
    (by decide) (by decide) (fun _ => rfl) (fun _ => rfl)

/-- The premise that the clause parsers have run without error matters for `WITH`.  Right
after a GROUP BY clause, `WITH` is read by the GROUP BY parser itself as the start of a
modifier: `SELECT a GROUP BY b WITH x` is an error.  After another clause it is out of order
like any other keyword: `SELECT a WHERE b WITH x` returns the statement `SELECT a WHERE b` and
leaves the cursor on `WITH`. -/
theorem parseSelectStatement_with_after_group_by :
    parseSelectStatement Toy.scalar Toy.ends 3 0
        (Toy.lexer [Toy.kw "SELECT" 0, Toy.ident "a" 7, Toy.kw "GROUP" 9, Toy.kw "BY" 15,
          Toy.ident "b" 18, Toy.kw "WITH" 20, Toy.ident "x" 25])
      = Res.err "expected CUBE, ROLLUP or TOTALS, got <ident>" ∧
    parseSelectStatement Toy.scalar Toy.ends 3 0
        (Toy.lexer [Toy.kw "SELECT" 0, Toy.ident "a" 7, Toy.kw "WHERE" 9, Toy.ident "b" 15,
          Toy.kw "WITH" 17, Toy.ident "x" 22])
      = Res.ok (SelectExpr.mk none 0 16 none [Toy.ident "a" 7] none none none none
          (some { WherePos := 9, Expr := [Toy.ident "b" 15] }) none none none none none)
          { tokens := [Toy.kw "WITH" 17, Toy.ident "x" 22], current := 23 } :=
  ⟨rfl, rfl⟩

/-! ## C14: SAMPLE ratio -/

section
variable {α : Type} (S : Scalar α) (E : Ends α)

/-- C14. Let `parseJoinExpr` read the table source `t` followed by a sample ratio `sr`
(`t SAMPLE r [OFFSET o]`).  When a join operator and its right operand `r` follow, the result
is the `JoinExpr` with `SampleRatio = sr`.  When no join operator follows (`t` is the only or
the right-most table), the result is the `TableExpr` `t` alone and `sr` is in no node of the
returned tree: the ratio is consumed and dropped. -/
theorem parseJoinExpr_sample (n k : Nat) (hk : n ≤ k) (pos : Pos) (l l1 : Lexer)
    (t : TableExpr α) (sr : SampleRatioExpr α)
    (ht : TableSource S E n l t (some sr) l1) :
    (∀ l2 l3 r c, parseJoinOp S E k l1.Pos l1 = Res.ok (some r) l2 →
      tryParseJoinConstraints S l2.Pos l2 = Res.ok c l3 →
      parseJoinExpr S E (k + 1) pos l = Res.ok (Expr.join pos (Expr.table t) r (some sr) c) l3) ∧
    (parseJoinOpSwitch l1 = Res.ok false l1 →
      parseJoinExpr S E (k + 2) pos l = Res.ok (Expr.table t) l1 ∧
      Expr.sampleRatios (Expr.table t) = []) := by
  refine ⟨fun l2 l3 r c hop hc => parseJoinExpr_op S E hk ht hop hc, fun hsw => ⟨?_, rfl⟩⟩
  exact parseJoinExpr_no_op S E (Nat.le_succ_of_le hk) ht (parseJoinOp_none S E hsw)

end

/-- Witness of C14 on `t SAMPLE 0.1`: the result is the table `t` alone, with no sample
ratio in the tree. -/
theorem parseJoinExpr_sample_witness :
    parseJoinExpr Toy.scalar Toy.ends 3 0
        (Toy.lexer [Toy.ident "t" 0, Toy.kw "SAMPLE" 2,
          { Kind := TokenFloat, String := "0.1", Pos := 9, End := 12 }])
      = Res.ok (Expr.table (TableExpr.mk 0 1
          (Expr.tableIdentifier { Database := none, Table := [Toy.ident "t" 0] })))
          { tokens := [], current := 12 } ∧
    Expr.sampleRatios (Expr.table (TableExpr.mk 0 1
          (Expr.tableIdentifier { Database := none, Table := [Toy.ident "t" 0] })))
      = ([] : List (SampleRatioExpr (List Token))) :=
  (parseJoinExpr_sample Toy.scalar Toy.ends 1 1 (Nat.le_refl 1) 0
    (Toy.lexer [Toy.ident "t" 0, Toy.kw "SAMPLE" 2,
      { Kind := TokenFloat, String := "0.1", Pos := 9, End := 12 }])
    { tokens := [], current := 12 }
    (TableExpr.mk 0 1 (Expr.tableIdentifier { Database := none, Table := [Toy.ident "t" 0] }))
    { SamplePos := 2, Ratio := [{ Kind := TokenFloat, String := "0.1", Pos := 9, End := 12 }],
      Offset := none }
    ⟨Or.inl (by decide),
      { tokens := [Toy.kw "SAMPLE" 2,
          { Kind := TokenFloat, String := "0.1", Pos := 9, End := 12 }], current := 12 },
      { tokens := [], current := 12 }, rfl, rfl, rfl⟩).2 rfl

/-! ## C15: the join kind is not recorded -/

section
variable {α : Type} (S : Scalar α) (E : Ends α)

/-- C15. Two inputs `a <op> b [constraints]` and `a <op2> b [constraints]`, where `<op>` and
`<op2>` are any two modifier sequences accepted by the switch of `parseJoinOp` and the
operands parse to the same nodes (left table `t` with sample ratio `sr`, right operand `r`,
constraints `c`), give the same `JoinExpr`: its fields are `JoinPos`, `Left`, `Right`,
`SampleRatio` and `Constraints`, and none of them depends on the operator. -/
theorem parseJoinExpr_kind_unobservable (n k : Nat) (hk : n ≤ k + 1) (pos : Pos)
    (l l1 l2 l3 l4 m m1 m2 m3 m4 : Lexer)
    (t : TableExpr α) (sr : Option (SampleRatioExpr α)) (r : Expr α)
    (c : Option (JoinConstraints α))
    (ht : TableSource S E n l t sr l1) (hop : parseJoinOpSwitch l1 = Res.ok true l2)
    (hr : parseJoinExpr S E k (l2.skipKeyword KeywordJoin).Pos (l2.skipKeyword KeywordJoin)
      = Res.ok r l3)
    (hc : tryParseJoinConstraints S l3.Pos l3 = Res.ok c l4)
    (ht2 : TableSource S E n m t sr m1) (hop2 : parseJoinOpSwitch m1 = Res.ok true m2)
    (hr2 : parseJoinExpr S E k (m2.skipKeyword KeywordJoin).Pos (m2.skipKeyword KeywordJoin)
      = Res.ok r m3)
    (hc2 : tryParseJoinConstraints S m3.Pos m3 = Res.ok c m4) :
    parseJoinExpr S E (k + 2) pos l = Res.ok (Expr.join pos (Expr.table t) r sr c) l4 ∧
    parseJoinExpr S E (k + 2) pos m = Res.ok (Expr.join pos (Expr.table t) r sr c) m4 :=
  ⟨parseJoinExpr_any_op S E hk ht hop hr hc, parseJoinExpr_any_op S E hk ht2 hop2 hr2 hc2⟩

end

/-- Witness of C15: with `b` at the same offset, `a , b` and `a ANY FULL OUTER JOIN b` give
the same `JoinExpr`, and so do `CROSS JOIN`, `INNER JOIN`, `ASOF LEFT JOIN` and
`FULL OUTER ALL JOIN`. -/
theorem parseJoinExpr_kind_unobservable_witness :
    (parseJoinExpr Toy.scalar Toy.ends 4 0
        (Toy.lexer [Toy.ident "a" 0, Toy.sym "," 2, Toy.ident "b" 22])
      = Res.ok (Expr.join 0
          (Expr.table (TableExpr.mk 0 1
            (Expr.tableIdentifier { Database := none, Table := [Toy.ident "a" 0] })))
          (Expr.table (TableExpr.mk 22 23
            (Expr.tableIdentifier { Database := none, Table := [Toy.ident "b" 22] })))
          none none) { tokens := [], current := 23 } ∧
     parseJoinExpr Toy.scalar Toy.ends 4 0
        (Toy.lexer [Toy.ident "a" 0, Toy.kw "ANY" 2, Toy.kw "FULL" 6, Toy.kw "OUTER" 11,
          Toy.kw "JOIN" 17, Toy.ident "b" 22])
      = Res.ok (Expr.join 0
          (Expr.table (TableExpr.mk 0 1
            (Expr.tableIdentifier { Database := none, Table := [Toy.ident "a" 0] })))
          (Expr.table (TableExpr.mk 22 23
            (Expr.tableIdentifier { Database := none, Table := [Toy.ident "b" 22] })))
          none none) { tokens := [], current := 23 }) ∧
    parseJoinExpr Toy.scalar Toy.ends 4 0
        (Toy.lexer [Toy.ident "a" 0, Toy.kw "CROSS" 2, Toy.kw "JOIN" 8, Toy.ident "b" 22])
      = parseJoinExpr Toy.scalar Toy.ends 4 0
        (Toy.lexer [Toy.ident "a" 0, Toy.sym "," 2, Toy.ident "b" 22]) ∧
    parseJoinExpr Toy.scalar Toy.ends 4 0
        (Toy.lexer [Toy.ident "a" 0, Toy.kw "INNER" 2, Toy.kw "JOIN" 8, Toy.ident "b" 22])
      = parseJoinExpr Toy.scalar Toy.ends 4 0
        (Toy.lexer [Toy.ident "a" 0, Toy.sym "," 2, Toy.ident "b" 22]) ∧
    parseJoinExpr Toy.scalar Toy.ends 4 0
        (Toy.lexer [Toy.ident "a" 0, Toy.kw "ASOF" 2, Toy.kw "LEFT" 7, Toy.kw "JOIN" 12,
          Toy.ident "b" 22])
      = parseJoinExpr Toy.scalar Toy.ends 4 0
        (Toy.lexer [Toy.ident "a" 0, Toy.sym "," 2, Toy.ident "b" 22]) ∧
    parseJoinExpr Toy.scalar Toy.ends 4 0
        (Toy.lexer [Toy.ident "a" 0, Toy.kw "FULL" 2, Toy.kw "OUTER" 7, Toy.kw "ALL" 13,
          Toy.kw "JOIN" 17, Toy.ident "b" 22])
      = parseJoinExpr Toy.scalar Toy.ends 4 0
        (Toy.lexer [Toy.ident "a" 0, Toy.sym "," 2, Toy.ident "b" 22]) :=
  ⟨parseJoinExpr_kind_unobservable Toy.scalar Toy.ends 1 2 (by decide) 0
    (Toy.lexer [Toy.ident "a" 0, Toy.sym "," 2, Toy.ident "b" 22])
    { tokens := [Toy.sym "," 2, Toy.ident "b" 22], current := 23 }
    { tokens := [Toy.ident "b" 22], current := 23 }
    { tokens := [], current := 23 } { tokens := [], current := 23 }
    (Toy.lexer [Toy.ident "a" 0, Toy.kw "ANY" 2, Toy.kw "FULL" 6, Toy.kw "OUTER" 11,
      Toy.kw "JOIN" 17, Toy.ident "b" 22])
    { tokens := [Toy.kw "ANY" 2, Toy.kw "FULL" 6, Toy.kw "OUTER" 11, Toy.kw "JOIN" 17,
        Toy.ident "b" 22], current := 23 }
    { tokens := [Toy.kw "JOIN" 17, Toy.ident "b" 22], current := 23 }
    { tokens := [], current := 23 } { tokens := [], current := 23 }
    (TableExpr.mk 0 1 (Expr.tableIdentifier { Database := none, Table := [Toy.ident "a" 0] }))
    none
    (Expr.table (TableExpr.mk 22 23
      (Expr.tableIdentifier { Database := none, Table := [Toy.ident "b" 22] })))
    none
    ⟨Or.inl (by decide), _, _, rfl, rfl, rfl⟩ rfl rfl rfl
    ⟨Or.inl (by decide), _, _, rfl, rfl, rfl⟩ rfl rfl rfl,
   rfl, rfl, rfl, rfl⟩

/-! ## C16: GLOBAL and LOCAL -/

/-- C16, counterexample.  `FROM a GLOBAL , b` parses to the join of `a` and `b`.  With `LOCAL`
inserted right before the join operator, `FROM a GLOBAL LOCAL , b`, the parse succeeds as
well but returns the table `a` alone and stops on `LOCAL`: one `GLOBAL`/`LOCAL` is consumed,
the second starts no join operator. -/
theorem parseFromExpr_global_local_counterexample :
    parseFromExpr Toy.scalar Toy.ends 5 0
        (Toy.lexer [Toy.kw "FROM" 0, Toy.ident "a" 5, Toy.kw "GLOBAL" 7, Toy.sym "," 20,
          Toy.ident "b" 22])
      = Res.ok (FromExpr.mk 0 (Expr.join 5
          (Expr.table (TableExpr.mk 5 6
            (Expr.tableIdentifier { Database := none, Table := [Toy.ident "a" 5] })))
          (Expr.table (TableExpr.mk 22 23
            (Expr.tableIdentifier { Database := none, Table := [Toy.ident "b" 22] })))
          none none)) { tokens := [], current := 23 } ∧
    parseFromExpr Toy.scalar Toy.ends 5 0
        (Toy.lexer [Toy.kw "FROM" 0, Toy.ident "a" 5, Toy.kw "GLOBAL" 7, Toy.kw "LOCAL" 14,
          Toy.sym "," 20, Toy.ident "b" 22])
      = Res.ok (FromExpr.mk 0
          (Expr.table (TableExpr.mk 5 6
            (Expr.tableIdentifier { Database := none, Table := [Toy.ident "a" 5] }))))
          { tokens := [Toy.kw "LOCAL" 14, Toy.sym "," 20, Toy.ident "b" 22], current := 23 } :=
  ⟨rfl, rfl⟩

section
variable {α : Type} (S : Scalar α) (E : Ends α)

/-- C16, amended.  Let `parseFromExpr` succeed on the FROM clause at the cursor `l`, with the
tokens `A ++ B`, where `B` starts at a join operator of the clause's join chain that no
`GLOBAL`/`LOCAL` precedes (`InsertionPoint`: the operator may be the first of the chain or any
later one; the table source right before it is read to the same node when the keyword follows
it).  Insert one `GLOBAL` or `LOCAL` keyword `g` right before that operator, the other tokens
keeping their positions: the tokens are then `A ++ g :: B`.  For a scalar layer that is local
(`LocalScalar`), `parseFromExpr` succeeds on the new input as well, for every sufficient fuel,
with the same `FromExpr` and the same cursor after it: the inserted keyword is consumed and
leaves no trace. -/
theorem parseFromExpr_global_local (hS : LocalScalar S) (n k : Nat) (pos : Pos)
    (l l2 : Lexer) (A B : List Token) (g : Token) (f : FromExpr α)
    (hg : isKeyword g KeywordGlobal = true ∨ isKeyword g KeywordLocal = true)
    (hl : l.tokens = A ++ B)
    (hat : InsertionPoint S E n g B l.consumeToken)
    (h : parseFromExpr S E k pos l = Res.ok f l2) :
    ∃ k2, ∀ m, k2 ≤ m →
      parseFromExpr S E m pos { tokens := A ++ g :: B, current := l.current }
        = Res.ok f l2 := by
  obtain ⟨A2, b, hA2, hl2, heq⟩ := insertion_parseJoinExpr E hS hg hat
  cases k with
  | zero => cases h
  | succ k =>
    rw [parseFromExpr] at h
    obtain ⟨u, l1, hc, h1⟩ := bind_ok_inv h
    obtain ⟨hfrom, rfl⟩ := consumeKeyword_ok_inv hc
    obtain ⟨p, l3, hp, h2⟩ := bind_ok_inv h1
    simp only [getPos_apply, Res.ok.injEq] at hp
    obtain ⟨rfl, rfl⟩ := hp
    obtain ⟨e, l4, he, h3⟩ := bind_ok_inv h2
    simp only [pure_apply, Res.ok.injEq] at h3
    obtain ⟨rfl, rfl⟩ := h3
    rcases l with ⟨ts, c⟩
    simp only [Lexer.consumeToken] at hl hl2 heq he
    subst hl
    cases A with
    | nil =>
      simp only [List.nil_append] at hl2
      have h4 := congrArg List.length hl2
      have h5 := List.length_tail B
      simp only [List.length_append] at h4
      have h6 : 0 < A2.length := List.length_pos.mpr hA2
      omega
    | cons F A0 =>
      simp only [List.cons_append, List.tail_cons, List.append_left_inj] at hl2 heq he
      subst hl2
      refine ⟨max (k + 1) (b + 1), fun m hm => ?_⟩
      obtain ⟨j, rfl⟩ : ∃ j, m = j + 1 := ⟨m - 1, by omega⟩
      have hfrom2 : ({ tokens := F :: (A0 ++ g :: B), current := c } : Lexer).matchKeyword
          KeywordFrom = true := hfrom
      have hpos : ({ tokens := A0 ++ g :: B, current := c } : Lexer).Pos
          = ({ tokens := A0 ++ B, current := c } : Lexer).Pos :=
        pos_of_tokens hA2 rfl rfl
      have hj := parseJoinExpr_fuel S E (by omega : k ≤ j) he
      rw [parseFromExpr]
      simp only [bind_apply, pure_apply, getPos_apply, List.cons_append,
        consumeKeyword_true hfrom2, Lexer.consumeToken, List.tail_cons, hpos,
        heq j (by omega), hj]

end

/-- Witness of the amended C16, with the keyword before the second operator of a chain:
`FROM a , b , c` and `FROM a , b GLOBAL , c` give the same `FromExpr`. -/
theorem parseFromExpr_global_local_witness :
    parseFromExpr Toy.scalar Toy.ends 7 0
        (Toy.lexer [Toy.kw "FROM" 0, Toy.ident "a" 5, Toy.sym "," 7, Toy.ident "b" 9,
          Toy.sym "," 18, Toy.ident "c" 20])
      = Res.ok (FromExpr.mk 0 (Expr.join 5
          (Expr.table (TableExpr.mk 5 6
            (Expr.tableIdentifier { Database := none, Table := [Toy.ident "a" 5] })))
          (Expr.join 9
            (Expr.table (TableExpr.mk 9 10
              (Expr.tableIdentifier { Database := none, Table := [Toy.ident "b" 9] })))
            (Expr.table (TableExpr.mk 20 21
              (Expr.tableIdentifier { Database := none, Table := [Toy.ident "c" 20] })))
            none none)
          none none)) { tokens := [], current := 21 } ∧
    ∃ k2, ∀ m, k2 ≤ m →
      parseFromExpr Toy.scalar Toy.ends m 0
          (Toy.lexer [Toy.kw "FROM" 0, Toy.ident "a" 5, Toy.sym "," 7, Toy.ident "b" 9,
            Toy.kw "GLOBAL" 11, Toy.sym "," 18, Toy.ident "c" 20])
        = Res.ok (FromExpr.mk 0 (Expr.join 5
            (Expr.table (TableExpr.mk 5 6
              (Expr.tableIdentifier { Database := none, Table := [Toy.ident "a" 5] })))
            (Expr.join 9
              (Expr.table (TableExpr.mk 9 10
                (Expr.tableIdentifier { Database := none, Table := [Toy.ident "b" 9] })))
              (Expr.table (TableExpr.mk 20 21
                (Expr.tableIdentifier { Database := none, Table := [Toy.ident "c" 20] })))
              none none)
            none none)) { tokens := [], current := 21 } :=
  ⟨rfl, parseFromExpr_global_local Toy.scalar Toy.ends localScalar_toy 1 7 0
    (Toy.lexer [Toy.kw "FROM" 0, Toy.ident "a" 5, Toy.sym "," 7, Toy.ident "b" 9,
      Toy.sym "," 18, Toy.ident "c" 20])
    { tokens := [], current := 21 }
    [Toy.kw "FROM" 0, Toy.ident "a" 5, Toy.sym "," 7, Toy.ident "b" 9]
    [Toy.sym "," 18, Toy.ident "c" 20] (Toy.kw "GLOBAL" 11) _
    (Or.inl (by decide)) rfl
    (InsertionPoint.deeper
      { tokens := [Toy.ident "a" 5, Toy.sym "," 7, Toy.ident "b" 9, Toy.sym "," 18,
          Toy.ident "c" 20], current := 21 }
      { tokens := [Toy.sym "," 7, Toy.ident "b" 9, Toy.sym "," 18, Toy.ident "c" 20],
        current := 21 }
      { tokens := [Toy.ident "b" 9, Toy.sym "," 18, Toy.ident "c" 20], current := 21 }
      (TableExpr.mk 5 6
        (Expr.tableIdentifier { Database := none, Table := [Toy.ident "a" 5] }))
      none ⟨Or.inl (by decide), _, _, rfl, rfl, rfl⟩ rfl
      (insertionPoint_of_identifier Toy.scalar Toy.ends 0 (Toy.kw "GLOBAL" 11)
        [Toy.ident "b" 9] [Toy.sym "," 18, Toy.ident "c" 20]
        { tokens := [Toy.ident "b" 9, Toy.sym "," 18, Toy.ident "c" 20], current := 21 }
        { tokens := [Toy.sym "," 18, Toy.ident "c" 20], current := 21 }
        { tokens := [Toy.ident "c" 20], current := 21 }
        { Database := none, Table := [Toy.ident "b" 9] }
        (Or.inl (by decide)) (by decide) rfl rfl rfl rfl rfl))
    rfl⟩

/-! ## C17: the bounds of BETWEEN -/

/-- C17, counterexample.  `ROWS BETWEEN ROWS UNBOUNDED PRECEDING AND RANGE CURRENT ROW` is
accepted, and its two bounds have the types `"ROWS"` and `"RANGE"`. -/
theorem parseWindowFrameExpr_nested_counterexample :
    parseWindowFrameExpr Toy.scalar 2 0
        (Toy.lexer [Toy.kw "ROWS" 0, Toy.kw "BETWEEN" 5, Toy.kw "ROWS" 13,
          Toy.kw "UNBOUNDED" 18, Toy.kw "PRECEDING" 28, Toy.kw "AND" 38, Toy.kw "RANGE" 42,
          Toy.kw "CURRENT" 48, Toy.kw "ROW" 56])
      = Res.ok (WindowFrameExpr.mk 0 "ROWS"
          (WindowFrameExtend.WindowFrameRangeExpr 0
            (WindowFrameExpr.mk 13 "ROWS"
              (WindowFrameExtend.WindowFrameUnbounded 18 "PRECEDING"))
            38
            (WindowFrameExpr.mk 42 "RANGE" (WindowFrameExtend.WindowFrameCurrentRow 48 59))))
          { tokens := [], current := 59 } :=
  rfl

section
variable {α : Type} (S : Scalar α)

/-- C17, amended.  A bound of `BETWEEN x AND y` is parsed by `parseWindowFrameExpr` itself,
so a leading `ROWS` or `RANGE` is accepted on it: wherever the call accepts a bound `x`
without the prefix, it accepts the same bound with the prefix, and returns it with `Type` the
upper-cased keyword (`"ROWS"` or `"RANGE"`) in place of the empty `Type` of `x`. -/
theorem parseWindowFrameExpr_bound_type (n : Nat) (pos : Pos) (l l2 : Lexer)
    (x : WindowFrameExpr α)
    (hp : l.matchKeyword KeywordRows = true ∨ l.matchKeyword KeywordRange = true)
    (hrows : l.consumeToken.matchKeyword KeywordRows = false)
    (hrange : l.consumeToken.matchKeyword KeywordRange = false)
    (hx : parseWindowFrameExpr S n pos l.consumeToken = Res.ok x l2) :
    parseWindowFrameExpr S n pos l
      = Res.ok (WindowFrameExpr.mk pos (toUpper l.token.String) x.Extend) l2 ∧
    x.Typ = "" ∧
    (toUpper l.token.String = "ROWS" ∨ toUpper l.token.String = "RANGE") := by
  have hl : lastToken l = Res.ok l.token l := by
    rcases hp with h | h <;> exact lastToken_of_matchKeyword h
  have hu : toUpper l.token.String = "ROWS" ∨ toUpper l.token.String = "RANGE" := by
    rcases hp with h | h
    · exact Or.inl (toUpper_of_matchKeyword h)
    · exact Or.inr (toUpper_of_matchKeyword h)
  cases n with
  | zero => cases hx
  | succ n =>
    rw [parseWindowFrameExpr] at hx ⊢
    obtain ⟨ty, l3, hty, hx⟩ := bind_ok_inv hx
    simp only [bind_apply, pure_apply, matchKeyword_apply, hrows, hrange, Bool.or_self,
      Bool.false_eq_true, if_false, Res.ok.injEq] at hty
    obtain ⟨rfl, rfl⟩ := hty
    obtain ⟨e, l4, he, hx⟩ := bind_ok_inv hx
    simp only [pure_apply, Res.ok.injEq] at hx
    obtain ⟨rfl, rfl⟩ := hx
    refine ⟨?_, rfl, hu⟩
    simp only [bind_apply, pure_apply, matchKeyword_apply, consumeToken_apply] at he
    rcases hp with h | h <;>
      simp only [bind_apply, pure_apply, matchKeyword_apply, h, hl, consumeToken_apply,
        Bool.true_or, Bool.or_true, if_true, he, WindowFrameExpr.Extend]

end

/-- Witness of the amended C17 on the bound `ROWS UNBOUNDED PRECEDING`: it is accepted with
`Type = "ROWS"`, as `UNBOUNDED PRECEDING` is with the empty `Type`. -/
theorem parseWindowFrameExpr_bound_type_witness :
    parseWindowFrameExpr Toy.scalar 1 13
        (Toy.lexer [Toy.kw "ROWS" 13, Toy.kw "UNBOUNDED" 18, Toy.kw "PRECEDING" 28])
      = Res.ok (WindowFrameExpr.mk 13 "ROWS"
          (WindowFrameExtend.WindowFrameUnbounded 18 "PRECEDING"))
          { tokens := [], current := 37 } :=
  (parseWindowFrameExpr_bound_type Toy.scalar 1 13
    (Toy.lexer [Toy.kw "ROWS" 13, Toy.kw "UNBOUNDED" 18, Toy.kw "PRECEDING" 28])
    { tokens := [], current := 37 }
    (WindowFrameExpr.mk 13 "" (WindowFrameExtend.WindowFrameUnbounded 18 "PRECEDING"))
    (Or.inl (by decide)) (by decide) (by decide) rfl).1

/-! ## C18: ends of TopExpr and CTEExpr -/

section
variable {α : Type} (S : Scalar α) (E : Ends α)

/-- C18. For every successful `parseTopExpr`, `TopEnd` is the end of the number, or the end
of the `TIES` token when `WITH TIES` is present (the last token consumed).  For every
successful `parseCTEExpr`, `EndPos` is `End()` of the statement parsed between the
parentheses: it is computed from the node built before the closing parenthesis, the last
token the call consumes, and so does not reach it. -/
theorem parseCTEExpr_EndPos (n : Nat) (pos : Pos) :
    (∀ (l l2 : Lexer) (top : TopExpr α), parseTopExpr S pos l = Res.ok top l2 →
      (top.WithTies = false ∧ top.TopEnd = S.End top.Number) ∨
      (top.WithTies = true ∧ ∃ l1 : Lexer, l1.matchKeyword KeywordTies = true ∧
        l2 = l1.consumeToken ∧ top.TopEnd = l1.token.End)) ∧
    (∀ (l l2 : Lexer) (c : CTEExpr α), parseCTEExpr S E n pos l = Res.ok c l2 →
      c.EndPos = E.SelectExpr c.Select ∧
      ∃ k p l0 l1, parseSelectStatement S E k p l0 = Res.ok c.Select l1 ∧
        l1.matchTokenKind ")" = true ∧ l2 = l1.consumeToken) :=
  ⟨fun _ _ _ h => parseTopExpr_TopEnd S h, fun _ _ _ h => parseCTEExpr_inv S E h⟩

end

/-- Witness of C18 on `x AS ( SELECT 1 )`: the closing parenthesis ends at offset 17, and
`EndPos` is 15, the end of `1`.  With the parenthesis two columns further, the last token
consumed ends at 19 and `EndPos` is the same. -/
theorem parseCTEExpr_EndPos_witness :
    parseCTEExpr Toy.scalar Toy.ends 3 0
        (Toy.lexer [Toy.ident "x" 0, Toy.kw "AS" 2, Toy.sym "(" 5, Toy.kw "SELECT" 7,
          Toy.int "1" 14, Toy.sym ")" 16])
      = Res.ok (CTEExpr.mk 0 [Toy.ident "x" 0]
          (SelectExpr.mk none 7 15 none [Toy.int "1" 14] none none none none none none none
            none none none) 15 []) { tokens := [], current := 17 } ∧
    lastConsumedEnd
        (Toy.lexer [Toy.ident "x" 0, Toy.kw "AS" 2, Toy.sym "(" 5, Toy.kw "SELECT" 7,
          Toy.int "1" 14, Toy.sym ")" 16]) { tokens := [], current := 17 } = some 17 ∧
    parseCTEExpr Toy.scalar Toy.ends 3 0
        (Toy.lexer [Toy.ident "x" 0, Toy.kw "AS" 2, Toy.sym "(" 5, Toy.kw "SELECT" 7,
          Toy.int "1" 14, Toy.sym ")" 18])
      = Res.ok (CTEExpr.mk 0 [Toy.ident "x" 0]
          (SelectExpr.mk none 7 15 none [Toy.int "1" 14] none none none none none none none
            none none none) 15 []) { tokens := [], current := 19 } ∧
    lastConsumedEnd
        (Toy.lexer [Toy.ident "x" 0, Toy.kw "AS" 2, Toy.sym "(" 5, Toy.kw "SELECT" 7,
          Toy.int "1" 14, Toy.sym ")" 18]) { tokens := [], current := 19 } = some 19 ∧
    (15 : Pos) = Toy.ends.SelectExpr (SelectExpr.mk none 7 15 none [Toy.int "1" 14] none none
      none none none none none none none none) :=
  ⟨rfl, by decide, rfl, by decide,
   ((parseCTEExpr_EndPos Toy.scalar Toy.ends 3 0).2
    (Toy.lexer [Toy.ident "x" 0, Toy.kw "AS" 2, Toy.sym "(" 5, Toy.kw "SELECT" 7,
      Toy.int "1" 14, Toy.sym ")" 16]) { tokens := [], current := 17 }
    (CTEExpr.mk 0 [Toy.ident "x" 0]
      (SelectExpr.mk none 7 15 none [Toy.int "1" 14] none none none none none none none
        none none none) 15 []) rfl).1⟩

/-! ## C19: start positions of union members -/

section
variable {α : Type} (S : Scalar α) (E : Ends α)

/-- C19. For `s1 UNION ALL s2`, two statements that start with `SELECT` or `WITH`,
`parseSelectUnionExprList` hands its own `pos` to the parse of each of them, and each
statement stores it: both items have `SelectPos = pos`.  The second item does not start at its
own first token. -/
theorem parseSelectUnionExprList_SelectPos (n : Nat) (pos : Pos) (l l1 l2 : Lexer)
    (q1 q2 : SelectExpr α)
    (hs1 : l.matchKeyword KeywordSelect = true ∨ l.matchKeyword KeywordWith = true)
    (h1 : parseSelectStatement S E n pos l = Res.ok q1 l1)
    (hunion : l1.matchKeyword KeywordUnion = true)
    (hall : l1.consumeToken.matchKeyword KeywordAll = true)
    (hs2 : l1.consumeToken.consumeToken.matchKeyword KeywordSelect = true
      ∨ l1.consumeToken.consumeToken.matchKeyword KeywordWith = true)
    (h2 : parseSelectStatement S E n pos l1.consumeToken.consumeToken = Res.ok q2 l2)
    (hend : l2.matchKeyword KeywordUnion = false) :
    parseSelectUnionExprList S E (n + 4) pos l = Res.ok (SelectExprList.mk [q1, q2]) l2 ∧
    q1.SelectPos = pos ∧ q2.SelectPos = pos := by
  refine ⟨?_, (parseSelectStatement_inv S E h1).1, (parseSelectStatement_inv S E h2).1⟩
  have e1 := parseSelectStatement_fuel S E (Nat.le_add_right n 1) h1
  have e2 := parseSelectStatement_fuel S E (Nat.le_refl n) h2
  rcases hs1 with h | h <;> rcases hs2 with h' | h' <;>
    simp [parseSelectUnionExprList, parseSelectUnionExprListLoop, parseSelectQuery,
      bind_apply, pure_apply, matchKeyword_apply, h, h', e1, e2,
      tryConsumeKeyword_true hunion, consumeKeyword_true hall, tryConsumeKeyword_false hend]

end

/-- Witness of C19 on `SELECT 1 UNION ALL SELECT 2` parsed from position 0: the second
`SELECT` is at offset 19, and the second item has `SelectPos = 0`. -/
theorem parseSelectUnionExprList_SelectPos_witness :
    parseSelectUnionExprList Toy.scalar Toy.ends 6 0
        (Toy.lexer [Toy.kw "SELECT" 0, Toy.int "1" 7, Toy.kw "UNION" 9, Toy.kw "ALL" 15,
          Toy.kw "SELECT" 19, Toy.int "2" 26])
      = Res.ok (SelectExprList.mk
          [SelectExpr.mk none 0 8 none [Toy.int "1" 7] none none none none none none none none
             none none,
           SelectExpr.mk none 0 27 none [Toy.int "2" 26] none none none none none none none none
             none none])
          { tokens := [], current := 27 } ∧
    (SelectExpr.mk none 0 8 none [Toy.int "1" 7] none none none none none none none none
      none none).SelectPos = 0 ∧
    (SelectExpr.mk none 0 27 none [Toy.int "2" 26] none none none none none none none none
      none none).SelectPos = 0 :=
  parseSelectUnionExprList_SelectPos Toy.scalar Toy.ends 2 0
    (Toy.lexer [Toy.kw "SELECT" 0, Toy.int "1" 7, Toy.kw "UNION" 9, Toy.kw "ALL" 15,
      Toy.kw "SELECT" 19, Toy.int "2" 26])
    { tokens := [Toy.kw "UNION" 9, Toy.kw "ALL" 15, Toy.kw "SELECT" 19, Toy.int "2" 26],
      current := 27 }
    { tokens := [], current := 27 }
    (SelectExpr.mk none 0 8 none [Toy.int "1" 7] none none none none none none none none
      none none)
    (SelectExpr.mk none 0 27 none [Toy.int "2" 26] none none none none none none none none
      none none)
    (Or.inl (by decide)) rfl (by decide) (by decide) (Or.inl (by decide)) rfl (by decide)

/-! ## C20: enumerated string fields -/

section
variable {α : Type} (S : Scalar α)

/-- C20. `Direction` of a `WindowFrameUnbounded` or `WindowFrameNumber` and `Type` of an
`ArrayJoinExpr` are the text of the keyword token as written (`p.last().String`), with no
upper-casing: after `UNBOUNDED`, or after a number, a `PRECEDING`/`FOLLOWING` token gives
`Direction` its own text, and a leading `LEFT`/`INNER` token gives the array join its own
text as `Type`. -/
theorem parseWindowFrameExpr_direction (n : Nat) (pos : Pos) (l : Lexer) :
    (l.matchKeyword KeywordUnbounded = true →
      (l.consumeToken.matchKeyword KeywordPreceding = true
        ∨ l.consumeToken.matchKeyword KeywordFollowing = true) →
      parseWindowFrameExpr S (n + 1) pos l
        = Res.ok (WindowFrameExpr.mk pos ""
            (WindowFrameExtend.WindowFrameUnbounded l.Pos l.consumeToken.token.String))
            l.consumeToken.consumeToken) ∧
    (∀ (number : α) (l1 : Lexer), l.matchTokenKind TokenInt = true →
      S.parseNumber l.Pos l = Res.ok number l1 →
      (l1.matchKeyword KeywordPreceding = true ∨ l1.matchKeyword KeywordFollowing = true) →
      parseWindowFrameExpr S (n + 1) pos l
        = Res.ok (WindowFrameExpr.mk pos ""
            (WindowFrameExtend.WindowFrameNumber l1.token.End number l1.token.String))
            l1.consumeToken) ∧
    (∀ (e : α) (l2 : Lexer),
      (l.matchKeyword KeywordLeft = true ∨ l.matchKeyword KeywordInner = true) →
      l.consumeToken.matchKeyword KeywordArray = true →
      l.consumeToken.consumeToken.matchKeyword KeywordJoin = true →
      S.parseColumnExprList l.consumeToken.consumeToken.consumeToken.Pos
        l.consumeToken.consumeToken.consumeToken = Res.ok e l2 →
      parseArrayJoin S pos l
        = Res.ok { ArrayPos := l.consumeToken.Pos, Typ := l.token.String, Expr := e } l2) := by
  refine ⟨?_, ?_, ?_⟩
  · intro hu hd
    have e : ∀ k2 ∈ [KeywordRows, KeywordRange, KeywordBetween, KeywordCurrent],
        l.matchKeyword k2 = false := by
      intro k2 hk2
      apply Lexer.matchKeyword_excl hu
      simp only [List.mem_cons, List.mem_singleton, List.not_mem_nil, or_false] at hk2
      rcases hk2 with rfl | rfl | rfl | rfl <;> decide
    have hl : lastToken l.consumeToken = Res.ok l.consumeToken.token l.consumeToken := by
      rcases hd with h | h <;> exact lastToken_of_matchKeyword h
    simp [parseWindowFrameExpr, bind_apply, pure_apply, matchKeyword_apply,
      e KeywordRows (by simp), e KeywordRange (by simp),
      tryConsumeKeyword_false (e KeywordBetween (by simp)), e KeywordCurrent (by simp), hu,
      getPos_apply, consumeToken_apply, hd, hl]
  · intro number l1 hi hn hd
    have e : ∀ k2, l.matchKeyword k2 = false := fun k2 =>
      Lexer.matchKeyword_of_matchTokenKind k2 hi (by decide)
    have hl : lastToken l1 = Res.ok l1.token l1 := by
      rcases hd with h | h <;> exact lastToken_of_matchKeyword h
    simp [parseWindowFrameExpr, bind_apply, pure_apply, matchKeyword_apply, e,
      tryConsumeKeyword_false (e KeywordBetween), matchTokenKind_apply, hi,
      getPos_apply, hn, consumeToken_apply, hd, hl]
  · intro e l2 ht ha hj he
    have hl : lastToken l = Res.ok l.token l := by
      rcases ht with h | h <;> exact lastToken_of_matchKeyword h
    simp [parseArrayJoin, bind_apply, pure_apply, matchKeyword_apply, ht, hl,
      consumeToken_apply, getPos_apply, consumeKeyword_true ha, consumeKeyword_true hj, he]

end

/-- Witness of C20 on the lower-case inputs `unbounded preceding` and `left array join x`:
`Direction` is `"preceding"` and `Type` is `"left"`. -/
theorem parseWindowFrameExpr_direction_witness :
    parseWindowFrameExpr Toy.scalar 1 0
        (Toy.lexer [Toy.kw "unbounded" 0, Toy.kw "preceding" 10])
      = Res.ok (WindowFrameExpr.mk 0 "" (WindowFrameExtend.WindowFrameUnbounded 0 "preceding"))
          { tokens := [], current := 19 } ∧
    parseArrayJoin Toy.scalar 0
        (Toy.lexer [Toy.kw "left" 0, Toy.kw "array" 5, Toy.kw "join" 11, Toy.ident "x" 16])
      = Res.ok { ArrayPos := 5, Typ := "left", Expr := [Toy.ident "x" 16] }
          { tokens := [], current := 17 } :=
  ⟨(parseWindowFrameExpr_direction Toy.scalar 0 0
      (Toy.lexer [Toy.kw "unbounded" 0, Toy.kw "preceding" 10])).1
      (by decide) (Or.inl (by decide)),
   (parseWindowFrameExpr_direction Toy.scalar 0 0
      (Toy.lexer [Toy.kw "left" 0, Toy.kw "array" 5, Toy.kw "join" 11, Toy.ident "x" 16])).2.2
      [Toy.ident "x" 16] { tokens := [], current := 17 }
      (Or.inl (by decide)) (by decide) (by decide) rfl⟩

/-! ## C21: absent clauses -/

section
variable {α : Type} (S : Scalar α) (E : Ends α)

/-- C21. Each try-wrapper, called on a cursor that is not on an introducing keyword or token
of its clause, returns "absent" with no error and leaves the cursor where it was (for the
wrappers of the recursive group, with at least one unit of fuel; `tryParseColumnAliases`
returns the nil slice, the empty list).  When `parseJoinOp` reports no join operator, and
when `tryParseJoinConstraints` reports no constraint, the cursor has not moved either. -/
theorem tryParse_absent (n : Nat) (pos : Pos) (l : Lexer) :
    (l.matchKeyword KeywordWith = false → tryParseWithExpr S E (n + 1) pos l = Res.ok none l) ∧
    (l.matchKeyword KeywordTop = false → tryParseTopExpr S pos l = Res.ok none l) ∧
    (l.matchKeyword KeywordFrom = false → tryParseFromExpr S E (n + 1) pos l = Res.ok none l) ∧
    (l.matchKeyword KeywordPrewhere = false → tryParsePrewhereExpr S pos l = Res.ok none l) ∧
    (l.matchKeyword KeywordWhere = false → tryParseWhereExpr S pos l = Res.ok none l) ∧
    (l.matchKeyword KeywordGroup = false → tryParseGroupByExpr S n pos l = Res.ok none l) ∧
    (l.matchKeyword KeywordLimit = false → tryParseLimitByExpr S pos l = Res.ok none l) ∧
    (l.matchKeyword KeywordRows = false → l.matchKeyword KeywordRange = false →
      tryParseWindowFrameExpr S n pos l = Res.ok none l) ∧
    (l.matchKeyword KeywordWindow = false → tryParseWindowExpr S n pos l = Res.ok none l) ∧
    (l.matchKeyword KeywordLeft = false → l.matchKeyword KeywordInner = false →
      l.matchKeyword KeywordArray = false → tryParseArrayJoin S pos l = Res.ok none l) ∧
    (l.matchKeyword KeywordHaving = false → tryParseHavingExpr S pos l = Res.ok none l) ∧
    (l.matchKeyword KeywordSample = false →
      tryParseSampleRationExpr S pos l = Res.ok none l) ∧
    (l.matchTokenKind "(" = false → tryParseColumnAliases S n l = Res.ok [] l) ∧
    (∀ l2, parseJoinOp S E n pos l = Res.ok none l2 → l2 = l) ∧
    (∀ l2, tryParseJoinConstraints S pos l = Res.ok none l2 → l2 = l) :=
  ⟨tryParseWithExpr_none S E, tryParseTopExpr_none S, tryParseFromExpr_none S E,
   tryParsePrewhereExpr_none S, tryParseWhereExpr_none S, tryParseGroupByExpr_none S,
   tryParseLimitByExpr_none S, tryParseWindowFrameExpr_none S, tryParseWindowExpr_none S,
   tryParseArrayJoin_none S, tryParseHavingExpr_none S, tryParseSampleRationExpr_none S,
   tryParseColumnAliases_none S, fun _ h => parseJoinOp_none_inv S E h,
   fun _ h => tryParseJoinConstraints_none_inv S h⟩

end

/-- Witness of C21 on the cursor at the identifier `x`, which introduces no clause: every
wrapper returns "absent" and the cursor stays. -/
theorem tryParse_absent_witness :
    tryParseWithExpr Toy.scalar Toy.ends 2 0 (Toy.lexer [Toy.ident "x" 0])
      = Res.ok none (Toy.lexer [Toy.ident "x" 0]) ∧
    tryParseTopExpr Toy.scalar 0 (Toy.lexer [Toy.ident "x" 0])
      = Res.ok none (Toy.lexer [Toy.ident "x" 0]) ∧
    tryParseFromExpr Toy.scalar Toy.ends 2 0 (Toy.lexer [Toy.ident "x" 0])
      = Res.ok none (Toy.lexer [Toy.ident "x" 0]) ∧
    tryParsePrewhereExpr Toy.scalar 0 (Toy.lexer [Toy.ident "x" 0])
      = Res.ok none (Toy.lexer [Toy.ident "x" 0]) ∧
    tryParseWhereExpr Toy.scalar 0 (Toy.lexer [Toy.ident "x" 0])
      = Res.ok none (Toy.lexer [Toy.ident "x" 0]) ∧
    tryParseGroupByExpr Toy.scalar 1 0 (Toy.lexer [Toy.ident "x" 0])
      = Res.ok none (Toy.lexer [Toy.ident "x" 0]) ∧
    tryParseLimitByExpr Toy.scalar 0 (Toy.lexer [Toy.ident "x" 0])
      = Res.ok none (Toy.lexer [Toy.ident "x" 0]) ∧
    tryParseWindowFrameExpr Toy.scalar 1 0 (Toy.lexer [Toy.ident "x" 0])
      = Res.ok none (Toy.lexer [Toy.ident "x" 0]) ∧
    tryParseWindowExpr Toy.scalar 1 0 (Toy.lexer [Toy.ident "x" 0])
      = Res.ok none (Toy.lexer [Toy.ident "x" 0]) ∧
    tryParseArrayJoin Toy.scalar 0 (Toy.lexer [Toy.ident "x" 0])
      = Res.ok none (Toy.lexer [Toy.ident "x" 0]) ∧
    tryParseHavingExpr Toy.scalar 0 (Toy.lexer [Toy.ident "x" 0])
      = Res.ok none (Toy.lexer [Toy.ident "x" 0]) ∧
    tryParseSampleRationExpr Toy.scalar 0 (Toy.lexer [Toy.ident "x" 0])
      = Res.ok none (Toy.lexer [Toy.ident "x" 0]) ∧
    tryParseColumnAliases Toy.scalar 1 (Toy.lexer [Toy.ident "x" 0])
      = Res.ok [] (Toy.lexer [Toy.ident "x" 0]) ∧
    parseJoinOp Toy.scalar Toy.ends 1 0 (Toy.lexer [Toy.ident "x" 0])
      = Res.ok none { tokens := [Toy.ident "x" 0], current := 1 } ∧
    ({ tokens := [Toy.ident "x" 0], current := 1 } : Lexer) = Toy.lexer [Toy.ident "x" 0] := by
  obtain ⟨h1, h2, h3, h4, h5, h6, h7, h8, h9, h10, h11, h12, h13, h14, _⟩ :=
    tryParse_absent Toy.scalar Toy.ends 1 0 (Toy.lexer [Toy.ident "x" 0])
  exact ⟨h1 (by decide), h2 (by decide), h3 (by decide), h4 (by decide), h5 (by decide),
    h6 (by decide), h7 (by decide), h8 (by decide) (by decide), h9 (by decide),
    h10 (by decide) (by decide) (by decide), h11 (by decide), h12 (by decide),
    h13 (by decide), rfl, h14 _ rfl⟩

/-! ## C22: termination and progress -/

section
variable {α : Type} {S : Scalar α} (E : Ends α)

/-- C22. Let the scalar layer be safe (each of its parsers returns and does not move the
cursor backwards).  On every cursor `l`, with fuel `8 * (tokens left) + 8` or more,
`parseSelectUnionExprList` and `parseSelectStatement` return, and so do `parseJoinExpr`,
`parseJoinOp`, `parseTableExpr`, `parseWithExpr`, `parseCTEExpr` and (with fuel
`tokens left + 1`) `parseWindowFrameExpr`: the recursion and the loops end.  Whatever the
fuel, a successful `parseSelectUnionExprList` or `parseSelectStatement` leaves a suffix of the
tokens it started with, and a successful `parseSelectStatement` has consumed at least one
token. -/
theorem parse_terminates (hS : SafeScalar S) (pos : Pos) (l : Lexer) :
    (Returns (fun m => parseSelectUnionExprList S E m pos) l (8 * l.tokens.length + 8) ∧
     Returns (fun m => parseSelectStatement S E m pos) l (8 * l.tokens.length + 8) ∧
     Returns (fun m => parseJoinExpr S E m pos) l (8 * l.tokens.length + 8) ∧
     Returns (fun m => parseJoinOp S E m pos) l (8 * l.tokens.length + 8) ∧
     Returns (fun m => parseTableExpr S E m pos) l (8 * l.tokens.length + 8) ∧
     Returns (fun m => parseWithExpr S E m pos) l (8 * l.tokens.length + 8) ∧
     Returns (fun m => parseCTEExpr S E m pos) l (8 * l.tokens.length + 8) ∧
     Returns (fun m => parseWindowFrameExpr S m pos) l (l.tokens.length + 1)) ∧
    (∀ n v l2, parseSelectUnionExprList S E n pos l = Res.ok v l2 →
      l2.tokens <:+ l.tokens) ∧
    (∀ n v l2, parseSelectStatement S E n pos l = Res.ok v l2 →
      l2.tokens <:+ l.tokens ∧ l2.tokens.length < l.tokens.length) := by
  refine ⟨⟨?_, ?_, ?_, ?_, ?_, ?_, ?_, ?_⟩, ?_, ?_⟩
  · exact returns_of_safe (fun n => (mutual_mono S E n).2.2.2.2.2.2.2.2.1 pos)
      (safe_parseSelectUnionExprList E hS pos (Nat.le_refl _))
  · exact returns_of_safe (fun n => (mutual_mono S E n).2.2.2.2.2.2.2.2.2.2.2.2.1 pos)
      (safe_parseSelectStatement E hS pos (Nat.le_refl _))
  · exact returns_of_safe (fun n => (mutual_mono S E n).2.2.2.2.2.2.1 pos)
      (safe_parseJoinExpr E hS pos (Nat.le_refl _))
  · exact returns_of_safe (fun n => (mutual_mono S E n).2.2.2.2.2.1 pos)
      (safe_parseJoinOp E hS pos (Nat.le_refl _))
  · exact returns_of_safe (fun n => (mutual_mono S E n).2.2.2.2.2.2.2.1 pos)
      (safe_parseTableExpr E hS pos (Nat.le_refl _))
  · exact returns_of_safe (fun n => (mutual_mono S E n).2.1 pos)
      (safe_parseWithExpr E hS pos (Nat.le_refl _))
  · exact returns_of_safe (fun n => (mutual_mono S E n).2.2.2.2.2.2.2.2.2.2.2.2.2 pos)
      (safe_parseCTEExpr E hS pos (Nat.le_refl _))
  · exact returns_of_safe (fun n => parseWindowFrameExpr_mono S n pos)
      (safe_parseWindowFrameExpr hS _ _ pos (Nat.le_refl _))
  · intro n v l2 h
    exact forward_of_safe (fun n => (mutual_mono S E n).2.2.2.2.2.2.2.2.1 pos)
      (fun m hm => safe_parseSelectUnionExprList E hS pos hm) h
  · intro n v l2 h
    exact ⟨forward_of_safe (fun n => (mutual_mono S E n).2.2.2.2.2.2.2.2.2.2.2.2.1 pos)
      (fun m hm => safe_parseSelectStatement E hS pos hm) h,
      parseSelectStatement_consumes E hS h⟩

end

/-- Witness of C22 with the small scalar layer, on `SELECT a FROM t`: with fuel 40 the
parsers return, and the statement is parsed with every token consumed. -/
theorem parse_terminates_witness :
    (Returns (fun m => parseSelectUnionExprList Toy.scalar Toy.ends m 0)
        (Toy.lexer [Toy.kw "SELECT" 0, Toy.ident "a" 7, Toy.kw "FROM" 9, Toy.ident "t" 14]) 40 ∧
     Returns (fun m => parseSelectStatement Toy.scalar Toy.ends m 0)
        (Toy.lexer [Toy.kw "SELECT" 0, Toy.ident "a" 7, Toy.kw "FROM" 9, Toy.ident "t" 14]) 40) ∧
    parseSelectStatement Toy.scalar Toy.ends 6 0
        (Toy.lexer [Toy.kw "SELECT" 0, Toy.ident "a" 7, Toy.kw "FROM" 9, Toy.ident "t" 14])
      = Res.ok (SelectExpr.mk none 0 15 none [Toy.ident "a" 7]
          (some (FromExpr.mk 9 (Expr.table (TableExpr.mk 14 15
            (Expr.tableIdentifier { Database := none, Table := [Toy.ident "t" 14] })))))
          none none none none none none none none none) { tokens := [], current := 15 } ∧
    ([] : List Token).length
      < (Toy.lexer [Toy.kw "SELECT" 0, Toy.ident "a" 7, Toy.kw "FROM" 9,
          Toy.ident "t" 14]).tokens.length :=
  ⟨⟨(parse_terminates Toy.ends safeScalar_toy 0
      (Toy.lexer [Toy.kw "SELECT" 0, Toy.ident "a" 7, Toy.kw "FROM" 9, Toy.ident "t" 14])).1.1,
    (parse_terminates Toy.ends safeScalar_toy 0
      (Toy.lexer [Toy.kw "SELECT" 0, Toy.ident "a" 7, Toy.kw "FROM" 9, Toy.ident "t" 14])).1.2.1⟩,
   rfl,
   ((parse_terminates Toy.ends safeScalar_toy 0
      (Toy.lexer [Toy.kw "SELECT" 0, Toy.ident "a" 7, Toy.kw "FROM" 9, Toy.ident "t" 14])).2.2
      6 _ { tokens := [], current := 15 } rfl).2⟩

end ClickHouse
